import Mathlib

/-!
Book_Manage_System: borrow ledger, book store and reader store.

A shallow embedding of `src/book.c`, `src/reader.c` and `src/borrow.c`, of the CSV codec
of `src/utils.c` with the books file of `src/book.c`, and of the renewal dialog of `src/ui.c`.

Modelling conventions.

* A module's static array together with its `*_count` is a `List`: the list holds the
  first `*_count` slots, so `*_count` is the length of the list. The `*_capacity`
  variables are kept as they are in the source.
* C `int` and `time_t` values are embedded in `Int`; `int` is the 32-bit and `time_t` the
  64-bit two's complement integer of the target. An addition that the code performs without
  a guard, `available_count++` in `return_book` and `due_date += ...` in `renew_book`, is
  followed by the reduction into that range (`wrap_int`, `wrap_long`), and `atoi` is the
  conversion of `strtol` to `int`. The other additions and subtractions are guarded by a
  comparison in the code or start from the clock value, and are the mathematical ones.
* A `char[20]` identifier field holds a NUL-terminated string of at most 19 characters
  (`CStr20`). A `const char *` argument is an arbitrary character list, and `strcmp(a, b) == 0`
  is equality of the two character lists. Pointer arguments are non-NULL.
* The clock, the identifier generator and the outcome of opening each data file for
  writing are inputs (`Env`).
* A line of text and a CSV field are character lists; `malloc` succeeds. A function of the
  codec returns `none` where the C code reads or writes outside a buffer.
-/

namespace BookManage

/-! ## Data model (`book.h`, `reader.h`, `borrow.h`) -/

/-- Contents of a `char[20]` field: at most 19 characters before the terminating NUL. -/
abbrev CStr20 : Type := { s : List Char // s.length ≤ 19 }

/-- The pair `strncpy(dst, src, sizeof(dst) - 1); dst[sizeof(dst) - 1] = 0` on a
zeroed `char[20]` destination: the first 19 characters of `src`. -/
def strncpy20 (src : List Char) : CStr20 :=
  ⟨src.take 19, by simp [List.length_take]⟩

/-- `BORROW_STATUS_BORROWED = 0`. -/
def BORROW_STATUS_BORROWED : Int := 0
/-- `BORROW_STATUS_RETURNED = 1`. -/
def BORROW_STATUS_RETURNED : Int := 1
/-- `BORROW_STATUS_OVERDUE = 2`. -/
def BORROW_STATUS_OVERDUE : Int := 2
/-- `BORROW_STATUS_RENEWED = 3`. -/
def BORROW_STATUS_RENEWED : Int := 3

/-- The constant `INT_MAX` of the 32-bit `int`. -/
def INT_MAX : Int := 2147483647
/-- The constant `INT_MIN` of the 32-bit `int`. -/
def INT_MIN : Int := -2147483648
/-- The `int` that 32-bit two's complement arithmetic leaves for the mathematical result
`x`: the value in `INT_MIN .. INT_MAX` that differs from `x` by a multiple of `2^32`. -/
def wrap_int (x : Int) : Int := (x + 2147483648) % 4294967296 - 2147483648
/-- The constant `LONG_MAX` of the 64-bit `long`, which is the type `time_t`. -/
def LONG_MAX : Int := 9223372036854775807
/-- The constant `LONG_MIN` of the 64-bit `long`. -/
def LONG_MIN : Int := -9223372036854775808
/-- The `long` that 64-bit two's complement arithmetic leaves for the mathematical result
`x`: the value in `LONG_MIN .. LONG_MAX` that differs from `x` by a multiple of `2^64`. -/
def wrap_long (x : Int) : Int :=
  (x + 9223372036854775808) % 18446744073709551616 - 9223372036854775808

/-- The number is a value of the type `int`. -/
def is_int (x : Int) : Prop := INT_MIN ≤ x ∧ x ≤ INT_MAX

instance (x : Int) : Decidable (is_int x) := by
  unfold is_int
  infer_instance

/-- The number is a value of the type `long`, which is `time_t`. -/
def is_long (x : Int) : Prop := LONG_MIN ≤ x ∧ x ≤ LONG_MAX

instance (x : Int) : Decidable (is_long x) := by
  unfold is_long
  infer_instance

/-- `#define DEFAULT_BORROW_DAYS 30`. -/
def DEFAULT_BORROW_DAYS : Int := 30
/-- `#define MAX_BORROWS 5000`. -/
def MAX_BORROWS : Int := 5000

/-- The `Book` struct of `book.h`. -/
structure Book where
  id : CStr20
  title : String
  author : String
  publisher : String
  isbn : String
  publish_year : Int
  total_count : Int
  available_count : Int
  deriving DecidableEq

/-- The `Reader` struct of `reader.h`. -/
structure Reader where
  id : CStr20
  name : String
  gender : String
  phone : String
  email : String
  address : String
  max_borrow_count : Int
  current_borrow_count : Int
  deriving DecidableEq

/-- The `BorrowRecord` struct of `borrow.h`; `status` is the enum's integer value. -/
structure BorrowRecord where
  id : CStr20
  book_id : CStr20
  reader_id : CStr20
  borrow_date : Int
  due_date : Int
  return_date : Int
  status : Int
  renew_count : Int
  deriving DecidableEq

/-- The static variables of the three modules. -/
structure State where
  books : List Book
  book_capacity : Int
  readers : List Reader
  reader_capacity : Int
  borrows : List BorrowRecord
  borrow_capacity : Int
  deriving DecidableEq

/-- What the modelled functions read from outside the program. -/
structure Env where
  /-- value of `get_current_time()` -/
  now : Int
  /-- what `generate_id` writes into a 20-byte buffer -/
  generated_id : CStr20
  /-- whether `fopen(BOOKS_FILE, "w")` succeeds -/
  books_file_ok : Bool
  /-- whether `fopen(READERS_FILE, "w")` succeeds -/
  readers_file_ok : Bool
  /-- whether `fopen(BORROWS_FILE, "w")` succeeds -/
  borrows_file_ok : Bool

/-! ## Linear search -/

/-- The search loop shared by all three modules,
`for (i = 0; i < count; i++) if (p(a[i])) { index = i; break; }`:
the first index whose element satisfies `p`, with that element. -/
def find_first {α : Type} (p : α → Bool) : List α → Option (Nat × α)
  | [] => none
  | x :: xs =>
    if p x then some (0, x)
    else
      match find_first p xs with
      | none => none
      | some (i, y) => some (i + 1, y)

/-! ## Book store (`book.c`) -/

/-- Return value of `book_save_data`: `-1` when the file cannot be opened. -/
def book_save_data (env : Env) : Int := if env.books_file_ok then 0 else -1

/-- The function `book_find_by_id`: `some b` stands for return value `0` with `*book = b`,
`none` for return value `-1`. -/
def book_find_by_id (books : List Book) (id : List Char) : Option Book :=
  match find_first (fun b => decide (b.id.val = id)) books with
  | none => none
  | some (_, b) => some b

/-- The function `book_update`: return value and the array afterwards. -/
def book_update (env : Env) (books : List Book) (book : Book) : Int × List Book :=
  match find_first (fun b => decide (b.id.val = book.id.val)) books with
  | none => (-1, books)
  | some (index, _) => (book_save_data env, books.set index book)

/-! ## Reader store (`reader.c`) -/

/-- Return value of `reader_save_data`. -/
def reader_save_data (env : Env) : Int := if env.readers_file_ok then 0 else -1

/-- The function `reader_find_by_id`. -/
def reader_find_by_id (readers : List Reader) (id : List Char) : Option Reader :=
  match find_first (fun r => decide (r.id.val = id)) readers with
  | none => none
  | some (_, r) => some r

/-- The function `reader_update`: the stored `current_borrow_count` is saved before the
`memcpy` and written back after it. -/
def reader_update (env : Env) (readers : List Reader) (reader : Reader) : Int × List Reader :=
  match find_first (fun r => decide (r.id.val = reader.id.val)) readers with
  | none => (-1, readers)
  | some (index, old) =>
    let current_borrow_count := old.current_borrow_count
    (reader_save_data env,
      readers.set index { reader with current_borrow_count := current_borrow_count })

/-! ## Borrow ledger (`borrow.c`) -/

/-- Return value of `borrow_save_data`. -/
def borrow_save_data (env : Env) : Int := if env.borrows_file_ok then 0 else -1

/-- The record that `borrow_book` builds in `*record` (lines 86 to 98): zeroed, then the
generated identifier, the two truncated identifier copies, the dates, the status and the
renewal counter. -/
def new_borrow_record (env : Env) (book_id reader_id : List Char) : BorrowRecord :=
  let borrow_date := env.now
  { id := env.generated_id
    book_id := strncpy20 book_id
    reader_id := strncpy20 reader_id
    borrow_date := borrow_date
    due_date := borrow_date + DEFAULT_BORROW_DAYS * 24 * 60 * 60
    return_date := 0
    status := BORROW_STATUS_BORROWED
    renew_count := 0 }

/-- The function `borrow_book`: return value, state afterwards, and what was written to
`*record` (`none` when the function returns before writing it). -/
def borrow_book (env : Env) (s : State) (book_id reader_id : List Char) :
    Int × State × Option BorrowRecord :=
  if (s.borrows.length : Int) ≥ s.borrow_capacity then (-1, s, none)
  else
    match book_find_by_id s.books book_id with
    | none => (-2, s, none)
    | some book =>
      if book.available_count ≤ 0 then (-3, s, none)
      else
        match reader_find_by_id s.readers reader_id with
        | none => (-4, s, none)
        | some reader =>
          if reader.current_borrow_count ≥ reader.max_borrow_count then (-5, s, none)
          else
            let record := new_borrow_record env book_id reader_id
            let borrows := s.borrows ++ [record]
            let book := { book with available_count := book.available_count - 1 }
            let books := (book_update env s.books book).2
            let reader := { reader with current_borrow_count := reader.current_borrow_count + 1 }
            let readers := (reader_update env s.readers reader).2
            (borrow_save_data env,
              { s with borrows := borrows, books := books, readers := readers },
              some record)

/-- The function `return_book`: return value and state afterwards. The statement
`book.available_count++` has no guard; its result is reduced into the range of `int`. -/
def return_book (env : Env) (s : State) (record_id : List Char) : Int × State :=
  match find_first (fun r => decide (r.id.val = record_id)) s.borrows with
  | none => (-2, s)
  | some (index, rec) =>
    if rec.status = BORROW_STATUS_RETURNED then (-3, s)
    else
      match book_find_by_id s.books rec.book_id.val with
      | none => (-4, s)
      | some book =>
        match reader_find_by_id s.readers rec.reader_id.val with
        | none => (-5, s)
        | some reader =>
          let borrows :=
            s.borrows.set index
              { rec with return_date := env.now, status := BORROW_STATUS_RETURNED }
          let book := { book with available_count := wrap_int (book.available_count + 1) }
          let books := (book_update env s.books book).2
          let readers :=
            if reader.current_borrow_count > 0 then
              (reader_update env s.readers
                { reader with current_borrow_count := reader.current_borrow_count - 1 }).2
            else s.readers
          (borrow_save_data env,
            { s with borrows := borrows, books := books, readers := readers })

/-- `#define MAX_RENEW_COUNT 2`. -/
def MAX_RENEW_COUNT : Int := 2
/-- `#define RENEW_DAYS 15`. -/
def RENEW_DAYS : Int := 15

/-- The function `renew_book`: return value and state afterwards. The overdue path writes
the status into the array and returns without saving. The statement
`due_date += RENEW_DAYS * 24 * 60 * 60` has no guard; its result is reduced into the range of
`time_t`. -/
def renew_book (env : Env) (s : State) (record_id : List Char) (new_due_date : Int) :
    Int × State :=
  match find_first (fun r => decide (r.id.val = record_id)) s.borrows with
  | none => (-2, s)
  | some (index, rec) =>
    if rec.status = BORROW_STATUS_RETURNED then (-3, s)
    else if rec.renew_count ≥ MAX_RENEW_COUNT then (-4, s)
    else
      let current_time := env.now
      if rec.due_date < current_time then
        (-5,
          { s with
            borrows := s.borrows.set index { rec with status := BORROW_STATUS_OVERDUE } })
      else
        let due_date :=
          if new_due_date = 0 then wrap_long (rec.due_date + RENEW_DAYS * 24 * 60 * 60)
          else new_due_date
        (borrow_save_data env,
          { s with
            borrows := s.borrows.set index
              { rec with
                due_date := due_date
                renew_count := rec.renew_count + 1
                status := BORROW_STATUS_RENEWED } })

/-- The loop of `borrow_get_overdue`,
`for (i = 0; i < borrow_count && count < max_count; i++)`, run on the slots from `i` on with
`count` records already copied out: the records copied out from here on, and these slots
afterwards. -/
def borrow_get_overdue_loop (current_time max_count : Int) :
    List BorrowRecord → Int → List BorrowRecord × List BorrowRecord
  | [], _ => ([], [])
  | r :: rest, count =>
    if count < max_count then
      if r.status ≠ BORROW_STATUS_RETURNED ∧ r.due_date < current_time then
        let marked := { r with status := BORROW_STATUS_OVERDUE }
        let res := borrow_get_overdue_loop current_time max_count rest (count + 1)
        (marked :: res.1, marked :: res.2)
      else
        let res := borrow_get_overdue_loop current_time max_count rest count
        (res.1, r :: res.2)
    else ([], r :: rest)

/-- What a call of `borrow_get_overdue` produces. -/
structure OverdueResult where
  /-- the return value -/
  count : Int
  /-- the first `count` slots of the caller's `records` array -/
  records : List BorrowRecord
  /-- the static variables afterwards -/
  state : State
  /-- whether `borrow_save_data` was called -/
  saved : Bool

/-- The function `borrow_get_overdue`. -/
def borrow_get_overdue (env : Env) (s : State) (max_count : Int) : OverdueResult :=
  if max_count ≤ 0 then { count := 0, records := [], state := s, saved := false }
  else
    let current_time := env.now
    let res := borrow_get_overdue_loop current_time max_count s.borrows 0
    let count : Int := res.1.length
    { count := count
      records := res.1
      state := { s with borrows := res.2 }
      saved := decide (count > 0) }

/-- The selection test of `getOverdue` in the specification: not Returned and due before
`now`. -/
def is_overdue (now : Int) (r : BorrowRecord) : Bool :=
  decide (r.status ≠ BORROW_STATUS_RETURNED ∧ r.due_date < now)

/-- A record with its status set to Overdue and every other field kept. -/
def mark_overdue (r : BorrowRecord) : BorrowRecord :=
  { r with status := BORROW_STATUS_OVERDUE }

/-- The result list of `getOverdue(limit)` as the specification words it: of the records
that pass the selection test, in ledger order, the first `limit`, each reported as
Overdue. -/
def overdue_selected (now limit : Int) (l : List BorrowRecord) : List BorrowRecord :=
  ((l.filter (is_overdue now)).take limit.toNat).map mark_overdue

/-! ## Sequences of ledger operations -/

/-- A call of one of the four ledger operations, with what it reads from outside. -/
inductive LedgerOp where
  | borrow (env : Env) (book_id reader_id : List Char)
  | give_back (env : Env) (record_id : List Char)
  | renew (env : Env) (record_id : List Char) (new_due_date : Int)
  | overdue (env : Env) (max_count : Int)

/-- How one call may change the record held in a slot of the ledger: `borrow_book` leaves it
alone; `return_book` may mark a record that is not Returned as Returned at the current
time; `renew_book` may mark a record that is not Returned and below the renewal limit as
Overdue, or renew it; `borrow_get_overdue` may mark a record that is not Returned as
Overdue. -/
def slot_change : LedgerOp → BorrowRecord → BorrowRecord → Prop
  | .borrow _ _ _, r, r' => r' = r
  | .give_back env _, r, r' =>
    r' = r ∨
      (r.status ≠ BORROW_STATUS_RETURNED ∧
        r' = { r with return_date := env.now, status := BORROW_STATUS_RETURNED })
  | .renew env _ new_due_date, r, r' =>
    r' = r ∨
      (r.status ≠ BORROW_STATUS_RETURNED ∧ r.renew_count < 2 ∧
        (r' = mark_overdue r ∨
          (env.now ≤ r.due_date ∧
            r' = { r with
              due_date :=
                if new_due_date = 0 then wrap_long (r.due_date + 15 * 24 * 60 * 60)
                else new_due_date
              renew_count := r.renew_count + 1
              status := BORROW_STATUS_RENEWED })))
  | .overdue _ _, r, r' =>
    r' = r ∨ (r.status ≠ BORROW_STATUS_RETURNED ∧ r' = mark_overdue r)

/-- The state after one call. -/
def step (s : State) : LedgerOp → State
  | .borrow env book_id reader_id => (borrow_book env s book_id reader_id).2.1
  | .give_back env record_id => (return_book env s record_id).2
  | .renew env record_id new_due_date => (renew_book env s record_id new_due_date).2
  | .overdue env max_count => (borrow_get_overdue env s max_count).state

/-- The state after a sequence of calls. -/
def run (s : State) (ops : List LedgerOp) : State := ops.foldl step s

/-! ## Book store and reader store: add, delete, search by title -/

/-- The compaction loop of `book_delete` and `reader_delete`,
`for (i = index; i < count - 1; i++) a[i] = a[i + 1];`, from slot `i` for `n` more
iterations. -/
def shift_left {α : Type} : List α → Nat → Nat → List α
  | a, _, 0 => a
  | a, i, n + 1 =>
    match a[i + 1]? with
    | some x => shift_left (a.set i x) (i + 1) n
    | none => a

/-- The end of `book_delete` and `reader_delete`: the slots from `index + 1` on are moved
one place down and the count is decremented, so that one slot less is in use. -/
def remove_slot {α : Type} (a : List α) (index : Nat) : List α :=
  (shift_left a index (a.length - 1 - index)).take (a.length - 1)

/-- The function `book_add`: return value, the array afterwards, and the caller's `*book`
afterwards (its `id` is filled in when it was empty). -/
def book_add (env : Env) (books : List Book) (book_capacity : Int) (book : Book) :
    Int × List Book × Book :=
  if (books.length : Int) ≥ book_capacity then (-1, books, book)
  else
    let book := if book.id.val.length = 0 then { book with id := env.generated_id } else book
    (book_save_data env, books ++ [book], book)

/-- The function `book_delete`: return value and the array afterwards. -/
def book_delete (env : Env) (books : List Book) (id : List Char) : Int × List Book :=
  match find_first (fun b => decide (b.id.val = id)) books with
  | none => (-1, books)
  | some (index, _) => (book_save_data env, remove_slot books index)

/-- The function `reader_add`. -/
def reader_add (env : Env) (readers : List Reader) (reader_capacity : Int) (reader : Reader) :
    Int × List Reader × Reader :=
  if (readers.length : Int) ≥ reader_capacity then (-1, readers, reader)
  else
    let reader :=
      if reader.id.val.length = 0 then { reader with id := env.generated_id } else reader
    (reader_save_data env, readers ++ [reader], reader)

/-- The function `reader_delete`: `-2` when the reader found still has borrowed books. -/
def reader_delete (env : Env) (readers : List Reader) (id : List Char) : Int × List Reader :=
  match find_first (fun r => decide (r.id.val = id)) readers with
  | none => (-1, readers)
  | some (index, found) =>
    if found.current_borrow_count > 0 then (-2, readers)
    else (reader_save_data env, remove_slot readers index)

/-- The libc function `tolower` in the C locale: the letters `A` to `Z` are mapped to `a` to
`z`, every other character to itself. -/
def tolower (c : Char) : Char :=
  if 'A' ≤ c ∧ c ≤ 'Z' then Char.ofNat (c.toNat + 32) else c

/-- The function `to_lower_case` of `utils.c`: `tolower` on every character. -/
def to_lower_case (str : List Char) : List Char := str.map tolower

/-- The libc function `strstr`, as the test `strstr(haystack, needle) != NULL`: `needle`
starts at some position of `haystack`. -/
def strstr (haystack needle : List Char) : Bool :=
  match haystack with
  | [] => needle.isPrefixOf []
  | c :: rest => needle.isPrefixOf (c :: rest) || strstr rest needle

/-- The function `contains_ignore_case` of `utils.c` (allocation does not fail). -/
def contains_ignore_case (str substr : List Char) : Bool :=
  let str_lower := to_lower_case str
  let substr_lower := to_lower_case substr
  strstr str_lower substr_lower

/-- The loop of `book_find_by_title`,
`for (i = 0; i < book_count && count < max_count; i++)`, on the slots from `i` on with
`count` books already copied out: the books copied out from here on. -/
def book_find_by_title_loop (title : List Char) (max_count : Int) : List Book → Int → List Book
  | [], _ => []
  | b :: rest, count =>
    if count < max_count then
      if contains_ignore_case b.title.toList title then
        b :: book_find_by_title_loop title max_count rest (count + 1)
      else book_find_by_title_loop title max_count rest count
    else []

/-- The function `book_find_by_title`: the return value and the first slots of the caller's
`result_books` array. -/
def book_find_by_title (books : List Book) (title : List Char) (max_count : Int) :
    Int × List Book :=
  if max_count ≤ 0 then (0, [])
  else
    let found := book_find_by_title_loop title max_count books 0
    ((found.length : Int), found)

/-- Two characters are the same when ASCII case is ignored, as the specification words it:
they are equal, or one of them is a capital letter `A` to `Z` (codes 65 to 90) and the other
is the small letter of the same name, 32 codes above it. -/
def same_ignoring_case (a c : Char) : Bool :=
  decide (a = c) ||
    (decide (65 ≤ a.toNat) && decide (a.toNat ≤ 90) && decide (c.toNat = a.toNat + 32)) ||
    (decide (65 ≤ c.toNat) && decide (c.toNat ≤ 90) && decide (a.toNat = c.toNat + 32))

/-- The string `s` stands at the start of `t` when ASCII case is ignored. -/
def starts_ignoring_case : List Char → List Char → Bool
  | [], _ => true
  | _ :: _, [] => false
  | a :: s, c :: t => same_ignoring_case a c && starts_ignoring_case s t

/-- The string `s` occurs in `t` as a contiguous substring when ASCII case is ignored: it
stands at the start of `t` or of what follows some position of `t`. -/
def occurs_ignoring_case (s : List Char) : List Char → Bool
  | [] => starts_ignoring_case s []
  | c :: t => starts_ignoring_case s (c :: t) || occurs_ignoring_case s t

/-- The title test of `findByTitle` as the specification words it: the search string occurs
in the title as a contiguous substring when both are compared case-insensitively. -/
def title_matches (s : List Char) (b : Book) : Prop :=
  occurs_ignoring_case s b.title.toList = true

instance (s : List Char) (b : Book) : Decidable (title_matches s b) := by
  unfold title_matches
  infer_instance

/-! ## Sequences of operations on the whole system -/

/-- A call of a ledger operation or of a store operation that changes the books or the
readers. -/
inductive SystemOp where
  | ledger (op : LedgerOp)
  | book_add (env : Env) (book : Book)
  | book_delete (env : Env) (id : List Char)
  | book_update (env : Env) (book : Book)
  | reader_add (env : Env) (reader : Reader)
  | reader_delete (env : Env) (id : List Char)
  | reader_update (env : Env) (reader : Reader)

/-- The state after one call. -/
def system_step (s : State) : SystemOp → State
  | .ledger op => step s op
  | .book_add env book => { s with books := (book_add env s.books s.book_capacity book).2.1 }
  | .book_delete env id => { s with books := (book_delete env s.books id).2 }
  | .book_update env book => { s with books := (book_update env s.books book).2 }
  | .reader_add env reader =>
    { s with readers := (reader_add env s.readers s.reader_capacity reader).2.1 }
  | .reader_delete env id => { s with readers := (reader_delete env s.readers id).2 }
  | .reader_update env reader => { s with readers := (reader_update env s.readers reader).2 }

/-- The state after a sequence of calls. -/
def system_run (s : State) (ops : List SystemOp) : State := ops.foldl system_step s

/-- The copy counts of a book are consistent: `0 <= available_count <= total_count`. -/
def counts_ok (b : Book) : Prop := 0 ≤ b.available_count ∧ b.available_count ≤ b.total_count

instance (b : Book) : Decidable (counts_ok b) := by
  unfold counts_ok
  infer_instance

/-- The record that a call of `book_add` or `book_update` supplies has consistent copy
counts (no condition on the other calls). -/
def supplied_counts_ok : SystemOp → Prop
  | .book_add _ book => counts_ok book
  | .book_update _ book => counts_ok book
  | _ => True

/-- The call is not `return_book`. -/
def not_return : SystemOp → Prop
  | .ledger (.give_back _ _) => False
  | _ => True

/-- The call is not `book_add` or `reader_add`. -/
def not_add : SystemOp → Prop
  | .book_add _ _ => False
  | .reader_add _ _ => False
  | _ => True

/-- The call is not a `return_book` that passes its checks and finds its book with
`available_count = INT_MAX` or more: the increment of `return_book` stays in the range of
`int`. -/
def return_has_room (s : State) : SystemOp → Bool
  | .ledger (.give_back _ record_id) =>
    match find_first (fun r => decide (r.id.val = record_id)) s.borrows with
    | none => true
    | some (_, rec) =>
      match book_find_by_id s.books rec.book_id.val with
      | none => true
      | some book => decide (book.available_count < INT_MAX)
  | _ => true

/-- Every call of the sequence, made in the state that the calls before it have left,
satisfies `return_has_room`. -/
def returns_have_room : State → List SystemOp → Bool
  | _, [] => true
  | s, op :: rest => return_has_room s op && returns_have_room (system_step s op) rest

/-! ## CSV codec (`utils.c`) and the data file of the book store -/

/-- The libc function `isspace` in the C locale: space, `\t`, `\n`, `\v`, `\f`, `\r`. -/
def isspace (c : Char) : Bool :=
  c = ' ' || (9 ≤ c.toNat && c.toNat ≤ 13)

/-- The step "remove surrounding quotes" of `parse_csv_line` on a field of length `len`:
when the first and the last character are double quotes, `memmove(f, f + 1, len - 2)` and
`f[len - 2] = 0`. The result is `none` when that step runs with `len < 2`, where `len - 2` is
negative and the copy and the store leave the buffer. -/
def strip_quotes (f : List Char) : Option (List Char) :=
  let len := f.length
  if f.head? = some '"' ∧ f.getLast? = some '"' then
    if len < 2 then none else some ((f.drop 1).take (len - 2))
  else some f

/-- The scanning loop of `parse_csv_line` and the "last field" step after it. `cur` is the
text between `field_start` and `p`, `done` the fields stored so far (`field_count` is its
length). -/
def parse_csv_loop (max_fields : Nat) :
    List Char → List Char → Bool → List (List Char) → Option (List (List Char))
  | [], cur, _, done =>
    if done.length < max_fields then
      match strip_quotes cur with
      | none => none
      | some f => some (done ++ [f])
    else some done
  | c :: rest, cur, in_quotes, done =>
    if done.length < max_fields then
      if c = '"' then parse_csv_loop max_fields rest (cur ++ [c]) (!in_quotes) done
      else if c = ',' ∧ in_quotes = false then
        match strip_quotes cur with
        | none => none
        | some f => parse_csv_loop max_fields rest [] in_quotes (done ++ [f])
      else parse_csv_loop max_fields rest (cur ++ [c]) in_quotes done
    else some done

/-- The function `parse_csv_line` (allocation does not fail): the return value and the
fields stored, or `none` when the quote removal leaves the field buffer. -/
def parse_csv_line (line : List Char) (max_fields : Int) : Option (Int × List (List Char)) :=
  if max_fields ≤ 0 then some (0, [])
  else
    match parse_csv_loop max_fields.toNat line [] false [] with
    | none => none
    | some fields => some ((fields.length : Int), fields)

/-- The test of `fields_to_csv_line` for a field: it contains a comma, a double quote or a
whitespace character. -/
def need_quotes (f : List Char) : Bool :=
  f.any (fun c => c = ',' || c = '"' || isspace c)

/-- The loop of `fields_to_csv_line` on the remaining fields; `line` is the text written so
far (`pos` is its length) into a buffer of `size` bytes. A field that does not fit is
written as far as `snprintf` writes it, and the loop is left. -/
def fields_to_csv_loop (size : Nat) : List (List Char) → List Char → List Char
  | [], line => line
  | f :: rest, line =>
    let text := if need_quotes f then ['"'] ++ f ++ ['"'] else f
    if text.length ≥ size - line.length then line ++ text.take (size - line.length - 1)
    else
      let line := line ++ text
      match rest with
      | [] => line
      | _ :: _ =>
        if line.length < size - 1 then fields_to_csv_loop size rest (line ++ [','])
        else line

/-- The function `fields_to_csv_line`: the text in the buffer `line` afterwards, `before`
being the text it held. -/
def fields_to_csv_line (fields : List (List Char)) (size : Nat) (before : List Char) :
    List Char :=
  if size = 0 ∨ fields = [] then before else fields_to_csv_loop size fields []

/-- One field as the specification writes it: in double quotes exactly when it contains a
comma or a whitespace character. -/
def csv_field_spec (f : List Char) : List Char :=
  if f.any (fun c => c = ',' || isspace c) then ['"'] ++ f ++ ['"'] else f

/-- A line as the specification writes it: the fields, each as `csv_field_spec`, separated
by commas. -/
def csv_line_spec : List (List Char) → List Char
  | [] => []
  | [f] => csv_field_spec f
  | f :: g :: rest => csv_field_spec f ++ [','] ++ csv_line_spec (g :: rest)

/-- The conversion `%d` of `fprintf`. -/
def print_int (n : Int) : List Char :=
  if n < 0 then '-' :: Nat.toDigits 10 n.natAbs else Nat.toDigits 10 n.toNat

/-- The digits part of `atoi`. -/
def atoi_digits : Nat → List Char → Nat
  | acc, [] => acc
  | acc, c :: rest =>
    if c.isDigit then atoi_digits (acc * 10 + (c.toNat - '0'.toNat)) rest else acc

/-- The libc function `strtol(str, NULL, 10)`: leading whitespace, an optional sign, then
digits; a value outside the range of `long` is replaced by `LONG_MAX` or `LONG_MIN`. -/
def strtol (str : List Char) : Int :=
  let value : Int :=
    match str.dropWhile isspace with
    | '-' :: rest => -((atoi_digits 0 rest : Nat) : Int)
    | '+' :: rest => ((atoi_digits 0 rest : Nat) : Int)
    | rest => ((atoi_digits 0 rest : Nat) : Int)
  if value > LONG_MAX then LONG_MAX else if value < LONG_MIN then LONG_MIN else value

/-- The libc function `atoi`, which is `(int) strtol(str, NULL, 10)`: the conversion to
`int` keeps the low 32 bits. -/
def atoi (str : List Char) : Int := wrap_int (strtol str)

/-- `#define MAX_LINE_SIZE 1024`. -/
def MAX_LINE_SIZE : Nat := 1024

/-- The line that `book_save_data` writes for one book,
`fprintf(file, "%s,%s,%s,%s,%s,%d,%d,%d\n", ...)`. -/
def book_line (b : Book) : List Char :=
  b.id.val ++ [','] ++ b.title.toList ++ [','] ++ b.author.toList ++ [','] ++
    b.publisher.toList ++ [','] ++ b.isbn.toList ++ [','] ++ print_int b.publish_year ++
    [','] ++ print_int b.total_count ++ [','] ++ print_int b.available_count ++ ['\n']

/-- The text that `book_save_data` writes when the file can be opened: the title line and
one line for each book. -/
def book_file_text (books : List Book) : List Char :=
  "id,title,author,publisher,isbn,publish_year,total_count,available_count\n".toList ++
    (books.map book_line).flatten

/-- The characters that `fgets` stores when it may still store `n`: up to and including
the first newline; and the input left. -/
def fgets_take : Nat → List Char → List Char × List Char
  | 0, input => ([], input)
  | _ + 1, [] => ([], [])
  | n + 1, c :: rest =>
    if c = '\n' then ([c], rest)
    else ((c :: (fgets_take n rest).1), (fgets_take n rest).2)

/-- The libc function `fgets(line, size, file)`: `none` at the end of the file. -/
def fgets (size : Nat) (input : List Char) : Option (List Char × List Char) :=
  match input with
  | [] => none
  | _ :: _ => some (fgets_take (size - 1) input)

/-- The statement `line[strcspn(line, "\n")] = 0`. -/
def chomp (line : List Char) : List Char := line.takeWhile (fun c => c ≠ '\n')

/-- The book that `book_load_data` builds from eight fields: five bounded string copies and
three `atoi` conversions. -/
def book_of_fields (fields : List (List Char)) : Book :=
  { id := strncpy20 (fields.getD 0 [])
    title := String.mk ((fields.getD 1 []).take 99)
    author := String.mk ((fields.getD 2 []).take 49)
    publisher := String.mk ((fields.getD 3 []).take 49)
    isbn := String.mk ((fields.getD 4 []).take 19)
    publish_year := atoi (fields.getD 5 [])
    total_count := atoi (fields.getD 6 [])
    available_count := atoi (fields.getD 7 []) }

/-- The reading loop of `book_load_data`,
`while (fgets(...) != NULL && book_count < book_capacity)`; every pass takes at least one
character from the input, and `fuel` bounds the number of passes. The result is `none`
when `parse_csv_line` leaves a field buffer. -/
def book_load_loop (book_capacity : Int) : Nat → List Char → List Book → Option (List Book)
  | 0, _, books => some books
  | fuel + 1, input, books =>
    match fgets MAX_LINE_SIZE input with
    | none => some books
    | some (line, rest) =>
      if (books.length : Int) < book_capacity then
        match parse_csv_line (chomp line) 8 with
        | none => none
        | some (count, fields) =>
          if count ≠ 8 then book_load_loop book_capacity fuel rest books
          else book_load_loop book_capacity fuel rest (books ++ [book_of_fields fields])
      else some books

/-- The function `book_load_data` on the text of the books file (`none`: the file does not
exist), as the array afterwards, `books` being the array before; the return value is `0` on
every path that opens the file. -/
def book_load_data (file : Option (List Char)) (book_capacity : Int) (books : List Book) :
    Option (List Book) :=
  match file with
  | none => some books
  | some text =>
    match fgets MAX_LINE_SIZE text with
    | none => some books
    | some (_, rest) => book_load_loop book_capacity rest.length rest []

/-- The accepted path of the renewal dialog of `ui.c` with the number `days` read from the
entry: an error message for `days <= 0`, otherwise the call `renew_book(borrow_id, days)`.
The result is the state afterwards. -/
def ui_renew_dialog_accept (env : Env) (s : State) (borrow_id : List Char) (days : Int) :
    State :=
  if days ≤ 0 then s else (renew_book env s borrow_id days).2

/-! ## Example data -/

/-- Identifier literal: the characters of `s` as stored in a `char[20]` field. -/
def cstr (s : String) : CStr20 := strncpy20 s.toList

/-- A book with identifier `id` and the given counts. -/
def mkBook (id : String) (total available : Int) : Book :=
  { id := cstr id, title := "T", author := "A", publisher := "P", isbn := "I",
    publish_year := 2020, total_count := total, available_count := available }

/-- A reader with identifier `id` and the given counts. -/
def mkReader (id : String) (max current : Int) : Reader :=
  { id := cstr id, name := "N", gender := "G", phone := "1", email := "E", address := "D",
    max_borrow_count := max, current_borrow_count := current }

/-- A clock value, a generated identifier, and all three files writable. -/
def env0 : Env :=
  { now := 1000, generated_id := cstr "BR1", books_file_ok := true,
    readers_file_ok := true, borrows_file_ok := true }

/-- As `env0`, but the ledger file cannot be opened for writing. -/
def env_ledger_unwritable : Env := { env0 with borrows_file_ok := false }

/-- One book with a single available copy, one reader below the limit, empty ledger. -/
def state0 : State :=
  { books := [mkBook "B1" 1 1], book_capacity := 1000,
    readers := [mkReader "R1" 1 0], reader_capacity := 1000,
    borrows := [], borrow_capacity := MAX_BORROWS }

/-- As `state0`, with a second book that has an available copy. -/
def state_two_books : State :=
  { state0 with books := [mkBook "B1" 1 1, mkBook "B2" 1 1] }

/-- As `state0`, with a ledger holding `MAX_BORROWS - 1 = 4999` records. -/
def state_almost_full : State :=
  { state0 with borrows := List.replicate 4999 (new_borrow_record env0 "B0".toList "R0".toList) }

/-- The book `B1` is lent to the reader `R1`: no available copy, one open record `BR1`,
and the reader's counter at `1`. -/
def state_on_loan : State :=
  { books := [mkBook "B1" 1 0], book_capacity := 1000,
    readers := [mkReader "R1" 1 1], reader_capacity := 1000,
    borrows := [new_borrow_record env0 "B1".toList "R1".toList],
    borrow_capacity := MAX_BORROWS }

/-- As `env0`, at a time after the due date of the record in `state_on_loan`. -/
def env_late : Env := { env0 with now := 5000000 }

/-- As `env0`, with the clock at the epoch. -/
def env_epoch : Env := { env0 with now := 0 }

/-- As `state_on_loan`, with the renewal counter of the record at `-1`. -/
def state_negative_renew : State :=
  { state_on_loan with
    borrows := [{ new_borrow_record env0 "B1".toList "R1".toList with renew_count := -1 }] }

/-- As `state_on_loan`, after the record `BR1` has been returned at time `1000`. -/
def state_returned : State := (return_book env0 state_on_loan "BR1".toList).2

/-- As `state_on_loan`, after a renewal attempt past the due date has marked the record
`BR1` Overdue. -/
def state_marked_overdue : State := (renew_book env_late state_on_loan "BR1".toList 0).2

/-- As `env0`, but the books file cannot be opened for writing. -/
def env_books_unwritable : Env := { env0 with books_file_ok := false }

/-- As `state_on_loan`, with `INT_MAX` copies of the book `B1`, all of them available. -/
def state_int_max : State :=
  { state_on_loan with books := [mkBook "B1" 2147483647 2147483647] }

/-- As `state_on_loan`, after the record `BR1` has been renewed with `LONG_MAX` as the new
due date. -/
def state_far_due : State :=
  (renew_book env0 state_on_loan "BR1".toList 9223372036854775807).2

/-- As `env0`, with `BR2` as the generated identifier. -/
def env_second_id : Env := { env0 with generated_id := cstr "BR2" }

/-- A ledger of two records that are due before the time of `env_late`: `BR1` with status
Borrowed and, after it, `BR2` with status Overdue. -/
def state_two_due : State :=
  { state_on_loan with
    borrows :=
      [new_borrow_record env0 "B1".toList "R1".toList,
        { new_borrow_record env_second_id "B1".toList "R1".toList with
          status := BORROW_STATUS_OVERDUE }] }

/-- Three books whose titles differ in the case of their letters. -/
def books_mixed_case : List Book :=
  [{ mkBook "B1" 1 1 with title := "The C Book" },
    { mkBook "B2" 1 1 with title := "Lean" },
    { mkBook "B3" 1 1 with title := "abc books" }]

/-- A book whose title holds a comma and no double quote. -/
def book_comma_title : Book := { mkBook "B2" 3 2 with title := "A,B" }

/-- The text of a books file: the title line and one data line of nine fields. -/
def books_text_nine_fields : List Char :=
  ("id,title,author,publisher,isbn,publish_year,total_count,available_count\n" ++
    "B9,T,A,P,I,2020,1,1,extra\n").toList

/-- The text of a books file: the title line, a data line of seven fields and a data line
of eight fields. -/
def books_text_seven_fields : List Char :=
  ("id,title,author,publisher,isbn,publish_year,total_count,available_count\n" ++
    "B7,T,A,P,I,2020,1\n" ++ "B8,T,A,P,I,2020,1,1\n").toList

/-! ## Facts about the range of `int` and `long` -/

/-- The reduction into the range of `int` leaves a value of that range as it is. -/
theorem wrap_int_of_is_int (x : Int) (h : is_int x) : wrap_int x = x := by
  unfold is_int INT_MIN INT_MAX at h
  unfold wrap_int
  omega

/-- The reduction into the range of `long` leaves a value of that range as it is. -/
theorem wrap_long_of_is_long (x : Int) (h : is_long x) : wrap_long x = x := by
  unfold is_long LONG_MIN LONG_MAX at h
  unfold wrap_long
  omega

/-- The increment of an `int` below `INT_MAX` is the mathematical one. -/
theorem wrap_int_succ (x : Int) (h : is_int x) (hlt : x < INT_MAX) :
    wrap_int (x + 1) = x + 1 := by
  apply wrap_int_of_is_int
  unfold is_int INT_MIN INT_MAX at *
  omega

/-- The increment of `INT_MAX` is `INT_MIN`. -/
theorem wrap_int_succ_max : wrap_int (INT_MAX + 1) = INT_MIN := by
  decide

/-- Every result of the reduction is a value of the type `int`. -/
theorem is_int_wrap_int (x : Int) : is_int (wrap_int x) := by
  unfold is_int INT_MIN INT_MAX wrap_int
  omega

/-! ## Facts about the search loop -/

theorem find_first_some {α : Type} (p : α → Bool) :
    ∀ (l : List α) (i : Nat) (x : α), find_first p l = some (i, x) →
      l[i]? = some x ∧ p x = true ∧ ∀ j y, j < i → l[j]? = some y → p y = false := by
  intro l
  induction l with
  | nil => intro i x h; simp [find_first] at h
  | cons a t ih =>
    intro i x h
    unfold find_first at h
    by_cases hp : p a = true
    · simp only [hp, if_true, Option.some.injEq, Prod.mk.injEq] at h
      obtain ⟨hi, hx⟩ := h
      subst hi; subst hx
      refine ⟨by simp, hp, ?_⟩
      intro j y hj _
      omega
    · simp only [hp] at h
      cases hrec : find_first p t with
      | none => simp [hrec] at h
      | some q =>
        obtain ⟨k, z⟩ := q
        simp only [hrec, Bool.false_eq_true, if_false, Option.some.injEq, Prod.mk.injEq] at h
        obtain ⟨hi, hx⟩ := h
        subst hi; subst hx
        obtain ⟨h1, h2, h3⟩ := ih k z hrec
        refine ⟨by simpa using h1, h2, ?_⟩
        intro j y hj hy
        cases j with
        | zero =>
          simp only [List.getElem?_cons_zero, Option.some.injEq] at hy
          subst hy
          simpa using hp
        | succ m =>
          simp only [List.getElem?_cons_succ] at hy
          exact h3 m y (by omega) hy

theorem find_first_none {α : Type} (p : α → Bool) :
    ∀ (l : List α), find_first p l = none ↔ ∀ x ∈ l, p x = false := by
  intro l
  induction l with
  | nil => simp [find_first]
  | cons a t ih =>
    unfold find_first
    by_cases hp : p a = true
    · simp [hp]
    · have hp2 : p a = false := by simpa using hp
      cases hrec : find_first p t with
      | none =>
        have hall := ih.mp hrec
        simp only [hp2, Bool.false_eq_true, if_false, List.mem_cons, forall_eq_or_imp, true_and,
          true_iff]
        exact hall
      | some q =>
        obtain ⟨k, z⟩ := q
        simp only [hp2, Bool.false_eq_true, if_false, List.mem_cons, forall_eq_or_imp, true_and]
        constructor
        · intro h
          cases h
        · intro hall
          have hnone := ih.mpr hall
          rw [hrec] at hnone
          cases hnone

theorem find_first_set {α : Type} (p : α → Bool) :
    ∀ (l : List α) (i : Nat) (x y : α), find_first p l = some (i, x) → p y = true →
      find_first p (l.set i y) = some (i, y) := by
  intro l
  induction l with
  | nil => intro i x y h; simp [find_first] at h
  | cons a t ih =>
    intro i x y h hy
    unfold find_first at h
    by_cases hp : p a = true
    · simp only [hp, if_true, Option.some.injEq, Prod.mk.injEq] at h
      obtain ⟨hi, _⟩ := h
      subst hi
      simp [find_first, hy]
    · have hp2 : p a = false := by simpa using hp
      cases hrec : find_first p t with
      | none => simp [hrec, hp2] at h
      | some q =>
        obtain ⟨k, z⟩ := q
        simp only [hrec, hp2, Bool.false_eq_true, if_false, Option.some.injEq,
          Prod.mk.injEq] at h
        obtain ⟨hi, hx⟩ := h
        subst hi; subst hx
        have := ih k z y hrec hy
        simp [find_first, hp2, this]

theorem set_eq_self_of_getElem? {α : Type} :
    ∀ (l : List α) (i : Nat) (x : α), l[i]? = some x → l.set i x = l := by
  intro l
  induction l with
  | nil => intro i x h; simp at h
  | cons a t ih =>
    intro i x h
    cases i with
    | zero => simp at h; simp [h]
    | succ k => simp at h; simp [ih k x h]

/-! ## Facts about the stores -/

theorem strncpy20_val_of_le (src : List Char) (h : src.length ≤ 19) :
    (strncpy20 src).val = src := by
  simp [strncpy20, List.take_of_length_le h]

theorem strncpy20_val_of_eq (c : CStr20) (src : List Char) (h : c.val = src) :
    (strncpy20 src).val = src := by
  apply strncpy20_val_of_le
  rw [← h]
  exact c.property

theorem book_find_by_id_eq_some (books : List Book) (id : List Char) (b : Book) :
    book_find_by_id books id = some b ↔
      ∃ i, find_first (fun x => decide (x.id.val = id)) books = some (i, b) := by
  unfold book_find_by_id
  cases h : find_first (fun x => decide (x.id.val = id)) books with
  | none => simp
  | some q =>
    obtain ⟨k, z⟩ := q
    simp

theorem book_find_by_id_eq_none (books : List Book) (id : List Char) :
    book_find_by_id books id = none ↔
      find_first (fun x => decide (x.id.val = id)) books = none := by
  unfold book_find_by_id
  cases h : find_first (fun x => decide (x.id.val = id)) books with
  | none => simp
  | some q =>
    obtain ⟨k, z⟩ := q
    simp

theorem reader_find_by_id_eq_some (readers : List Reader) (id : List Char) (r : Reader) :
    reader_find_by_id readers id = some r ↔
      ∃ i, find_first (fun x => decide (x.id.val = id)) readers = some (i, r) := by
  unfold reader_find_by_id
  cases h : find_first (fun x => decide (x.id.val = id)) readers with
  | none => simp
  | some q =>
    obtain ⟨k, z⟩ := q
    simp

theorem reader_find_by_id_eq_none (readers : List Reader) (id : List Char) :
    reader_find_by_id readers id = none ↔
      find_first (fun x => decide (x.id.val = id)) readers = none := by
  unfold reader_find_by_id
  cases h : find_first (fun x => decide (x.id.val = id)) readers with
  | none => simp
  | some q =>
    obtain ⟨k, z⟩ := q
    simp

theorem book_find_by_id_id (books : List Book) (id : List Char) (b : Book)
    (h : book_find_by_id books id = some b) : b.id.val = id := by
  obtain ⟨i, hi⟩ := (book_find_by_id_eq_some books id b).mp h
  simpa using (find_first_some _ books i b hi).2.1

theorem reader_find_by_id_id (readers : List Reader) (id : List Char) (r : Reader)
    (h : reader_find_by_id readers id = some r) : r.id.val = id := by
  obtain ⟨i, hi⟩ := (reader_find_by_id_eq_some readers id r).mp h
  simpa using (find_first_some _ readers i r hi).2.1

/-- Updating with a record that carries the identifier of the book found under `id`
overwrites the slot where that book was found. -/
theorem book_update_found (env : Env) (books : List Book) (id : List Char) (i : Nat)
    (b b' : Book) (h : find_first (fun x => decide (x.id.val = id)) books = some (i, b))
    (hid : b'.id = b.id) :
    book_update env books b' = (book_save_data env, books.set i b') := by
  have hb : b.id.val = id := by simpa using (find_first_some _ books i b h).2.1
  have hid2 : b'.id.val = id := by rw [hid]; exact hb
  unfold book_update
  rw [hid2, h]

/-- Updating with a record that carries the identifier of the reader found under `id`
overwrites the slot where that reader was found, except for `current_borrow_count`. -/
theorem reader_update_found (env : Env) (readers : List Reader) (id : List Char) (i : Nat)
    (r r' : Reader) (h : find_first (fun x => decide (x.id.val = id)) readers = some (i, r))
    (hid : r'.id = r.id) :
    reader_update env readers r' =
      (reader_save_data env,
        readers.set i { r' with current_borrow_count := r.current_borrow_count }) := by
  have hr : r.id.val = id := by simpa using (find_first_some _ readers i r h).2.1
  have hid2 : r'.id.val = id := by rw [hid]; exact hr
  unfold reader_update
  rw [hid2, h]

/-- Writing a reader back with only `current_borrow_count` changed leaves the array as it
was. -/
theorem reader_update_count_only (env : Env) (readers : List Reader) (id : List Char)
    (i : Nat) (r : Reader) (c : Int)
    (h : find_first (fun x => decide (x.id.val = id)) readers = some (i, r)) :
    (reader_update env readers { r with current_borrow_count := c }).2 = readers := by
  rw [reader_update_found env readers id i r { r with current_borrow_count := c } h rfl]
  exact set_eq_self_of_getElem? readers i r (find_first_some _ readers i r h).1

/-! ## What `borrow_book` computes -/

/-- The state and return value of `borrow_book` once all five checks have passed. -/
theorem borrow_book_of_valid (env : Env) (s : State) (bid rid : List Char)
    (ib : Nat) (b : Book) (ir : Nat) (r : Reader)
    (hcap : (s.borrows.length : Int) < s.borrow_capacity)
    (hb : find_first (fun x => decide (x.id.val = bid)) s.books = some (ib, b))
    (hav : 0 < b.available_count)
    (hr : find_first (fun x => decide (x.id.val = rid)) s.readers = some (ir, r))
    (hlim : r.current_borrow_count < r.max_borrow_count) :
    borrow_book env s bid rid =
      (borrow_save_data env,
        { s with
          borrows := s.borrows ++ [new_borrow_record env bid rid]
          books := s.books.set ib { b with available_count := b.available_count - 1 } },
        some (new_borrow_record env bid rid)) := by
  have hfb : book_find_by_id s.books bid = some b :=
    (book_find_by_id_eq_some s.books bid b).mpr ⟨ib, hb⟩
  have hfr : reader_find_by_id s.readers rid = some r :=
    (reader_find_by_id_eq_some s.readers rid r).mpr ⟨ir, hr⟩
  have hbu := book_update_found env s.books bid ib b
    { b with available_count := b.available_count - 1 } hb rfl
  have hru := reader_update_count_only env s.readers rid ir r (r.current_borrow_count + 1) hr
  unfold borrow_book
  rw [if_neg (not_le.mpr hcap)]
  simp only [hfb, hfr]
  rw [if_neg (not_le.mpr hav), if_neg (not_le.mpr hlim), hbu, hru]

/-- The six ways through `borrow_book`. -/
theorem borrow_book_cases (env : Env) (s : State) (bid rid : List Char) :
    (s.borrow_capacity ≤ (s.borrows.length : Int) ∧
        borrow_book env s bid rid = (-1, s, none)) ∨
    ((s.borrows.length : Int) < s.borrow_capacity ∧ book_find_by_id s.books bid = none ∧
        borrow_book env s bid rid = (-2, s, none)) ∨
    ((s.borrows.length : Int) < s.borrow_capacity ∧
        ∃ b, book_find_by_id s.books bid = some b ∧ b.available_count ≤ 0 ∧
          borrow_book env s bid rid = (-3, s, none)) ∨
    ((s.borrows.length : Int) < s.borrow_capacity ∧
        ∃ b, book_find_by_id s.books bid = some b ∧ 0 < b.available_count ∧
          reader_find_by_id s.readers rid = none ∧
          borrow_book env s bid rid = (-4, s, none)) ∨
    ((s.borrows.length : Int) < s.borrow_capacity ∧
        ∃ b r, book_find_by_id s.books bid = some b ∧ 0 < b.available_count ∧
          reader_find_by_id s.readers rid = some r ∧
          r.max_borrow_count ≤ r.current_borrow_count ∧
          borrow_book env s bid rid = (-5, s, none)) ∨
    ((s.borrows.length : Int) < s.borrow_capacity ∧
        ∃ ib b ir r,
          find_first (fun x => decide (x.id.val = bid)) s.books = some (ib, b) ∧
          0 < b.available_count ∧
          find_first (fun x => decide (x.id.val = rid)) s.readers = some (ir, r) ∧
          r.current_borrow_count < r.max_borrow_count ∧
          borrow_book env s bid rid =
            (borrow_save_data env,
              { s with
                borrows := s.borrows ++ [new_borrow_record env bid rid]
                books := s.books.set ib { b with available_count := b.available_count - 1 } },
              some (new_borrow_record env bid rid))) := by
  by_cases hcap : s.borrow_capacity ≤ (s.borrows.length : Int)
  · left
    refine ⟨hcap, ?_⟩
    unfold borrow_book
    rw [if_pos hcap]
  · right
    have hcap2 : (s.borrows.length : Int) < s.borrow_capacity := not_le.mp hcap
    cases hfb : book_find_by_id s.books bid with
    | none =>
      left
      refine ⟨hcap2, rfl, ?_⟩
      unfold borrow_book
      rw [if_neg hcap]
      simp only [hfb]
    | some b =>
      right
      by_cases hav : b.available_count ≤ 0
      · left
        refine ⟨hcap2, b, rfl, hav, ?_⟩
        unfold borrow_book
        rw [if_neg hcap]
        simp only [hfb]
        rw [if_pos hav]
      · right
        have hav2 : 0 < b.available_count := not_le.mp hav
        cases hfr : reader_find_by_id s.readers rid with
        | none =>
          left
          refine ⟨hcap2, b, rfl, hav2, rfl, ?_⟩
          unfold borrow_book
          rw [if_neg hcap]
          simp only [hfb, hfr]
          rw [if_neg hav]
        | some r =>
          right
          by_cases hlim : r.max_borrow_count ≤ r.current_borrow_count
          · left
            refine ⟨hcap2, b, r, rfl, hav2, rfl, hlim, ?_⟩
            unfold borrow_book
            rw [if_neg hcap]
            simp only [hfb, hfr]
            rw [if_neg hav, if_pos hlim]
          · right
            obtain ⟨ib, hib⟩ := (book_find_by_id_eq_some s.books bid b).mp hfb
            obtain ⟨ir, hir⟩ := (reader_find_by_id_eq_some s.readers rid r).mp hfr
            exact ⟨hcap2, ib, b, ir, r, hib, hav2, hir, not_le.mp hlim,
              borrow_book_of_valid env s bid rid ib b ir r hcap2 hib hav2 hir (not_le.mp hlim)⟩

/-- The function `borrow_book` never changes the reader array. -/
theorem borrow_book_readers (env : Env) (s : State) (bid rid : List Char) :
    (borrow_book env s bid rid).2.1.readers = s.readers := by
  rcases borrow_book_cases env s bid rid with h | h | h | h | h | h
  · rw [h.2]
  · rw [h.2.2]
  · obtain ⟨_, b, _, _, h⟩ := h
    rw [h]
  · obtain ⟨_, b, _, _, _, h⟩ := h
    rw [h]
  · obtain ⟨_, b, r, _, _, _, _, h⟩ := h
    rw [h]
  · obtain ⟨_, ib, b, ir, r, _, _, _, _, h⟩ := h
    rw [h]

/-! ## Claims about `borrow_book` -/

/-- C1, as stated, fails: with a ledger below capacity, the book present and available, and
the reader present and below the limit (no failure condition holds), `borrow_book` still
returns `-1`, the code of the capacity failure, when the ledger file cannot be opened. -/
theorem borrow_book_unwritable_ledger_returns_minus_one :
    (borrow_book env_ledger_unwritable state0 "B1".toList "R1".toList).1 = -1 ∧
      (state0.borrows.length : Int) < state0.borrow_capacity ∧
      book_find_by_id state0.books "B1".toList = some (mkBook "B1" 1 1) ∧
      0 < (mkBook "B1" 1 1).available_count ∧
      reader_find_by_id state0.readers "R1".toList = some (mkReader "R1" 1 0) ∧
      (mkReader "R1" 1 0).current_borrow_count < (mkReader "R1" 1 0).max_borrow_count := by
  decide

/-- C1 (amended): `borrow_book` checks its failure conditions in the fixed order capacity,
book lookup, availability, reader lookup, reader limit. It returns `-2`, `-3`, `-4` or `-5`
exactly when the corresponding condition is the first one that holds; it returns `-1`
exactly when the ledger is at capacity, or no condition holds and the ledger file cannot be
written; it returns `0` exactly when no condition holds and the ledger file is written. -/
theorem borrow_book_error_order (env : Env) (s : State) (bid rid : List Char) :
    ((borrow_book env s bid rid).1 = -2 ↔
      ((s.borrows.length : Int) < s.borrow_capacity ∧ book_find_by_id s.books bid = none)) ∧
    ((borrow_book env s bid rid).1 = -3 ↔
      ((s.borrows.length : Int) < s.borrow_capacity ∧
        ∃ b, book_find_by_id s.books bid = some b ∧ b.available_count ≤ 0)) ∧
    ((borrow_book env s bid rid).1 = -4 ↔
      ((s.borrows.length : Int) < s.borrow_capacity ∧
        ∃ b, book_find_by_id s.books bid = some b ∧ 0 < b.available_count ∧
          reader_find_by_id s.readers rid = none)) ∧
    ((borrow_book env s bid rid).1 = -5 ↔
      ((s.borrows.length : Int) < s.borrow_capacity ∧
        ∃ b r, book_find_by_id s.books bid = some b ∧ 0 < b.available_count ∧
          reader_find_by_id s.readers rid = some r ∧
          r.max_borrow_count ≤ r.current_borrow_count)) ∧
    ((borrow_book env s bid rid).1 = -1 ↔
      (s.borrow_capacity ≤ (s.borrows.length : Int) ∨
        ((s.borrows.length : Int) < s.borrow_capacity ∧
          ∃ b r, book_find_by_id s.books bid = some b ∧ 0 < b.available_count ∧
            reader_find_by_id s.readers rid = some r ∧
            r.current_borrow_count < r.max_borrow_count ∧ env.borrows_file_ok = false))) ∧
    ((borrow_book env s bid rid).1 = 0 ↔
      ((s.borrows.length : Int) < s.borrow_capacity ∧
        ∃ b r, book_find_by_id s.books bid = some b ∧ 0 < b.available_count ∧
          reader_find_by_id s.readers rid = some r ∧
          r.current_borrow_count < r.max_borrow_count ∧ env.borrows_file_ok = true)) := by
  rcases borrow_book_cases env s bid rid with h | h | h | h | h | h
  · obtain ⟨hcap, h⟩ := h
    have hn : ¬ ((s.borrows.length : Int) < s.borrow_capacity) := not_lt.mpr hcap
    simp [h, hn, hcap]
  · obtain ⟨hcap, hb, h⟩ := h
    have hn : ¬ (s.borrow_capacity ≤ (s.borrows.length : Int)) := not_le.mpr hcap
    simp [h, hn, hcap, hb]
  · obtain ⟨hcap, b, hb, hav, h⟩ := h
    have hn : ¬ (s.borrow_capacity ≤ (s.borrows.length : Int)) := not_le.mpr hcap
    have hav2 : ¬ (0 < b.available_count) := not_lt.mpr hav
    simp [h, hn, hcap, hb, hav, hav2]
  · obtain ⟨hcap, b, hb, hav, hr, h⟩ := h
    have hn : ¬ (s.borrow_capacity ≤ (s.borrows.length : Int)) := not_le.mpr hcap
    have hav2 : ¬ (b.available_count ≤ 0) := not_le.mpr hav
    simp [h, hn, hcap, hb, hav, hav2, hr]
  · obtain ⟨hcap, b, r, hb, hav, hr, hlim, h⟩ := h
    have hn : ¬ (s.borrow_capacity ≤ (s.borrows.length : Int)) := not_le.mpr hcap
    have hav2 : ¬ (b.available_count ≤ 0) := not_le.mpr hav
    have hlim2 : ¬ (r.current_borrow_count < r.max_borrow_count) := not_lt.mpr hlim
    simp [h, hn, hcap, hb, hav, hav2, hr, hlim, hlim2]
  · obtain ⟨hcap, ib, b, ir, r, hb, hav, hr, hlim, h⟩ := h
    have hn : ¬ (s.borrow_capacity ≤ (s.borrows.length : Int)) := not_le.mpr hcap
    have hav2 : ¬ (b.available_count ≤ 0) := not_le.mpr hav
    have hlim2 : ¬ (r.max_borrow_count ≤ r.current_borrow_count) := not_le.mpr hlim
    have hfb : book_find_by_id s.books bid = some b :=
      (book_find_by_id_eq_some s.books bid b).mpr ⟨ib, hb⟩
    have hfr : reader_find_by_id s.readers rid = some r :=
      (reader_find_by_id_eq_some s.readers rid r).mpr ⟨ir, hr⟩
    cases hok : env.borrows_file_ok <;>
      simp [h, hn, hcap, hfb, hav, hav2, hfr, hlim, hlim2, borrow_save_data, hok]

/-- C1 (amended), at an unknown book identifier: the return value is `-2`. -/
theorem borrow_book_error_order_witness :
    (borrow_book env0 state0 "B9".toList "R1".toList).1 = -2 :=
  (borrow_book_error_order env0 state0 "B9".toList "R1".toList).1.mpr
    ⟨by decide, by decide⟩

/-- C2: when all five checks of `borrow_book` pass, the ledger afterwards is the old ledger
with exactly one record appended at the end; that record is the one written to `*record`,
and it has `book_id = bookId`, `reader_id = readerId`, `borrow_date = now`,
`due_date = now + 30*24*60*60`, `return_date = 0`, status Borrowed and `renew_count = 0`. -/
theorem borrow_book_appends_record (env : Env) (s : State) (bid rid : List Char)
    (b : Book) (r : Reader)
    (hcap : (s.borrows.length : Int) < s.borrow_capacity)
    (hb : book_find_by_id s.books bid = some b)
    (hav : 0 < b.available_count)
    (hr : reader_find_by_id s.readers rid = some r)
    (hlim : r.current_borrow_count < r.max_borrow_count) :
    ∃ record : BorrowRecord,
      (borrow_book env s bid rid).2.2 = some record ∧
      (borrow_book env s bid rid).2.1.borrows = s.borrows ++ [record] ∧
      record.book_id.val = bid ∧
      record.reader_id.val = rid ∧
      record.borrow_date = env.now ∧
      record.due_date = env.now + 30 * 24 * 60 * 60 ∧
      record.return_date = 0 ∧
      record.status = BORROW_STATUS_BORROWED ∧
      record.renew_count = 0 := by
  obtain ⟨ib, hib⟩ := (book_find_by_id_eq_some s.books bid b).mp hb
  obtain ⟨ir, hir⟩ := (reader_find_by_id_eq_some s.readers rid r).mp hr
  rw [borrow_book_of_valid env s bid rid ib b ir r hcap hib hav hir hlim]
  refine ⟨new_borrow_record env bid rid, rfl, rfl, ?_, ?_, rfl, ?_, rfl, rfl, rfl⟩
  · exact strncpy20_val_of_eq b.id bid (book_find_by_id_id s.books bid b hb)
  · exact strncpy20_val_of_eq r.id rid (reader_find_by_id_id s.readers rid r hr)
  · simp [new_borrow_record, DEFAULT_BORROW_DAYS]

/-- C2 at `state0`: the five checks pass and the record is appended. -/
theorem borrow_book_appends_record_witness :
    ∃ record : BorrowRecord,
      (borrow_book env0 state0 "B1".toList "R1".toList).2.2 = some record ∧
      (borrow_book env0 state0 "B1".toList "R1".toList).2.1.borrows =
        state0.borrows ++ [record] ∧
      record.book_id.val = "B1".toList ∧
      record.reader_id.val = "R1".toList ∧
      record.borrow_date = env0.now ∧
      record.due_date = env0.now + 30 * 24 * 60 * 60 ∧
      record.return_date = 0 ∧
      record.status = BORROW_STATUS_BORROWED ∧
      record.renew_count = 0 :=
  borrow_book_appends_record env0 state0 "B1".toList "R1".toList
    (mkBook "B1" 1 1) (mkReader "R1" 1 0)
    (by decide) (by decide) (by decide) (by decide) (by decide)

/-- A return value of `0` means that all five checks passed and the ledger file was
written. -/
theorem borrow_book_ret_zero (env : Env) (s : State) (bid rid : List Char)
    (h : (borrow_book env s bid rid).1 = 0) :
    (s.borrows.length : Int) < s.borrow_capacity ∧
      ∃ ib b ir r,
        find_first (fun x => decide (x.id.val = bid)) s.books = some (ib, b) ∧
        0 < b.available_count ∧
        find_first (fun x => decide (x.id.val = rid)) s.readers = some (ir, r) ∧
        r.current_borrow_count < r.max_borrow_count ∧
        borrow_book env s bid rid =
          (borrow_save_data env,
            { s with
              borrows := s.borrows ++ [new_borrow_record env bid rid]
              books := s.books.set ib { b with available_count := b.available_count - 1 } },
            some (new_borrow_record env bid rid)) := by
  rcases borrow_book_cases env s bid rid with c | c | c | c | c | c
  · rw [c.2] at h
    simp at h
  · rw [c.2.2] at h
    simp at h
  · obtain ⟨_, b, _, _, c⟩ := c
    rw [c] at h
    simp at h
  · obtain ⟨_, b, _, _, _, c⟩ := c
    rw [c] at h
    simp at h
  · obtain ⟨_, b, r, _, _, _, _, c⟩ := c
    rw [c] at h
    simp at h
  · exact c

/-- C3: when `borrow_book` succeeds, the book found under `bookId` (the first one with that
identifier, at position `i`) is replaced in place by a copy whose `available_count` is one
less and whose other fields are the same; the array keeps its length and every other
position keeps its book. -/
theorem borrow_book_decrements_available (env : Env) (s : State) (bid rid : List Char)
    (h : (borrow_book env s bid rid).1 = 0) :
    ∃ i b,
      book_find_by_id s.books bid = some b ∧
      s.books[i]? = some b ∧
      (borrow_book env s bid rid).2.1.books =
        s.books.set i { b with available_count := b.available_count - 1 } ∧
      book_find_by_id (borrow_book env s bid rid).2.1.books bid =
        some { b with available_count := b.available_count - 1 } ∧
      (borrow_book env s bid rid).2.1.books.length = s.books.length ∧
      ∀ j, j ≠ i → (borrow_book env s bid rid).2.1.books[j]? = s.books[j]? := by
  obtain ⟨_, ib, b, ir, r, hb, _, _, _, heq⟩ := borrow_book_ret_zero env s bid rid h
  have hfacts := find_first_some _ s.books ib b hb
  have hp : (fun x : Book => decide (x.id.val = bid))
      { b with available_count := b.available_count - 1 } = true := hfacts.2.1
  have hset := find_first_set _ s.books ib b
    { b with available_count := b.available_count - 1 } hb hp
  rw [heq]
  refine ⟨ib, b, (book_find_by_id_eq_some s.books bid b).mpr ⟨ib, hb⟩, hfacts.1, rfl, ?_, ?_, ?_⟩
  · exact (book_find_by_id_eq_some _ bid _).mpr ⟨ib, hset⟩
  · simp
  · intro j hj
    simp [List.getElem?_set, Ne.symm hj]

/-- C3 at `state0`: the borrow succeeds and the only book loses one available copy. -/
theorem borrow_book_decrements_available_witness :
    ∃ i b,
      book_find_by_id state0.books "B1".toList = some b ∧
      state0.books[i]? = some b ∧
      (borrow_book env0 state0 "B1".toList "R1".toList).2.1.books =
        state0.books.set i { b with available_count := b.available_count - 1 } ∧
      book_find_by_id (borrow_book env0 state0 "B1".toList "R1".toList).2.1.books
          "B1".toList =
        some { b with available_count := b.available_count - 1 } ∧
      (borrow_book env0 state0 "B1".toList "R1".toList).2.1.books.length =
        state0.books.length ∧
      ∀ j, j ≠ i →
        (borrow_book env0 state0 "B1".toList "R1".toList).2.1.books[j]? = state0.books[j]? :=
  borrow_book_decrements_available env0 state0 "B1".toList "R1".toList (by decide)

/-- C4 fails on the code: at `state0` the borrow by reader `R1` succeeds, and the
`current_borrow_count` that `reader_find_by_id` returns for `R1` is `0` before the call and
still `0` after it, because `reader_update` writes the stored count back. -/
theorem borrow_book_reader_count_not_incremented :
    (borrow_book env0 state0 "B1".toList "R1".toList).1 = 0 ∧
      (reader_find_by_id state0.readers "R1".toList).map (fun r => r.current_borrow_count) =
        some 0 ∧
      (reader_find_by_id (borrow_book env0 state0 "B1".toList "R1".toList).2.1.readers
          "R1".toList).map (fun r => r.current_borrow_count) = some 0 := by
  decide

/-- An attempt on a book whose first stored copy has no available copy is rejected with
`-3` as long as the ledger is below capacity, whoever the reader is. -/
theorem borrow_book_unavailable (env : Env) (s : State) (bid rid : List Char) (b : Book)
    (hcap : (s.borrows.length : Int) < s.borrow_capacity)
    (hb : book_find_by_id s.books bid = some b) (hav : b.available_count ≤ 0) :
    borrow_book env s bid rid = (-3, s, none) := by
  unfold borrow_book
  rw [if_neg (not_le.mpr hcap)]
  simp only [hb]
  rw [if_pos hav]

/-- An attempt on a ledger that is at capacity is rejected with `-1`. -/
theorem borrow_book_at_capacity (env : Env) (s : State) (bid rid : List Char)
    (hcap : s.borrow_capacity ≤ (s.borrows.length : Int)) :
    borrow_book env s bid rid = (-1, s, none) := by
  unfold borrow_book
  rw [if_pos hcap]

theorem state_almost_full_length : state_almost_full.borrows.length = 4999 :=
  List.length_replicate 4999 (new_borrow_record env0 "B0".toList "R0".toList)

theorem state_almost_full_capacity : state_almost_full.borrow_capacity = 5000 := rfl

/-- C5, as stated, fails: with 4999 records in a ledger of capacity 5000, the book `B1` has
`total_count = 1` and `available_count = 1`, the reader `R1` is below the limit, the first
`borrow_book` succeeds, and the second one for the same book returns `-1`, not `-3`, because
the capacity check comes first. -/
theorem full_ledger_second_borrow_returns_minus_one :
    book_find_by_id state_almost_full.books "B1".toList = some (mkBook "B1" 1 1) ∧
      reader_find_by_id state_almost_full.readers "R1".toList = some (mkReader "R1" 1 0) ∧
      (borrow_book env0 state_almost_full "B1".toList "R1".toList).1 = 0 ∧
      (borrow_book env0 (borrow_book env0 state_almost_full "B1".toList "R1".toList).2.1
        "B1".toList "R1".toList).1 = -1 := by
  have hfirst := borrow_book_of_valid env0 state_almost_full "B1".toList "R1".toList
    0 (mkBook "B1" 1 1) 0 (mkReader "R1" 1 0)
    (by rw [state_almost_full_length, state_almost_full_capacity]; decide)
    (by decide) (by decide) (by decide) (by decide)
  refine ⟨by decide, by decide, ?_, ?_⟩
  · rw [hfirst]
    decide
  · rw [hfirst]
    have hfull : ∀ st : State, st.borrow_capacity ≤ (st.borrows.length : Int) →
        (borrow_book env0 st "B1".toList "R1".toList).1 = -1 := by
      intro st hst
      rw [borrow_book_at_capacity env0 st _ _ hst]
    apply hfull
    dsimp only
    rw [List.length_append, state_almost_full_length, state_almost_full_capacity]
    decide

/-- C5 (amended), Scenario A: for a book found under `bookId` with `total_count = 1` and
`available_count = 1` and a reader below the borrow limit, if the ledger is below capacity
and the ledger file can be written, `borrow_book` succeeds and the stored book then has
`available_count = 0` (and `total_count = 1`); a second `borrow_book` for the same book, by
any reader, fails with `-3` when the ledger is still below capacity after the first borrow
and with `-1` when the first borrow filled it. -/
theorem scenario_a (env env' : Env) (s : State) (bid rid rid' : List Char)
    (b : Book) (r : Reader)
    (hb : book_find_by_id s.books bid = some b)
    (htot : b.total_count = 1) (hav : b.available_count = 1)
    (hr : reader_find_by_id s.readers rid = some r)
    (hlim : r.current_borrow_count < r.max_borrow_count)
    (hcap : (s.borrows.length : Int) < s.borrow_capacity)
    (hok : env.borrows_file_ok = true) :
    (borrow_book env s bid rid).1 = 0 ∧
      (∃ b', book_find_by_id (borrow_book env s bid rid).2.1.books bid = some b' ∧
        b'.available_count = 0 ∧ b'.total_count = 1) ∧
      ((s.borrows.length : Int) + 1 < s.borrow_capacity →
        (borrow_book env' (borrow_book env s bid rid).2.1 bid rid').1 = -3) ∧
      (s.borrow_capacity ≤ (s.borrows.length : Int) + 1 →
        (borrow_book env' (borrow_book env s bid rid).2.1 bid rid').1 = -1) := by
  obtain ⟨ib, hib⟩ := (book_find_by_id_eq_some s.books bid b).mp hb
  obtain ⟨ir, hir⟩ := (reader_find_by_id_eq_some s.readers rid r).mp hr
  have hav0 : 0 < b.available_count := by omega
  have hp : (fun x : Book => decide (x.id.val = bid))
      { b with available_count := b.available_count - 1 } = true :=
    (find_first_some _ s.books ib b hib).2.1
  have hset := find_first_set _ s.books ib b
    { b with available_count := b.available_count - 1 } hib hp
  have hfind' : book_find_by_id
      (s.books.set ib { b with available_count := b.available_count - 1 }) bid =
      some { b with available_count := b.available_count - 1 } :=
    (book_find_by_id_eq_some _ bid _).mpr ⟨ib, hset⟩
  rw [borrow_book_of_valid env s bid rid ib b ir r hcap hib hav0 hir hlim]
  refine ⟨by simp [borrow_save_data, hok], ⟨_, hfind', by simp [hav], htot⟩, ?_, ?_⟩
  · intro hroom
    rw [borrow_book_unavailable env' _ bid rid'
      { b with available_count := b.available_count - 1 } ?_ hfind' (by simp [hav])]
    simpa using hroom
  · intro hfull
    rw [borrow_book_at_capacity env' _ bid rid' ?_]
    simpa using hfull

/-- C5 (amended) at `state0`: the first borrow succeeds, the stored book has no available
copy left, and a second borrow of the same book by another reader returns `-3`. -/
theorem scenario_a_witness :
    (borrow_book env0 state0 "B1".toList "R1".toList).1 = 0 ∧
      (∃ b', book_find_by_id (borrow_book env0 state0 "B1".toList "R1".toList).2.1.books
          "B1".toList = some b' ∧
        b'.available_count = 0 ∧ b'.total_count = 1) ∧
      (borrow_book env0 (borrow_book env0 state0 "B1".toList "R1".toList).2.1
        "B1".toList "R2".toList).1 = -3 :=
  have h := scenario_a env0 env0 state0 "B1".toList "R1".toList "R2".toList
    (mkBook "B1" 1 1) (mkReader "R1" 1 0)
    (by decide) (by decide) (by decide) (by decide) (by decide) (by decide) (by decide)
  ⟨h.1, h.2.1, h.2.2.1 (by decide)⟩

/-- C6 fails on the code: the reader `R1` has `max_borrow_count = 1` and
`current_borrow_count = 0`, both books have an available copy; the first `borrow_book`
succeeds and leaves the stored `current_borrow_count` at `0`, and the second `borrow_book`
by the same reader returns `0` instead of `-5`. -/
theorem scenario_b_limit_not_enforced :
    reader_find_by_id state_two_books.readers "R1".toList = some (mkReader "R1" 1 0) ∧
      (borrow_book env0 state_two_books "B1".toList "R1".toList).1 = 0 ∧
      reader_find_by_id (borrow_book env0 state_two_books "B1".toList "R1".toList).2.1.readers
          "R1".toList = some (mkReader "R1" 1 0) ∧
      (borrow_book env0 (borrow_book env0 state_two_books "B1".toList "R1".toList).2.1
        "B2".toList "R1".toList).1 = 0 := by
  decide

/-! ## What `return_book` computes -/

/-- The state and return value of `return_book` once its four checks have passed: the
record at the found index is marked, the found book gets one more available copy, and the
reader array is as before (whether or not `reader_update` is called). -/
theorem return_book_of_valid (env : Env) (s : State) (id : List Char)
    (i : Nat) (rec : BorrowRecord) (ib : Nat) (b : Book) (ir : Nat) (r : Reader)
    (hrec : find_first (fun x => decide (x.id.val = id)) s.borrows = some (i, rec))
    (hst : rec.status ≠ BORROW_STATUS_RETURNED)
    (hb : find_first (fun x => decide (x.id.val = rec.book_id.val)) s.books = some (ib, b))
    (hr : find_first (fun x => decide (x.id.val = rec.reader_id.val)) s.readers =
      some (ir, r)) :
    return_book env s id =
      (borrow_save_data env,
        { s with
          borrows := s.borrows.set i
            { rec with return_date := env.now, status := BORROW_STATUS_RETURNED }
          books :=
            s.books.set ib
              { b with available_count := wrap_int (b.available_count + 1) } }) := by
  have hfb : book_find_by_id s.books rec.book_id.val = some b :=
    (book_find_by_id_eq_some s.books _ b).mpr ⟨ib, hb⟩
  have hfr : reader_find_by_id s.readers rec.reader_id.val = some r :=
    (reader_find_by_id_eq_some s.readers _ r).mpr ⟨ir, hr⟩
  have hbu := book_update_found env s.books rec.book_id.val ib b
    { b with available_count := wrap_int (b.available_count + 1) } hb rfl
  have hru := reader_update_count_only env s.readers rec.reader_id.val ir r
    (r.current_borrow_count - 1) hr
  have hreaders :
      (if r.current_borrow_count > 0 then
        (reader_update env s.readers
          { r with current_borrow_count := r.current_borrow_count - 1 }).2
      else s.readers) = s.readers := by
    split
    · exact hru
    · rfl
  unfold return_book
  rw [hrec]
  simp only
  rw [if_neg hst]
  simp only [hfb, hfr]
  rw [hbu, hreaders]

/-- The five ways through `return_book`. -/
theorem return_book_cases (env : Env) (s : State) (id : List Char) :
    (find_first (fun x => decide (x.id.val = id)) s.borrows = none ∧
        return_book env s id = (-2, s)) ∨
    (∃ i rec, find_first (fun x => decide (x.id.val = id)) s.borrows = some (i, rec) ∧
        rec.status = BORROW_STATUS_RETURNED ∧ return_book env s id = (-3, s)) ∨
    (∃ i rec, find_first (fun x => decide (x.id.val = id)) s.borrows = some (i, rec) ∧
        rec.status ≠ BORROW_STATUS_RETURNED ∧
        book_find_by_id s.books rec.book_id.val = none ∧ return_book env s id = (-4, s)) ∨
    (∃ i rec b, find_first (fun x => decide (x.id.val = id)) s.borrows = some (i, rec) ∧
        rec.status ≠ BORROW_STATUS_RETURNED ∧
        book_find_by_id s.books rec.book_id.val = some b ∧
        reader_find_by_id s.readers rec.reader_id.val = none ∧
        return_book env s id = (-5, s)) ∨
    (∃ i rec ib b ir r,
        find_first (fun x => decide (x.id.val = id)) s.borrows = some (i, rec) ∧
        rec.status ≠ BORROW_STATUS_RETURNED ∧
        find_first (fun x => decide (x.id.val = rec.book_id.val)) s.books = some (ib, b) ∧
        find_first (fun x => decide (x.id.val = rec.reader_id.val)) s.readers =
          some (ir, r) ∧
        return_book env s id =
          (borrow_save_data env,
            { s with
              borrows := s.borrows.set i
                { rec with return_date := env.now, status := BORROW_STATUS_RETURNED }
              books := s.books.set ib
                { b with available_count := wrap_int (b.available_count + 1) } })) := by
  cases hrec : find_first (fun x => decide (x.id.val = id)) s.borrows with
  | none =>
    left
    refine ⟨rfl, ?_⟩
    unfold return_book
    rw [hrec]
  | some q =>
    obtain ⟨i, rec⟩ := q
    right
    by_cases hst : rec.status = BORROW_STATUS_RETURNED
    · left
      refine ⟨i, rec, rfl, hst, ?_⟩
      unfold return_book
      rw [hrec]
      simp only
      rw [if_pos hst]
    · right
      cases hfb : book_find_by_id s.books rec.book_id.val with
      | none =>
        left
        refine ⟨i, rec, rfl, hst, hfb, ?_⟩
        unfold return_book
        rw [hrec]
        simp only
        rw [if_neg hst]
        simp only [hfb]
      | some b =>
        right
        cases hfr : reader_find_by_id s.readers rec.reader_id.val with
        | none =>
          left
          refine ⟨i, rec, b, rfl, hst, hfb, hfr, ?_⟩
          unfold return_book
          rw [hrec]
          simp only
          rw [if_neg hst]
          simp only [hfb, hfr]
        | some r =>
          right
          obtain ⟨ib, hib⟩ := (book_find_by_id_eq_some s.books _ b).mp hfb
          obtain ⟨ir, hir⟩ := (reader_find_by_id_eq_some s.readers _ r).mp hfr
          exact ⟨i, rec, ib, b, ir, r, rfl, hst, hib, hir,
            return_book_of_valid env s id i rec ib b ir r hrec hst hib hir⟩

/-! ## Claims about `return_book` -/

/-- C7, as stated, fails: in `state_int_max` the record `BR1` is not Returned, its book `B1`
and its reader `R1` exist, and `B1` has `available_count = INT_MAX = 2147483647`;
`return_book` passes its checks and returns `0`, and the `available_count` of `B1` is then
`INT_MIN = -2147483648`, not one more than before. -/
theorem return_book_at_int_max_wraps :
    find_first (fun x => decide (x.id.val = "BR1".toList)) state_int_max.borrows =
        some (0, new_borrow_record env0 "B1".toList "R1".toList) ∧
      (new_borrow_record env0 "B1".toList "R1".toList).status ≠ BORROW_STATUS_RETURNED ∧
      book_find_by_id state_int_max.books "B1".toList =
        some (mkBook "B1" 2147483647 2147483647) ∧
      reader_find_by_id state_int_max.readers "R1".toList = some (mkReader "R1" 1 1) ∧
      (return_book env0 state_int_max "BR1".toList).1 = 0 ∧
      book_find_by_id (return_book env0 state_int_max "BR1".toList).2.books "B1".toList =
        some (mkBook "B1" 2147483647 (-2147483648)) := by
  decide

/-- C7 (amended): when `return_book` passes its checks (the first record with the
identifier, at position `i`, is not Returned, and its book and reader exist), the ledger
afterwards is the old ledger with that record replaced in place by a copy whose
`return_date` is `now` and whose status is Returned, all its other fields being the same;
that copy is still the first record with the identifier; every other position keeps its
record; and the book found under the record's `book_id` has its `available_count`
incremented as an `int`: one more than before when it was an `int` below `INT_MAX`, and
`INT_MIN` when it was `INT_MAX`. -/
theorem return_book_marks_returned (env : Env) (s : State) (id : List Char)
    (i : Nat) (rec : BorrowRecord) (b : Book) (r : Reader)
    (hrec : find_first (fun x => decide (x.id.val = id)) s.borrows = some (i, rec))
    (hst : rec.status ≠ BORROW_STATUS_RETURNED)
    (hb : book_find_by_id s.books rec.book_id.val = some b)
    (hr : reader_find_by_id s.readers rec.reader_id.val = some r) :
    (return_book env s id).2.borrows =
        s.borrows.set i { rec with return_date := env.now, status := BORROW_STATUS_RETURNED } ∧
      find_first (fun x => decide (x.id.val = id)) (return_book env s id).2.borrows =
        some (i, { rec with return_date := env.now, status := BORROW_STATUS_RETURNED }) ∧
      (return_book env s id).2.borrows.length = s.borrows.length ∧
      (∀ j, j ≠ i → (return_book env s id).2.borrows[j]? = s.borrows[j]?) ∧
      book_find_by_id (return_book env s id).2.books rec.book_id.val =
        some { b with available_count := wrap_int (b.available_count + 1) } ∧
      (is_int b.available_count → b.available_count < INT_MAX →
        book_find_by_id (return_book env s id).2.books rec.book_id.val =
          some { b with available_count := b.available_count + 1 }) ∧
      (b.available_count = INT_MAX →
        book_find_by_id (return_book env s id).2.books rec.book_id.val =
          some { b with available_count := INT_MIN }) := by
  obtain ⟨ib, hib⟩ := (book_find_by_id_eq_some s.books _ b).mp hb
  obtain ⟨ir, hir⟩ := (reader_find_by_id_eq_some s.readers _ r).mp hr
  have hprec : (fun x : BorrowRecord => decide (x.id.val = id))
      { rec with return_date := env.now, status := BORROW_STATUS_RETURNED } = true :=
    (find_first_some _ s.borrows i rec hrec).2.1
  have hpb : (fun x : Book => decide (x.id.val = rec.book_id.val))
      { b with available_count := wrap_int (b.available_count + 1) } = true :=
    (find_first_some _ s.books ib b hib).2.1
  have hbook : book_find_by_id
      (s.books.set ib { b with available_count := wrap_int (b.available_count + 1) })
        rec.book_id.val =
      some { b with available_count := wrap_int (b.available_count + 1) } :=
    (book_find_by_id_eq_some _ _ _).mpr ⟨ib, find_first_set _ s.books ib b _ hib hpb⟩
  rw [return_book_of_valid env s id i rec ib b ir r hrec hst hib hir]
  refine ⟨rfl, find_first_set _ s.borrows i rec _ hrec hprec, by simp, ?_, hbook, ?_, ?_⟩
  · intro j hj
    simp [List.getElem?_set, Ne.symm hj]
  · intro hint hlt
    have hw := wrap_int_succ b.available_count hint hlt
    rw [hw] at hbook ⊢
    exact hbook
  · intro hmax
    have hw : wrap_int (b.available_count + 1) = INT_MIN := by
      rw [hmax]
      exact wrap_int_succ_max
    rw [hw] at hbook ⊢
    exact hbook

/-- C7 (amended) at `state_on_loan`: the open record `BR1` is marked and `B1`, which had no
available copy, has one. -/
theorem return_book_marks_returned_witness :
    (return_book env0 state_on_loan "BR1".toList).2.borrows =
        state_on_loan.borrows.set 0
          { new_borrow_record env0 "B1".toList "R1".toList with
            return_date := env0.now, status := BORROW_STATUS_RETURNED } ∧
      find_first (fun x => decide (x.id.val = "BR1".toList))
          (return_book env0 state_on_loan "BR1".toList).2.borrows =
        some (0, { new_borrow_record env0 "B1".toList "R1".toList with
          return_date := env0.now, status := BORROW_STATUS_RETURNED }) ∧
      (return_book env0 state_on_loan "BR1".toList).2.borrows.length =
        state_on_loan.borrows.length ∧
      (∀ j, j ≠ 0 →
        (return_book env0 state_on_loan "BR1".toList).2.borrows[j]? =
          state_on_loan.borrows[j]?) ∧
      book_find_by_id (return_book env0 state_on_loan "BR1".toList).2.books
          (new_borrow_record env0 "B1".toList "R1".toList).book_id.val =
        some (mkBook "B1" 1 1) :=
  have h := return_book_marks_returned env0 state_on_loan "BR1".toList 0
    (new_borrow_record env0 "B1".toList "R1".toList) (mkBook "B1" 1 0) (mkReader "R1" 1 1)
    (by decide) (by decide) (by decide) (by decide)
  ⟨h.1, h.2.1, h.2.2.1, h.2.2.2.1, h.2.2.2.2.2.1 (by decide) (by decide)⟩

/-- C8 fails on the code: at `state_on_loan` the reader `R1` has `current_borrow_count = 1`,
`return_book` on the open record succeeds, and the stored `current_borrow_count` is still
`1` afterwards, because `reader_update` writes the stored count back. -/
theorem return_book_reader_count_not_decremented :
    (reader_find_by_id state_on_loan.readers "R1".toList).map
        (fun r => r.current_borrow_count) = some 1 ∧
      (return_book env0 state_on_loan "BR1".toList).1 = 0 ∧
      (reader_find_by_id (return_book env0 state_on_loan "BR1".toList).2.readers
          "R1".toList).map (fun r => r.current_borrow_count) = some 1 := by
  decide

/-- C9: if `return_book(id)` succeeds, an immediately following `return_book(id)`, whatever
the clock and the files do, returns `-3` and leaves the ledger, the book array and the
reader array exactly as the first call left them. -/
theorem return_book_twice (env env' : Env) (s : State) (id : List Char)
    (h : (return_book env s id).1 = 0) :
    return_book env' (return_book env s id).2 id = (-3, (return_book env s id).2) := by
  rcases return_book_cases env s id with c | c | c | c | c
  · rw [c.2] at h
    simp at h
  · obtain ⟨i, rec, _, _, c⟩ := c
    rw [c] at h
    simp at h
  · obtain ⟨i, rec, _, _, _, c⟩ := c
    rw [c] at h
    simp at h
  · obtain ⟨i, rec, b, _, _, _, _, c⟩ := c
    rw [c] at h
    simp at h
  · obtain ⟨i, rec, ib, b, ir, r, hrec, _, _, _, c⟩ := c
    have hprec : (fun x : BorrowRecord => decide (x.id.val = id))
        { rec with return_date := env.now, status := BORROW_STATUS_RETURNED } = true :=
      (find_first_some _ s.borrows i rec hrec).2.1
    have hfind := find_first_set _ s.borrows i rec _ hrec hprec
    rw [c]
    unfold return_book
    simp only
    rw [hfind]
    exact if_pos rfl

/-- C9 at `state_on_loan`: the first return succeeds, the second returns `-3` and changes
nothing. -/
theorem return_book_twice_witness :
    return_book env_ledger_unwritable (return_book env0 state_on_loan "BR1".toList).2
        "BR1".toList =
      (-3, (return_book env0 state_on_loan "BR1".toList).2) :=
  return_book_twice env0 env_ledger_unwritable state_on_loan "BR1".toList (by decide)

/-- C10: `return_book` returns `-2` exactly when no record has the identifier, `-3` exactly
when the first record with it is Returned, `-4` exactly when that record is not Returned and
its `book_id` is absent from the book array, and `-5` exactly when in addition the book is
present and the record's `reader_id` is absent from the reader array; whenever it returns
one of these four codes the whole state (ledger, books, readers) is unchanged. -/
theorem return_book_failures (env : Env) (s : State) (id : List Char) :
    ((return_book env s id).1 = -2 ↔ ∀ x ∈ s.borrows, x.id.val ≠ id) ∧
    ((return_book env s id).1 = -3 ↔
      ∃ i rec, find_first (fun x => decide (x.id.val = id)) s.borrows = some (i, rec) ∧
        rec.status = BORROW_STATUS_RETURNED) ∧
    ((return_book env s id).1 = -4 ↔
      ∃ i rec, find_first (fun x => decide (x.id.val = id)) s.borrows = some (i, rec) ∧
        rec.status ≠ BORROW_STATUS_RETURNED ∧
        book_find_by_id s.books rec.book_id.val = none) ∧
    ((return_book env s id).1 = -5 ↔
      ∃ i rec b, find_first (fun x => decide (x.id.val = id)) s.borrows = some (i, rec) ∧
        rec.status ≠ BORROW_STATUS_RETURNED ∧
        book_find_by_id s.books rec.book_id.val = some b ∧
        reader_find_by_id s.readers rec.reader_id.val = none) ∧
    (((return_book env s id).1 = -2 ∨ (return_book env s id).1 = -3 ∨
        (return_book env s id).1 = -4 ∨ (return_book env s id).1 = -5) →
      (return_book env s id).2 = s) := by
  have hnone : find_first (fun x : BorrowRecord => decide (x.id.val = id)) s.borrows = none ↔
      ∀ x ∈ s.borrows, x.id.val ≠ id := by
    rw [find_first_none]
    simp
  rw [← hnone]
  rcases return_book_cases env s id with c | c | c | c | c
  · obtain ⟨hf, c⟩ := c
    simp [c, hf]
  · obtain ⟨i, rec, hf, hst, c⟩ := c
    simp [c, hf, hst, and_assoc]
  · obtain ⟨i, rec, hf, hst, hb, c⟩ := c
    simp [c, hf, hst, hb, and_assoc]
  · obtain ⟨i, rec, b, hf, hst, hb, hr, c⟩ := c
    simp [c, hf, hst, hb, hr, and_assoc]
  · obtain ⟨i, rec, ib, b, ir, r, hf, hst, hb, hr, c⟩ := c
    have hfb : book_find_by_id s.books rec.book_id.val = some b :=
      (book_find_by_id_eq_some s.books _ b).mpr ⟨ib, hb⟩
    have hfr : reader_find_by_id s.readers rec.reader_id.val = some r :=
      (reader_find_by_id_eq_some s.readers _ r).mpr ⟨ir, hr⟩
    cases hok : env.borrows_file_ok <;>
      simp [c, hf, hst, hfb, hfr, borrow_save_data, hok, and_assoc]

/-- C10 at an identifier that no record carries: the return value is `-2`. -/
theorem return_book_failures_witness :
    (return_book env0 state_on_loan "BR9".toList).1 = -2 :=
  (return_book_failures env0 state_on_loan "BR9".toList).1.mpr (by decide)

/-! ## What `renew_book` computes -/

/-- The overdue path of `renew_book`. -/
theorem renew_book_of_overdue (env : Env) (s : State) (id : List Char) (nd : Int)
    (i : Nat) (rec : BorrowRecord)
    (hrec : find_first (fun x => decide (x.id.val = id)) s.borrows = some (i, rec))
    (hst : rec.status ≠ BORROW_STATUS_RETURNED) (hcnt : rec.renew_count < 2)
    (hdue : rec.due_date < env.now) :
    renew_book env s id nd =
      (-5, { s with borrows := s.borrows.set i { rec with status := BORROW_STATUS_OVERDUE } }) := by
  have hcnt2 : ¬ (rec.renew_count ≥ MAX_RENEW_COUNT) := by
    simp only [MAX_RENEW_COUNT]
    omega
  unfold renew_book
  rw [hrec]
  simp only
  rw [if_neg hst, if_neg hcnt2, if_pos hdue]

/-- The renewing path of `renew_book`. -/
theorem renew_book_of_valid (env : Env) (s : State) (id : List Char) (nd : Int)
    (i : Nat) (rec : BorrowRecord)
    (hrec : find_first (fun x => decide (x.id.val = id)) s.borrows = some (i, rec))
    (hst : rec.status ≠ BORROW_STATUS_RETURNED) (hcnt : rec.renew_count < 2)
    (hdue : env.now ≤ rec.due_date) :
    renew_book env s id nd =
      (borrow_save_data env,
        { s with
          borrows := s.borrows.set i
            { rec with
              due_date := if nd = 0 then wrap_long (rec.due_date + 15 * 24 * 60 * 60) else nd
              renew_count := rec.renew_count + 1
              status := BORROW_STATUS_RENEWED } }) := by
  have hcnt2 : ¬ (rec.renew_count ≥ MAX_RENEW_COUNT) := by
    simp only [MAX_RENEW_COUNT]
    omega
  unfold renew_book
  rw [hrec]
  simp only
  rw [if_neg hst, if_neg hcnt2, if_neg (not_lt.mpr hdue)]
  rfl

/-- The five ways through `renew_book`. -/
theorem renew_book_cases (env : Env) (s : State) (id : List Char) (nd : Int) :
    (find_first (fun x => decide (x.id.val = id)) s.borrows = none ∧
        renew_book env s id nd = (-2, s)) ∨
    (∃ i rec, find_first (fun x => decide (x.id.val = id)) s.borrows = some (i, rec) ∧
        rec.status = BORROW_STATUS_RETURNED ∧ renew_book env s id nd = (-3, s)) ∨
    (∃ i rec, find_first (fun x => decide (x.id.val = id)) s.borrows = some (i, rec) ∧
        rec.status ≠ BORROW_STATUS_RETURNED ∧ 2 ≤ rec.renew_count ∧
        renew_book env s id nd = (-4, s)) ∨
    (∃ i rec, find_first (fun x => decide (x.id.val = id)) s.borrows = some (i, rec) ∧
        rec.status ≠ BORROW_STATUS_RETURNED ∧ rec.renew_count < 2 ∧
        rec.due_date < env.now ∧
        renew_book env s id nd =
          (-5,
            { s with
              borrows := s.borrows.set i { rec with status := BORROW_STATUS_OVERDUE } })) ∨
    (∃ i rec, find_first (fun x => decide (x.id.val = id)) s.borrows = some (i, rec) ∧
        rec.status ≠ BORROW_STATUS_RETURNED ∧ rec.renew_count < 2 ∧
        env.now ≤ rec.due_date ∧
        renew_book env s id nd =
          (borrow_save_data env,
            { s with
              borrows := s.borrows.set i
                { rec with
                  due_date := if nd = 0 then wrap_long (rec.due_date + 15 * 24 * 60 * 60) else nd
                  renew_count := rec.renew_count + 1
                  status := BORROW_STATUS_RENEWED } })) := by
  cases hrec : find_first (fun x => decide (x.id.val = id)) s.borrows with
  | none =>
    left
    refine ⟨rfl, ?_⟩
    unfold renew_book
    rw [hrec]
  | some q =>
    obtain ⟨i, rec⟩ := q
    right
    by_cases hst : rec.status = BORROW_STATUS_RETURNED
    · left
      refine ⟨i, rec, rfl, hst, ?_⟩
      unfold renew_book
      rw [hrec]
      simp only
      rw [if_pos hst]
    · right
      by_cases hcnt : 2 ≤ rec.renew_count
      · left
        refine ⟨i, rec, rfl, hst, hcnt, ?_⟩
        unfold renew_book
        rw [hrec]
        simp only
        rw [if_neg hst, if_pos (by simpa [MAX_RENEW_COUNT] using hcnt)]
      · right
        have hcnt2 : rec.renew_count < 2 := not_le.mp hcnt
        by_cases hdue : rec.due_date < env.now
        · left
          exact ⟨i, rec, rfl, hst, hcnt2, hdue,
            renew_book_of_overdue env s id nd i rec hrec hst hcnt2 hdue⟩
        · right
          exact ⟨i, rec, rfl, hst, hcnt2, not_lt.mp hdue,
            renew_book_of_valid env s id nd i rec hrec hst hcnt2 (not_lt.mp hdue)⟩

/-- A return value of `0` means that `renew_book` took the renewing path. -/
theorem renew_book_ret_zero (env : Env) (s : State) (id : List Char) (nd : Int)
    (h : (renew_book env s id nd).1 = 0) :
    ∃ i rec, find_first (fun x => decide (x.id.val = id)) s.borrows = some (i, rec) ∧
      rec.status ≠ BORROW_STATUS_RETURNED ∧ rec.renew_count < 2 ∧
      env.now ≤ rec.due_date ∧
      renew_book env s id nd =
        (borrow_save_data env,
          { s with
            borrows := s.borrows.set i
              { rec with
                due_date := if nd = 0 then wrap_long (rec.due_date + 15 * 24 * 60 * 60) else nd
                renew_count := rec.renew_count + 1
                status := BORROW_STATUS_RENEWED } }) := by
  rcases renew_book_cases env s id nd with c | c | c | c | c
  · rw [c.2] at h
    simp at h
  · obtain ⟨i, rec, _, _, c⟩ := c
    rw [c] at h
    simp at h
  · obtain ⟨i, rec, _, _, _, c⟩ := c
    rw [c] at h
    simp at h
  · obtain ⟨i, rec, _, _, _, _, c⟩ := c
    rw [c] at h
    simp at h
  · exact c

/-- A record at the renewal limit is rejected with `-4`, whatever the clock says. -/
theorem renew_book_over_limit (env : Env) (s : State) (id : List Char) (nd : Int)
    (i : Nat) (rec : BorrowRecord)
    (hrec : find_first (fun x => decide (x.id.val = id)) s.borrows = some (i, rec))
    (hst : rec.status ≠ BORROW_STATUS_RETURNED) (hcnt : 2 ≤ rec.renew_count) :
    renew_book env s id nd = (-4, s) := by
  unfold renew_book
  rw [hrec]
  simp only
  rw [if_neg hst, if_pos (by simpa [MAX_RENEW_COUNT] using hcnt)]

/-- After a successful renewal the first record with the identifier is still at the same
position, is Renewed, and has one more renewal counted. -/
theorem renew_book_ret_zero_find (env : Env) (s : State) (id : List Char) (nd : Int)
    (i : Nat) (rec : BorrowRecord)
    (hrec : find_first (fun x => decide (x.id.val = id)) s.borrows = some (i, rec))
    (h : (renew_book env s id nd).1 = 0) :
    rec.renew_count < 2 ∧
      ∃ rec', find_first (fun x => decide (x.id.val = id)) (renew_book env s id nd).2.borrows =
          some (i, rec') ∧
        rec'.renew_count = rec.renew_count + 1 ∧ rec'.status = BORROW_STATUS_RENEWED := by
  obtain ⟨i', rec0, hrec0, _, hcnt, _, heq⟩ := renew_book_ret_zero env s id nd h
  rw [hrec] at hrec0
  simp only [Option.some.injEq, Prod.mk.injEq] at hrec0
  obtain ⟨hi, hr⟩ := hrec0
  subst hi
  subst hr
  have hp : (fun x : BorrowRecord => decide (x.id.val = id))
      { rec with
        due_date := if nd = 0 then wrap_long (rec.due_date + 15 * 24 * 60 * 60) else nd
        renew_count := rec.renew_count + 1
        status := BORROW_STATUS_RENEWED } = true :=
    (find_first_some _ s.borrows i rec hrec).2.1
  rw [heq]
  exact ⟨hcnt, _, find_first_set _ s.borrows i rec _ hrec hp, rfl, rfl⟩

/-! ## Claims about `renew_book` -/

/-- C11, as stated, fails in two ways. The first record `BR1` of `state_on_loan` is not
Returned, has `renew_count = 0 < 2` and is not overdue, and `renew_book` returns `-1`, not
`0`, when the ledger file cannot be opened. And the record `BR1` of `state_far_due`, which
has been renewed once with `LONG_MAX` as its due date, is not Returned, has
`renew_count = 1 < 2` and is not overdue; `renew_book` with `newDueDate = 0` returns `0`,
and the `due_date` afterwards is `LONG_MIN + 1295999`, not the old `due_date` plus
`15*24*60*60 = 1296000`. -/
theorem renew_book_unwritable_ledger_returns_minus_one :
    find_first (fun x => decide (x.id.val = "BR1".toList)) state_on_loan.borrows =
        some (0, new_borrow_record env0 "B1".toList "R1".toList) ∧
      (new_borrow_record env0 "B1".toList "R1".toList).status ≠ BORROW_STATUS_RETURNED ∧
      (new_borrow_record env0 "B1".toList "R1".toList).renew_count < 2 ∧
      env_ledger_unwritable.now ≤ (new_borrow_record env0 "B1".toList "R1".toList).due_date ∧
      (renew_book env_ledger_unwritable state_on_loan "BR1".toList 0).1 = -1 ∧
      state_far_due.borrows.map (fun r => (r.id.val, r.status, r.renew_count, r.due_date)) =
        [("BR1".toList, BORROW_STATUS_RENEWED, 1, 9223372036854775807)] ∧
      env0.now ≤ 9223372036854775807 ∧
      (renew_book env0 state_far_due "BR1".toList 0).1 = 0 ∧
      (renew_book env0 state_far_due "BR1".toList 0).2.borrows.map (fun r => r.due_date) =
        [-9223372036853479809] ∧
      (-9223372036853479809 : Int) ≠ 9223372036854775807 + 15 * 24 * 60 * 60 := by
  decide

/-- C11 (amended): for the first record with the identifier, at position `i`, that is not
Returned, has `renew_count < 2` and `due_date >= now`, `renew_book(id, newDueDate)` returns
`0` when the ledger file can be written and `-1` when it cannot; in both cases the record is
replaced in place by a copy with `renew_count + 1`, status Renewed, and, when
`newDueDate = 0`, the old `due_date` plus `15*24*60*60` reduced into the range of `time_t`,
which is `old due_date + 15*24*60*60` whenever the old `due_date` is a `time_t` value and
that sum is at most `LONG_MAX`; `due_date = newDueDate` otherwise; all other fields being
the same; every other record, the books and the readers are unchanged. -/
theorem renew_book_renews (env : Env) (s : State) (id : List Char) (nd : Int)
    (i : Nat) (rec : BorrowRecord)
    (hrec : find_first (fun x => decide (x.id.val = id)) s.borrows = some (i, rec))
    (hst : rec.status ≠ BORROW_STATUS_RETURNED) (hcnt : rec.renew_count < 2)
    (hdue : env.now ≤ rec.due_date) :
    (renew_book env s id nd).1 = (if env.borrows_file_ok = true then 0 else -1) ∧
      (renew_book env s id nd).2.borrows =
        s.borrows.set i
          { rec with
            due_date := if nd = 0 then wrap_long (rec.due_date + 15 * 24 * 60 * 60) else nd
            renew_count := rec.renew_count + 1
            status := BORROW_STATUS_RENEWED } ∧
      find_first (fun x => decide (x.id.val = id)) (renew_book env s id nd).2.borrows =
        some (i,
          { rec with
            due_date := if nd = 0 then wrap_long (rec.due_date + 15 * 24 * 60 * 60) else nd
            renew_count := rec.renew_count + 1
            status := BORROW_STATUS_RENEWED }) ∧
      (renew_book env s id nd).2.borrows.length = s.borrows.length ∧
      (∀ j, j ≠ i → (renew_book env s id nd).2.borrows[j]? = s.borrows[j]?) ∧
      (renew_book env s id nd).2.books = s.books ∧
      (renew_book env s id nd).2.readers = s.readers ∧
      (is_long rec.due_date → rec.due_date + 15 * 24 * 60 * 60 ≤ LONG_MAX →
        (renew_book env s id nd).2.borrows =
          s.borrows.set i
            { rec with
              due_date := if nd = 0 then rec.due_date + 15 * 24 * 60 * 60 else nd
              renew_count := rec.renew_count + 1
              status := BORROW_STATUS_RENEWED }) := by
  have hp : (fun x : BorrowRecord => decide (x.id.val = id))
      { rec with
        due_date := if nd = 0 then wrap_long (rec.due_date + 15 * 24 * 60 * 60) else nd
        renew_count := rec.renew_count + 1
        status := BORROW_STATUS_RENEWED } = true :=
    (find_first_some _ s.borrows i rec hrec).2.1
  rw [renew_book_of_valid env s id nd i rec hrec hst hcnt hdue]
  refine ⟨rfl, rfl, find_first_set _ s.borrows i rec _ hrec hp, by simp, ?_, rfl, rfl, ?_⟩
  · intro j hj
    simp [List.getElem?_set, Ne.symm hj]
  · intro hlong hsum
    have hw : wrap_long (rec.due_date + 15 * 24 * 60 * 60) =
        rec.due_date + 15 * 24 * 60 * 60 := by
      apply wrap_long_of_is_long
      unfold is_long LONG_MIN LONG_MAX at *
      omega
    rw [hw]

/-- C11 (amended) at `state_on_loan`: the record `BR1` is renewed with the default
extension, which stays in the range of `time_t`, and the call returns `0`. -/
theorem renew_book_renews_witness :
    (renew_book env0 state_on_loan "BR1".toList 0).1 = 0 ∧
      (renew_book env0 state_on_loan "BR1".toList 0).2.borrows =
        [{ new_borrow_record env0 "B1".toList "R1".toList with
            due_date := 1000 + 30 * 24 * 60 * 60 + 15 * 24 * 60 * 60
            renew_count := 1
            status := BORROW_STATUS_RENEWED }] :=
  have h := renew_book_renews env0 state_on_loan "BR1".toList 0 0
    (new_borrow_record env0 "B1".toList "R1".toList)
    (by decide) (by decide) (by decide) (by decide)
  ⟨h.1, h.2.2.2.2.2.2.2 (by decide) (by decide)⟩

/-- C12, as stated, fails: the record `BR1` of `state_negative_renew` has
`renew_count = -1`, as a ledger file can supply it; two calls of `renew_book` in a row
succeed on it, and the third call succeeds as well instead of returning `-4`, since the
counter is then `1 < 2`. -/
theorem third_renewal_succeeds :
    state_negative_renew.borrows.map (fun r => r.renew_count) = [-1] ∧
      (renew_book env0 state_negative_renew "BR1".toList 0).1 = 0 ∧
      (renew_book env0 (renew_book env0 state_negative_renew "BR1".toList 0).2
        "BR1".toList 0).1 = 0 ∧
      (renew_book env0
        (renew_book env0 (renew_book env0 state_negative_renew "BR1".toList 0).2
          "BR1".toList 0).2 "BR1".toList 0).1 = 0 := by
  decide

/-- C12 (amended): `renew_book` returns `-2` exactly when no record has the identifier, `-3`
exactly when the first record with it is Returned, and `-4` exactly when that record is not
Returned and has `renew_count >= 2`, whatever its due date and the clock are; whenever it
returns one of these three codes the whole state is unchanged. Scenario C: when a record
whose counter is not negative (`borrow_book` creates it with `0`) is renewed successfully
twice in a row, a third `renew_book` returns `-4` and changes nothing. -/
theorem renew_book_failures (env : Env) (s : State) (id : List Char) (nd : Int) :
    ((renew_book env s id nd).1 = -2 ↔ ∀ x ∈ s.borrows, x.id.val ≠ id) ∧
    ((renew_book env s id nd).1 = -3 ↔
      ∃ i rec, find_first (fun x => decide (x.id.val = id)) s.borrows = some (i, rec) ∧
        rec.status = BORROW_STATUS_RETURNED) ∧
    ((renew_book env s id nd).1 = -4 ↔
      ∃ i rec, find_first (fun x => decide (x.id.val = id)) s.borrows = some (i, rec) ∧
        rec.status ≠ BORROW_STATUS_RETURNED ∧ 2 ≤ rec.renew_count) ∧
    (((renew_book env s id nd).1 = -2 ∨ (renew_book env s id nd).1 = -3 ∨
        (renew_book env s id nd).1 = -4) →
      (renew_book env s id nd).2 = s) ∧
    (∀ (i : Nat) (rec : BorrowRecord) (env2 env3 : Env) (nd2 nd3 : Int),
      find_first (fun x => decide (x.id.val = id)) s.borrows = some (i, rec) →
      0 ≤ rec.renew_count →
      (renew_book env s id nd).1 = 0 →
      (renew_book env2 (renew_book env s id nd).2 id nd2).1 = 0 →
      renew_book env3 (renew_book env2 (renew_book env s id nd).2 id nd2).2 id nd3 =
        (-4, (renew_book env2 (renew_book env s id nd).2 id nd2).2)) := by
  have hnone : find_first (fun x : BorrowRecord => decide (x.id.val = id)) s.borrows = none ↔
      ∀ x ∈ s.borrows, x.id.val ≠ id := by
    rw [find_first_none]
    simp
  have hscenario : ∀ (i : Nat) (rec : BorrowRecord) (env2 env3 : Env) (nd2 nd3 : Int),
      find_first (fun x => decide (x.id.val = id)) s.borrows = some (i, rec) →
      0 ≤ rec.renew_count →
      (renew_book env s id nd).1 = 0 →
      (renew_book env2 (renew_book env s id nd).2 id nd2).1 = 0 →
      renew_book env3 (renew_book env2 (renew_book env s id nd).2 id nd2).2 id nd3 =
        (-4, (renew_book env2 (renew_book env s id nd).2 id nd2).2) := by
    intro i rec env2 env3 nd2 nd3 hrec hnonneg h1 h2
    obtain ⟨_, rec1, hrec1, hc1, _⟩ := renew_book_ret_zero_find env s id nd i rec hrec h1
    obtain ⟨hlt, rec2, hrec2, hc2, hs2⟩ :=
      renew_book_ret_zero_find env2 _ id nd2 i rec1 hrec1 h2
    apply renew_book_over_limit env3 _ id nd3 i rec2 hrec2
    · rw [hs2]
      decide
    · omega
  have hcodes :
      ((renew_book env s id nd).1 = -2 ↔
        find_first (fun x : BorrowRecord => decide (x.id.val = id)) s.borrows = none) ∧
      ((renew_book env s id nd).1 = -3 ↔
        ∃ i rec, find_first (fun x => decide (x.id.val = id)) s.borrows = some (i, rec) ∧
          rec.status = BORROW_STATUS_RETURNED) ∧
      ((renew_book env s id nd).1 = -4 ↔
        ∃ i rec, find_first (fun x => decide (x.id.val = id)) s.borrows = some (i, rec) ∧
          rec.status ≠ BORROW_STATUS_RETURNED ∧ 2 ≤ rec.renew_count) ∧
      (((renew_book env s id nd).1 = -2 ∨ (renew_book env s id nd).1 = -3 ∨
          (renew_book env s id nd).1 = -4) →
        (renew_book env s id nd).2 = s) := by
    rcases renew_book_cases env s id nd with c | c | c | c | c
    · obtain ⟨hf, c⟩ := c
      simp [c, hf]
    · obtain ⟨i, rec, hf, hst, c⟩ := c
      simp [c, hf, hst, and_assoc]
    · obtain ⟨i, rec, hf, hst, hcnt, c⟩ := c
      simp [c, hf, hst, hcnt, and_assoc]
    · obtain ⟨i, rec, hf, hst, hcnt, hdue, c⟩ := c
      have hcnt2 : ¬ (2 ≤ rec.renew_count) := not_le.mpr hcnt
      simp [c, hf, hst, hcnt2, and_assoc]
    · obtain ⟨i, rec, hf, hst, hcnt, hdue, c⟩ := c
      have hcnt2 : ¬ (2 ≤ rec.renew_count) := not_le.mpr hcnt
      cases hok : env.borrows_file_ok <;>
        simp [c, hf, hst, hcnt2, borrow_save_data, hok, and_assoc]
  rw [← hnone]
  exact ⟨hcodes.1, hcodes.2.1, hcodes.2.2.1, hcodes.2.2.2, hscenario⟩

/-- C12 (amended), Scenario C at `state_on_loan`: two renewals succeed, the third returns
`-4`. -/
theorem renew_book_failures_witness :
    renew_book env0
        (renew_book env0 (renew_book env0 state_on_loan "BR1".toList 0).2 "BR1".toList 0).2
        "BR1".toList 0 =
      (-4, (renew_book env0 (renew_book env0 state_on_loan "BR1".toList 0).2
        "BR1".toList 0).2) :=
  (renew_book_failures env0 state_on_loan "BR1".toList 0).2.2.2.2 0
    (new_borrow_record env0 "B1".toList "R1".toList) env0 env0 0 0
    (by decide) (by decide) (by decide) (by decide)

/-- C13, Scenario D: for the first record with the identifier, at position `i`, that is not
Returned, has `renew_count < 2` and `due_date < now`, `renew_book` returns `-5`, and the
record is replaced in place by a copy whose status is Overdue and whose other fields
(`renew_count` and `due_date` among them) are the same; every other record, the books and
the readers are unchanged. -/
theorem renew_book_overdue (env : Env) (s : State) (id : List Char) (nd : Int)
    (i : Nat) (rec : BorrowRecord)
    (hrec : find_first (fun x => decide (x.id.val = id)) s.borrows = some (i, rec))
    (hst : rec.status ≠ BORROW_STATUS_RETURNED) (hcnt : rec.renew_count < 2)
    (hdue : rec.due_date < env.now) :
    (renew_book env s id nd).1 = -5 ∧
      (renew_book env s id nd).2.borrows =
        s.borrows.set i { rec with status := BORROW_STATUS_OVERDUE } ∧
      find_first (fun x => decide (x.id.val = id)) (renew_book env s id nd).2.borrows =
        some (i, { rec with status := BORROW_STATUS_OVERDUE }) ∧
      (renew_book env s id nd).2.borrows.length = s.borrows.length ∧
      (∀ j, j ≠ i → (renew_book env s id nd).2.borrows[j]? = s.borrows[j]?) ∧
      (renew_book env s id nd).2.books = s.books ∧
      (renew_book env s id nd).2.readers = s.readers := by
  have hp : (fun x : BorrowRecord => decide (x.id.val = id))
      { rec with status := BORROW_STATUS_OVERDUE } = true :=
    (find_first_some _ s.borrows i rec hrec).2.1
  rw [renew_book_of_overdue env s id nd i rec hrec hst hcnt hdue]
  refine ⟨rfl, rfl, find_first_set _ s.borrows i rec _ hrec hp, by simp, ?_, rfl, rfl⟩
  intro j hj
  simp [List.getElem?_set, Ne.symm hj]

/-- C13 at `state_on_loan` after the due date: the call returns `-5` and the record `BR1`
is marked Overdue. -/
theorem renew_book_overdue_witness :
    (renew_book env_late state_on_loan "BR1".toList 0).1 = -5 ∧
      (renew_book env_late state_on_loan "BR1".toList 0).2.borrows =
        [{ new_borrow_record env0 "B1".toList "R1".toList with
            status := BORROW_STATUS_OVERDUE }] :=
  have h := renew_book_overdue env_late state_on_loan "BR1".toList 0 0
    (new_borrow_record env0 "B1".toList "R1".toList)
    (by decide) (by decide) (by decide) (by decide)
  ⟨h.1, h.2.1⟩

/-! ## What `borrow_get_overdue` computes -/

theorem is_overdue_iff (now : Int) (r : BorrowRecord) :
    is_overdue now r = true ↔ r.status ≠ BORROW_STATUS_RETURNED ∧ r.due_date < now := by
  simp [is_overdue]

theorem is_overdue_mark_overdue (now : Int) (r : BorrowRecord)
    (h : is_overdue now r = true) : is_overdue now (mark_overdue r) = true := by
  rw [is_overdue_iff] at h ⊢
  refine ⟨?_, h.2⟩
  simp [mark_overdue, BORROW_STATUS_OVERDUE, BORROW_STATUS_RETURNED]

theorem mark_overdue_idem (r : BorrowRecord) : mark_overdue (mark_overdue r) = mark_overdue r :=
  rfl

/-- One step of the loop on a selected record while the limit is not reached. -/
theorem borrow_get_overdue_loop_hit (now m : Int) (r : BorrowRecord) (rest : List BorrowRecord)
    (c : Int) (hlt : c < m) (hp : is_overdue now r = true) :
    borrow_get_overdue_loop now m (r :: rest) c =
      (mark_overdue r :: (borrow_get_overdue_loop now m rest (c + 1)).1,
        mark_overdue r :: (borrow_get_overdue_loop now m rest (c + 1)).2) := by
  rw [is_overdue_iff] at hp
  conv_lhs => unfold borrow_get_overdue_loop
  rw [if_pos hlt, if_pos hp]
  rfl

/-- One step of the loop on a record that is not selected while the limit is not reached. -/
theorem borrow_get_overdue_loop_miss (now m : Int) (r : BorrowRecord)
    (rest : List BorrowRecord) (c : Int) (hlt : c < m) (hp : is_overdue now r = false) :
    borrow_get_overdue_loop now m (r :: rest) c =
      ((borrow_get_overdue_loop now m rest c).1,
        r :: (borrow_get_overdue_loop now m rest c).2) := by
  have hp2 : ¬ (r.status ≠ BORROW_STATUS_RETURNED ∧ r.due_date < now) := by
    rw [← is_overdue_iff, hp]
    simp
  conv_lhs => unfold borrow_get_overdue_loop
  rw [if_pos hlt, if_neg hp2]

/-- The loop stops as soon as the limit is reached. -/
theorem borrow_get_overdue_loop_stop (now m : Int) (l : List BorrowRecord) (c : Int)
    (hge : m ≤ c) : borrow_get_overdue_loop now m l c = ([], l) := by
  cases l with
  | nil => rfl
  | cons r rest =>
    unfold borrow_get_overdue_loop
    rw [if_neg (not_lt.mpr hge)]

/-- The records copied out by the loop are the first `max_count - count` selected ones, in
order, each marked Overdue. -/
theorem borrow_get_overdue_loop_records (now m : Int) :
    ∀ (l : List BorrowRecord) (c : Int),
      (borrow_get_overdue_loop now m l c).1 = overdue_selected now (m - c) l := by
  intro l
  induction l with
  | nil => intro c; simp [borrow_get_overdue_loop, overdue_selected]
  | cons r rest ih =>
    intro c
    by_cases hlt : c < m
    · cases hp : is_overdue now r with
      | true =>
        rw [borrow_get_overdue_loop_hit now m r rest c hlt hp, ih (c + 1)]
        have hn : (m - c).toNat = (m - (c + 1)).toNat + 1 := by omega
        simp [overdue_selected, List.filter_cons, hp, hn]
      | false =>
        rw [borrow_get_overdue_loop_miss now m r rest c hlt hp, ih c]
        simp [overdue_selected, List.filter_cons, hp]
    · rw [borrow_get_overdue_loop_stop now m _ c (not_lt.mp hlt)]
      have hn : (m - c).toNat = 0 := by omega
      simp [overdue_selected, hn]

/-- The loop keeps the number of slots. -/
theorem borrow_get_overdue_loop_length (now m : Int) :
    ∀ (l : List BorrowRecord) (c : Int),
      (borrow_get_overdue_loop now m l c).2.length = l.length := by
  intro l
  induction l with
  | nil => intro c; simp [borrow_get_overdue_loop]
  | cons r rest ih =>
    intro c
    by_cases hlt : c < m
    · cases hp : is_overdue now r with
      | true =>
        rw [borrow_get_overdue_loop_hit now m r rest c hlt hp]
        simp [ih (c + 1)]
      | false =>
        rw [borrow_get_overdue_loop_miss now m r rest c hlt hp]
        simp [ih c]
    · rw [borrow_get_overdue_loop_stop now m _ c (not_lt.mp hlt)]

/-- Slot by slot: a slot is marked Overdue exactly when its record is selected and fewer
than `max_count - count` selected records precede it; otherwise it keeps its record. -/
theorem borrow_get_overdue_loop_slot (now m : Int) :
    ∀ (l : List BorrowRecord) (c : Int) (j : Nat) (r : BorrowRecord), l[j]? = some r →
      (borrow_get_overdue_loop now m l c).2[j]? =
        some (if is_overdue now r = true ∧
            c + (((l.take j).filter (is_overdue now)).length : Int) < m
          then mark_overdue r else r) := by
  intro l
  induction l with
  | nil => intro c j r h; simp at h
  | cons a rest ih =>
    intro c j r h
    by_cases hlt : c < m
    · cases hp : is_overdue now a with
      | true =>
        rw [borrow_get_overdue_loop_hit now m a rest c hlt hp]
        cases j with
        | zero =>
          simp only [List.getElem?_cons_zero, Option.some.injEq] at h
          subst h
          simp [hp, hlt]
        | succ k =>
          simp only [List.getElem?_cons_succ] at h
          simp only [List.getElem?_cons_succ, List.take_succ_cons, List.filter_cons, hp,
            if_true, List.length_cons]
          rw [ih (c + 1) k r h]
          have hcast : c + ((((rest.take k).filter (is_overdue now)).length + 1 : Nat) : Int) =
              c + 1 + (((rest.take k).filter (is_overdue now)).length : Int) := by
            push_cast
            ring
          rw [hcast]
      | false =>
        rw [borrow_get_overdue_loop_miss now m a rest c hlt hp]
        cases j with
        | zero =>
          simp only [List.getElem?_cons_zero, Option.some.injEq] at h
          subst h
          simp [hp]
        | succ k =>
          simp only [List.getElem?_cons_succ] at h
          simp only [List.getElem?_cons_succ, List.take_succ_cons, List.filter_cons, hp]
          rw [ih c k r h]
          simp
    · rw [borrow_get_overdue_loop_stop now m _ c (not_lt.mp hlt)]
      have hno : ¬ (c + ((((a :: rest).take j).filter (is_overdue now)).length : Int) < m) := by
        omega
      simp [h, hno]

/-- Running the loop again on its own output, with the same clock and limit, copies out the
same records and changes no slot. -/
theorem borrow_get_overdue_loop_idem (now m : Int) :
    ∀ (l : List BorrowRecord) (c : Int),
      borrow_get_overdue_loop now m (borrow_get_overdue_loop now m l c).2 c =
        borrow_get_overdue_loop now m l c := by
  intro l
  induction l with
  | nil => intro c; simp [borrow_get_overdue_loop]
  | cons r rest ih =>
    intro c
    by_cases hlt : c < m
    · cases hp : is_overdue now r with
      | true =>
        rw [borrow_get_overdue_loop_hit now m r rest c hlt hp]
        simp only
        rw [borrow_get_overdue_loop_hit now m (mark_overdue r) _ c hlt
          (is_overdue_mark_overdue now r hp), ih (c + 1), mark_overdue_idem]
      | false =>
        rw [borrow_get_overdue_loop_miss now m r rest c hlt hp]
        simp only
        rw [borrow_get_overdue_loop_miss now m r _ c hlt hp, ih c]
    · rw [borrow_get_overdue_loop_stop now m (r :: rest) c (not_lt.mp hlt)]
      exact borrow_get_overdue_loop_stop now m (r :: rest) c (not_lt.mp hlt)

/-- A call with a limit that is not positive returns at once. -/
theorem borrow_get_overdue_nonpos (env : Env) (s : State) (limit : Int) (h : limit ≤ 0) :
    borrow_get_overdue env s limit =
      { count := 0, records := [], state := s, saved := false } := by
  unfold borrow_get_overdue
  rw [if_pos h]

/-- A call with a positive limit runs the loop from the first slot with nothing copied
out yet. -/
theorem borrow_get_overdue_pos (env : Env) (s : State) (limit : Int) (h : 0 < limit) :
    borrow_get_overdue env s limit =
      { count := ((borrow_get_overdue_loop env.now limit s.borrows 0).1.length : Int)
        records := (borrow_get_overdue_loop env.now limit s.borrows 0).1
        state := { s with borrows := (borrow_get_overdue_loop env.now limit s.borrows 0).2 }
        saved :=
          decide (((borrow_get_overdue_loop env.now limit s.borrows 0).1.length : Int) > 0) } := by
  unfold borrow_get_overdue
  rw [if_neg (not_le.mpr h)]

/-! ## Claims about `borrow_get_overdue` -/

/-- C14, as stated, fails: in `state_two_due` both records are not Returned and due before
the time of `env_late`, and the second one, `BR2`, has status Overdue already; with the
limit `1` the call copies out `BR1` only, and afterwards `BR2` has status Overdue in the
ledger without being one of the records copied out. -/
theorem overdue_record_not_returned :
    state_two_due.borrows.map (fun r => (r.id.val, r.status)) =
        [("BR1".toList, BORROW_STATUS_BORROWED), ("BR2".toList, BORROW_STATUS_OVERDUE)] ∧
      (∀ r ∈ state_two_due.borrows,
        r.status ≠ BORROW_STATUS_RETURNED ∧ r.due_date < env_late.now) ∧
      (borrow_get_overdue env_late state_two_due 1).count = 1 ∧
      (borrow_get_overdue env_late state_two_due 1).records.map
        (fun r => (r.id.val, r.status)) = [("BR1".toList, BORROW_STATUS_OVERDUE)] ∧
      (borrow_get_overdue env_late state_two_due 1).state.borrows.map
          (fun r => (r.id.val, r.status)) =
        [("BR1".toList, BORROW_STATUS_OVERDUE), ("BR2".toList, BORROW_STATUS_OVERDUE)] := by
  decide

/-- C14 (amended): for a positive limit, `borrow_get_overdue` copies out, in ledger order,
the first `limit` records among those that are not Returned and are due before `now`, each
with status Overdue, and returns their number; afterwards a slot of the ledger holds its old
record marked Overdue when that record is one of those copied out (it is selected and fewer
than `limit` selected records precede it) and holds its old record unchanged otherwise, with
the status it had, Overdue or not; nothing else in the state changes. For a limit that is
not positive it copies out nothing, returns `0` and changes nothing. -/
theorem borrow_get_overdue_selects (env : Env) (s : State) (limit : Int) :
    (0 < limit →
      (borrow_get_overdue env s limit).records = overdue_selected env.now limit s.borrows ∧
      (borrow_get_overdue env s limit).count =
        ((overdue_selected env.now limit s.borrows).length : Int) ∧
      (borrow_get_overdue env s limit).state.borrows.length = s.borrows.length ∧
      (∀ j r, s.borrows[j]? = some r →
        (borrow_get_overdue env s limit).state.borrows[j]? =
          some (if is_overdue env.now r = true ∧
              (((s.borrows.take j).filter (is_overdue env.now)).length : Int) < limit
            then mark_overdue r else r)) ∧
      (borrow_get_overdue env s limit).state =
        { s with borrows := (borrow_get_overdue env s limit).state.borrows }) ∧
    (limit ≤ 0 →
      (borrow_get_overdue env s limit).records = [] ∧
      (borrow_get_overdue env s limit).count = 0 ∧
      (borrow_get_overdue env s limit).state = s) := by
  constructor
  · intro hpos
    have hrec := borrow_get_overdue_loop_records env.now limit s.borrows 0
    rw [sub_zero] at hrec
    rw [borrow_get_overdue_pos env s limit hpos]
    refine ⟨hrec, by rw [hrec],
      borrow_get_overdue_loop_length env.now limit s.borrows 0, ?_, rfl⟩
    intro j r hj
    have hslot := borrow_get_overdue_loop_slot env.now limit s.borrows 0 j r hj
    rw [zero_add] at hslot
    exact hslot
  · intro hle
    rw [borrow_get_overdue_nonpos env s limit hle]
    exact ⟨rfl, rfl, rfl⟩

/-- C14 (amended) at `state_on_loan` after the due date: the one open record is copied out
as Overdue, and the ledger holds it marked Overdue. -/
theorem borrow_get_overdue_selects_witness :
    (borrow_get_overdue env_late state_on_loan 1).records =
        [{ new_borrow_record env0 "B1".toList "R1".toList with
            status := BORROW_STATUS_OVERDUE }] ∧
      (borrow_get_overdue env_late state_on_loan 1).count = 1 ∧
      (borrow_get_overdue env_late state_on_loan 1).state.borrows[0]? =
        some { new_borrow_record env0 "B1".toList "R1".toList with
          status := BORROW_STATUS_OVERDUE } :=
  have h := (borrow_get_overdue_selects env_late state_on_loan 1).1 (by decide)
  ⟨h.1.trans (by decide), h.2.1.trans (by decide),
    (h.2.2.2.1 0 (new_borrow_record env0 "B1".toList "R1".toList) (by decide)).trans
      (by decide)⟩

/-- C15, Scenario E: a second call of `borrow_get_overdue` with the same current time and
the same limit, made right after the first, copies out the same list of records, returns
the same count, and leaves the state as the first call left it. -/
theorem borrow_get_overdue_twice (env env' : Env) (s : State) (limit : Int)
    (hnow : env'.now = env.now) :
    (borrow_get_overdue env' (borrow_get_overdue env s limit).state limit).records =
        (borrow_get_overdue env s limit).records ∧
      (borrow_get_overdue env' (borrow_get_overdue env s limit).state limit).count =
        (borrow_get_overdue env s limit).count ∧
      (borrow_get_overdue env' (borrow_get_overdue env s limit).state limit).state =
        (borrow_get_overdue env s limit).state := by
  by_cases hle : limit ≤ 0
  · rw [borrow_get_overdue_nonpos env s limit hle, borrow_get_overdue_nonpos env' s limit hle]
    exact ⟨rfl, rfl, rfl⟩
  · have hpos : 0 < limit := not_le.mp hle
    have hidem := borrow_get_overdue_loop_idem env.now limit s.borrows 0
    rw [borrow_get_overdue_pos env s limit hpos, borrow_get_overdue_pos env' _ limit hpos, hnow]
    simp only
    rw [hidem]
    exact ⟨rfl, rfl, rfl⟩

/-- C15 at `state_on_loan` after the due date, the second call with another file state. -/
theorem borrow_get_overdue_twice_witness :
    (borrow_get_overdue { env_late with borrows_file_ok := false }
        (borrow_get_overdue env_late state_on_loan 1).state 1).records =
        (borrow_get_overdue env_late state_on_loan 1).records ∧
      (borrow_get_overdue { env_late with borrows_file_ok := false }
        (borrow_get_overdue env_late state_on_loan 1).state 1).count =
        (borrow_get_overdue env_late state_on_loan 1).count ∧
      (borrow_get_overdue { env_late with borrows_file_ok := false }
        (borrow_get_overdue env_late state_on_loan 1).state 1).state =
        (borrow_get_overdue env_late state_on_loan 1).state :=
  borrow_get_overdue_twice env_late { env_late with borrows_file_ok := false }
    state_on_loan 1 rfl

/-- C16 fails on the code: at `state_on_loan` after the due date, the first call of
`borrow_get_overdue` marks the record `BR1` and saves; the second call changes nothing, no
status in particular, and still calls `borrow_save_data`, because the save is guarded by
`count > 0` and not by a status change. -/
theorem borrow_get_overdue_saves_without_change :
    (borrow_get_overdue env_late state_on_loan 1).saved = true ∧
      (borrow_get_overdue env_late state_on_loan 1).state ≠ state_on_loan ∧
      (borrow_get_overdue env_late (borrow_get_overdue env_late state_on_loan 1).state 1).state =
        (borrow_get_overdue env_late state_on_loan 1).state ∧
      (borrow_get_overdue env_late (borrow_get_overdue env_late state_on_loan 1).state 1).saved =
        true := by
  decide

/-! ## Slot by slot: what one call does to the ledger -/

theorem getElem?_set_cases {α : Type} (l : List α) (i j : Nat) (x a b : α)
    (hi : l[i]? = some a) (hj : l[j]? = some b) :
    (i = j ∧ a = b ∧ (l.set i x)[j]? = some x) ∨ (i ≠ j ∧ (l.set i x)[j]? = some b) := by
  by_cases hij : i = j
  · left
    subst hij
    rw [hi] at hj
    have hlt : i < l.length := by
      rcases Nat.lt_or_ge i l.length with h | h
      · exact h
      · rw [List.getElem?_eq_none h] at hi
        cases hi
    refine ⟨rfl, Option.some.inj hj, ?_⟩
    simp [List.getElem?_set, hlt]
  · right
    refine ⟨hij, ?_⟩
    simp [List.getElem?_set, hij, hj]

/-- The function `borrow_book` keeps every slot and adds at most one at the end. -/
theorem borrow_book_borrows (env : Env) (s : State) (bid rid : List Char) :
    (borrow_book env s bid rid).2.1.borrows = s.borrows ∨
      (borrow_book env s bid rid).2.1.borrows = s.borrows ++ [new_borrow_record env bid rid] := by
  rcases borrow_book_cases env s bid rid with h | h | h | h | h | h
  · left
    rw [h.2]
  · left
    rw [h.2.2]
  · obtain ⟨_, b, _, _, h⟩ := h
    left
    rw [h]
  · obtain ⟨_, b, _, _, _, h⟩ := h
    left
    rw [h]
  · obtain ⟨_, b, r, _, _, _, _, h⟩ := h
    left
    rw [h]
  · obtain ⟨_, ib, b, ir, r, _, _, _, _, h⟩ := h
    right
    rw [h]

theorem borrow_book_slot (env : Env) (s : State) (bid rid : List Char) (j : Nat)
    (r : BorrowRecord) (hj : s.borrows[j]? = some r) :
    (borrow_book env s bid rid).2.1.borrows[j]? = some r := by
  have hlt : j < s.borrows.length := by
    rcases Nat.lt_or_ge j s.borrows.length with h | h
    · exact h
    · rw [List.getElem?_eq_none h] at hj
      cases hj
  rcases borrow_book_borrows env s bid rid with h | h
  · rw [h, hj]
  · rw [h, List.getElem?_append_left hlt, hj]

/-- The function `return_book` changes at most the slot it found, and only on the path
that passes all checks. -/
theorem return_book_slot (env : Env) (s : State) (id : List Char) (j : Nat)
    (r : BorrowRecord) (hj : s.borrows[j]? = some r) :
    (return_book env s id).2.borrows[j]? = some r ∨
      (r.status ≠ BORROW_STATUS_RETURNED ∧
        (return_book env s id).2.borrows[j]? =
          some { r with return_date := env.now, status := BORROW_STATUS_RETURNED } ∧
        (return_book env s id).1 = borrow_save_data env) := by
  rcases return_book_cases env s id with c | c | c | c | c
  · left
    rw [c.2, hj]
  · obtain ⟨i, rec, _, _, c⟩ := c
    left
    rw [c, hj]
  · obtain ⟨i, rec, _, _, _, c⟩ := c
    left
    rw [c, hj]
  · obtain ⟨i, rec, b, _, _, _, _, c⟩ := c
    left
    rw [c, hj]
  · obtain ⟨i, rec, ib, b, ir, rd, hrec, hst, _, _, c⟩ := c
    have hi := (find_first_some _ s.borrows i rec hrec).1
    rw [c]
    rcases getElem?_set_cases s.borrows i j
      { rec with return_date := env.now, status := BORROW_STATUS_RETURNED } rec r hi hj
      with ⟨_, hab, hset⟩ | ⟨_, hset⟩
    · right
      subst hab
      exact ⟨hst, hset, rfl⟩
    · left
      exact hset

/-- The function `renew_book` changes at most the slot it found. -/
theorem renew_book_slot (env : Env) (s : State) (id : List Char) (nd : Int) (j : Nat)
    (r : BorrowRecord) (hj : s.borrows[j]? = some r) :
    (renew_book env s id nd).2.borrows[j]? = some r ∨
      (r.status ≠ BORROW_STATUS_RETURNED ∧ r.renew_count < 2 ∧
        ((renew_book env s id nd).2.borrows[j]? = some (mark_overdue r) ∨
          (env.now ≤ r.due_date ∧
            (renew_book env s id nd).2.borrows[j]? =
              some { r with
                due_date := if nd = 0 then wrap_long (r.due_date + 15 * 24 * 60 * 60) else nd
                renew_count := r.renew_count + 1
                status := BORROW_STATUS_RENEWED }))) := by
  rcases renew_book_cases env s id nd with c | c | c | c | c
  · left
    rw [c.2, hj]
  · obtain ⟨i, rec, _, _, c⟩ := c
    left
    rw [c, hj]
  · obtain ⟨i, rec, _, _, _, c⟩ := c
    left
    rw [c, hj]
  · obtain ⟨i, rec, hrec, hst, hcnt, _, c⟩ := c
    have hi := (find_first_some _ s.borrows i rec hrec).1
    rw [c]
    rcases getElem?_set_cases s.borrows i j
      { rec with status := BORROW_STATUS_OVERDUE } rec r hi hj
      with ⟨_, hab, hset⟩ | ⟨_, hset⟩
    · right
      subst hab
      exact ⟨hst, hcnt, Or.inl hset⟩
    · left
      exact hset
  · obtain ⟨i, rec, hrec, hst, hcnt, hdue, c⟩ := c
    have hi := (find_first_some _ s.borrows i rec hrec).1
    rw [c]
    rcases getElem?_set_cases s.borrows i j
      { rec with
        due_date := if nd = 0 then wrap_long (rec.due_date + 15 * 24 * 60 * 60) else nd
        renew_count := rec.renew_count + 1
        status := BORROW_STATUS_RENEWED } rec r hi hj
      with ⟨_, hab, hset⟩ | ⟨_, hset⟩
    · right
      subst hab
      exact ⟨hst, hcnt, Or.inr ⟨hdue, hset⟩⟩
    · left
      exact hset

/-- The function `borrow_get_overdue` keeps a slot or marks its record, which then is not
Returned, as Overdue. -/
theorem borrow_get_overdue_slot (env : Env) (s : State) (limit : Int) (j : Nat)
    (r : BorrowRecord) (hj : s.borrows[j]? = some r) :
    (borrow_get_overdue env s limit).state.borrows[j]? = some r ∨
      (r.status ≠ BORROW_STATUS_RETURNED ∧
        (borrow_get_overdue env s limit).state.borrows[j]? = some (mark_overdue r)) := by
  by_cases hle : limit ≤ 0
  · left
    rw [borrow_get_overdue_nonpos env s limit hle]
    exact hj
  · rw [borrow_get_overdue_pos env s limit (not_le.mp hle)]
    have hslot := borrow_get_overdue_loop_slot env.now limit s.borrows 0 j r hj
    by_cases hc : is_overdue env.now r = true ∧
        0 + (((s.borrows.take j).filter (is_overdue env.now)).length : Int) < limit
    · right
      rw [if_pos hc] at hslot
      exact ⟨((is_overdue_iff env.now r).mp hc.1).1, hslot⟩
    · left
      rw [if_neg hc] at hslot
      exact hslot

theorem borrow_get_overdue_length (env : Env) (s : State) (limit : Int) :
    (borrow_get_overdue env s limit).state.borrows.length = s.borrows.length := by
  by_cases hle : limit ≤ 0
  · rw [borrow_get_overdue_nonpos env s limit hle]
  · rw [borrow_get_overdue_pos env s limit (not_le.mp hle)]
    exact borrow_get_overdue_loop_length env.now limit s.borrows 0

/-- Every slot of the ledger is still there after a call, and its record changed as
`slot_change` allows. -/
theorem step_slot (s : State) (op : LedgerOp) (j : Nat) (r : BorrowRecord)
    (hj : s.borrows[j]? = some r) :
    ∃ r', (step s op).borrows[j]? = some r' ∧ slot_change op r r' := by
  cases op with
  | borrow env bid rid =>
    exact ⟨r, borrow_book_slot env s bid rid j r hj, rfl⟩
  | give_back env id =>
    rcases return_book_slot env s id j r hj with h | ⟨hst, h, _⟩
    · exact ⟨r, h, Or.inl rfl⟩
    · exact ⟨_, h, Or.inr ⟨hst, rfl⟩⟩
  | renew env id nd =>
    rcases renew_book_slot env s id nd j r hj with h | ⟨hst, hcnt, h | ⟨hdue, h⟩⟩
    · exact ⟨r, h, Or.inl rfl⟩
    · exact ⟨_, h, Or.inr ⟨hst, hcnt, Or.inl rfl⟩⟩
    · exact ⟨_, h, Or.inr ⟨hst, hcnt, Or.inr ⟨hdue, rfl⟩⟩⟩
  | overdue env limit =>
    rcases borrow_get_overdue_slot env s limit j r hj with h | ⟨hst, h⟩
    · exact ⟨r, h, Or.inl rfl⟩
    · exact ⟨_, h, Or.inr ⟨hst, rfl⟩⟩

theorem return_book_length (env : Env) (s : State) (id : List Char) :
    (return_book env s id).2.borrows.length = s.borrows.length := by
  rcases return_book_cases env s id with c | c | c | c | c
  · rw [c.2]
  · obtain ⟨i, rec, _, _, c⟩ := c
    rw [c]
  · obtain ⟨i, rec, _, _, _, c⟩ := c
    rw [c]
  · obtain ⟨i, rec, b, _, _, _, _, c⟩ := c
    rw [c]
  · obtain ⟨i, rec, ib, b, ir, rd, _, _, _, _, c⟩ := c
    rw [c]
    simp

theorem renew_book_length (env : Env) (s : State) (id : List Char) (nd : Int) :
    (renew_book env s id nd).2.borrows.length = s.borrows.length := by
  rcases renew_book_cases env s id nd with c | c | c | c | c
  · rw [c.2]
  · obtain ⟨i, rec, _, _, c⟩ := c
    rw [c]
  · obtain ⟨i, rec, _, _, _, c⟩ := c
    rw [c]
  · obtain ⟨i, rec, _, _, _, _, c⟩ := c
    rw [c]
    simp
  · obtain ⟨i, rec, _, _, _, _, c⟩ := c
    rw [c]
    simp

/-- Where the records of the ledger after a call come from: each is the changed copy of a
record that was there, or the record that `borrow_book` has just appended. -/
theorem step_mem (s : State) (op : LedgerOp) (r' : BorrowRecord)
    (h : r' ∈ (step s op).borrows) :
    (∃ r ∈ s.borrows, slot_change op r r') ∨
      (∃ env bid rid, op = LedgerOp.borrow env bid rid ∧
        r' = new_borrow_record env bid rid) := by
  have hold : ∀ j, j < s.borrows.length → (step s op).borrows[j]? = some r' →
      ∃ r ∈ s.borrows, slot_change op r r' := by
    intro j hlt hj'
    have hj : s.borrows[j]? = some (s.borrows.get ⟨j, hlt⟩) := by
      simp [List.getElem?_eq_getElem hlt]
    obtain ⟨r'', hr'', hch⟩ := step_slot s op j _ hj
    rw [hr''] at hj'
    have heq : r'' = r' := Option.some.inj hj'
    subst heq
    exact ⟨_, List.get_mem s.borrows j hlt, hch⟩
  have hsame : (step s op).borrows.length = s.borrows.length →
      ∃ r ∈ s.borrows, slot_change op r r' := by
    intro hlen
    obtain ⟨j, hj'⟩ := List.mem_iff_getElem?.mp h
    have hlt : j < s.borrows.length := by
      rcases Nat.lt_or_ge j s.borrows.length with hl | hl
      · exact hl
      · rw [List.getElem?_eq_none (by omega)] at hj'
        cases hj'
    exact hold j hlt hj'
  cases op with
  | borrow env bid rid =>
    rcases borrow_book_borrows env s bid rid with hb | hb
    · left
      exact hsame (by show (borrow_book env s bid rid).2.1.borrows.length = _; rw [hb])
    · have h2 : r' ∈ s.borrows ++ [new_borrow_record env bid rid] := by
        rw [← hb]
        exact h
      rcases List.mem_append.mp h2 with hm | hm
      · left
        exact ⟨r', hm, rfl⟩
      · right
        exact ⟨env, bid, rid, rfl, List.mem_singleton.mp hm⟩
  | give_back env id =>
    left
    exact hsame (return_book_length env s id)
  | renew env id nd =>
    left
    exact hsame (renew_book_length env s id nd)
  | overdue env limit =>
    left
    exact hsame (borrow_get_overdue_length env s limit)

theorem run_nil (s : State) : run s [] = s := rfl

theorem run_cons (s : State) (op : LedgerOp) (ops : List LedgerOp) :
    run s (op :: ops) = run (step s op) ops := rfl

theorem run_append_one (s : State) (ops : List LedgerOp) (op : LedgerOp) :
    run s (ops ++ [op]) = step (run s ops) op := by
  simp [run, List.foldl_append]

/-- A property of records that every permitted slot change keeps, and that a freshly
borrowed record has, holds of every record after a call if it held of every record
before. -/
theorem step_preserves (P : BorrowRecord → Prop) (s : State) (op : LedgerOp)
    (hchange : ∀ r r', P r → slot_change op r r' → P r')
    (hnew : ∀ env bid rid, P (new_borrow_record env bid rid))
    (h : ∀ r ∈ s.borrows, P r) :
    ∀ r ∈ (step s op).borrows, P r := by
  intro r' hr'
  rcases step_mem s op r' hr' with ⟨r, hr, hch⟩ | ⟨env, bid, rid, _, hnewrec⟩
  · exact hchange r r' (h r hr) hch
  · rw [hnewrec]
    exact hnew env bid rid

/-! ## Claims about the life cycle of a record -/

theorem slot_change_of_returned (op : LedgerOp) (r r' : BorrowRecord)
    (hst : r.status = BORROW_STATUS_RETURNED) (h : slot_change op r r') : r' = r := by
  cases op with
  | borrow env bid rid => exact h
  | give_back env id =>
    rcases h with h | ⟨hne, _⟩
    · exact h
    · exact absurd hst hne
  | renew env id nd =>
    rcases h with h | ⟨hne, _⟩
    · exact h
    · exact absurd hst hne
  | overdue env limit =>
    rcases h with h | ⟨hne, _⟩
    · exact h
    · exact absurd hst hne

theorem step_returned_slot (s : State) (op : LedgerOp) (j : Nat) (rec : BorrowRecord)
    (hj : s.borrows[j]? = some rec) (hst : rec.status = BORROW_STATUS_RETURNED) :
    (step s op).borrows[j]? = some rec := by
  obtain ⟨r', hr', hch⟩ := step_slot s op j rec hj
  rw [hr', slot_change_of_returned op rec r' hst hch]

theorem run_returned_slot (ops : List LedgerOp) :
    ∀ (s : State) (j : Nat) (rec : BorrowRecord), s.borrows[j]? = some rec →
      rec.status = BORROW_STATUS_RETURNED → (run s ops).borrows[j]? = some rec := by
  induction ops with
  | nil => intro s j rec hj _; exact hj
  | cons op rest ih =>
    intro s j rec hj hst
    rw [run_cons]
    exact ih (step s op) j rec (step_returned_slot s op j rec hj hst) hst

theorem return_book_of_returned (env : Env) (s : State) (id : List Char) (i : Nat)
    (rec : BorrowRecord)
    (hrec : find_first (fun x => decide (x.id.val = id)) s.borrows = some (i, rec))
    (hst : rec.status = BORROW_STATUS_RETURNED) : return_book env s id = (-3, s) := by
  unfold return_book
  rw [hrec]
  simp only
  rw [if_pos hst]

theorem renew_book_of_returned (env : Env) (s : State) (id : List Char) (nd : Int) (i : Nat)
    (rec : BorrowRecord)
    (hrec : find_first (fun x => decide (x.id.val = id)) s.borrows = some (i, rec))
    (hst : rec.status = BORROW_STATUS_RETURNED) : renew_book env s id nd = (-3, s) := by
  unfold renew_book
  rw [hrec]
  simp only
  rw [if_pos hst]

/-- C17: a record whose status is Returned, in slot `j` of any ledger, is still in slot `j`
with every field as it was after any single call of `borrow_book`, `return_book`,
`renew_book` or `borrow_get_overdue` and after any sequence of such calls, with any
arguments and any clock values; and when it is the record that its identifier finds,
`return_book` and `renew_book` on that identifier return `-3` and change nothing. -/
theorem returned_is_terminal (s : State) (j : Nat) (rec : BorrowRecord)
    (hj : s.borrows[j]? = some rec) (hst : rec.status = BORROW_STATUS_RETURNED) :
    (∀ op, (step s op).borrows[j]? = some rec) ∧
      (∀ ops, (run s ops).borrows[j]? = some rec) ∧
      (∀ env id nd, find_first (fun x => decide (x.id.val = id)) s.borrows = some (j, rec) →
        return_book env s id = (-3, s) ∧ renew_book env s id nd = (-3, s)) := by
  refine ⟨fun op => step_returned_slot s op j rec hj hst,
    fun ops => run_returned_slot ops s j rec hj hst, ?_⟩
  intro env id nd hrec
  exact ⟨return_book_of_returned env s id j rec hrec hst,
    renew_book_of_returned env s id nd j rec hrec hst⟩

/-- C17 at `state_returned`: the returned record `BR1` survives a renewal attempt, a second
return, an overdue scan after the due date and a new borrow. -/
theorem returned_is_terminal_witness :
    (run state_returned
        [LedgerOp.renew env0 "BR1".toList 0, LedgerOp.give_back env_late "BR1".toList,
          LedgerOp.overdue env_late 5, LedgerOp.borrow env0 "B1".toList "R1".toList]).borrows[0]? =
      some { new_borrow_record env0 "B1".toList "R1".toList with
        return_date := 1000, status := BORROW_STATUS_RETURNED } :=
  (returned_is_terminal state_returned 0
    { new_borrow_record env0 "B1".toList "R1".toList with
      return_date := 1000, status := BORROW_STATUS_RETURNED }
    (by decide) (by decide)).2.1 _

/-- C18, as stated, fails: in `state_marked_overdue` the record `BR1` has status Overdue;
at a current time that is not after its due date `renew_book` returns `0` and the record
becomes Renewed. -/
theorem overdue_record_renewed_before_due_date :
    find_first (fun x => decide (x.id.val = "BR1".toList)) state_marked_overdue.borrows =
        some (0, mark_overdue (new_borrow_record env0 "B1".toList "R1".toList)) ∧
      (mark_overdue (new_borrow_record env0 "B1".toList "R1".toList)).status =
        BORROW_STATUS_OVERDUE ∧
      (renew_book env0 state_marked_overdue "BR1".toList 0).1 = 0 ∧
      (renew_book env0 state_marked_overdue "BR1".toList 0).2.borrows =
        [{ new_borrow_record env0 "B1".toList "R1".toList with
            due_date := 1000 + 30 * 24 * 60 * 60 + 15 * 24 * 60 * 60
            renew_count := 1
            status := BORROW_STATUS_RENEWED }] := by
  decide

/-- C18 (amended): for the record that its identifier finds, with status Overdue, and for
every `newDueDate`: when the current time is after the record's due date, or the record has
`renew_count >= 2`, `renew_book` returns an error (`-4` or `-5`) and leaves the whole state,
the status Overdue included, as it was; when the current time is not after the due date and
`renew_count < 2`, the status is not looked at and the record becomes Renewed. -/
theorem renew_book_from_overdue (env : Env) (s : State) (id : List Char) (nd : Int)
    (i : Nat) (rec : BorrowRecord)
    (hrec : find_first (fun x => decide (x.id.val = id)) s.borrows = some (i, rec))
    (hst : rec.status = BORROW_STATUS_OVERDUE) :
    ((rec.due_date < env.now ∨ 2 ≤ rec.renew_count) →
      ((renew_book env s id nd).1 = -4 ∨ (renew_book env s id nd).1 = -5) ∧
        (renew_book env s id nd).2 = s) ∧
    (env.now ≤ rec.due_date → rec.renew_count < 2 →
      find_first (fun x => decide (x.id.val = id)) (renew_book env s id nd).2.borrows =
        some (i,
          { rec with
            due_date := if nd = 0 then wrap_long (rec.due_date + 15 * 24 * 60 * 60) else nd
            renew_count := rec.renew_count + 1
            status := BORROW_STATUS_RENEWED })) := by
  have hne : rec.status ≠ BORROW_STATUS_RETURNED := by
    rw [hst]
    decide
  constructor
  · intro hor
    by_cases hcnt : 2 ≤ rec.renew_count
    · rw [renew_book_over_limit env s id nd i rec hrec hne hcnt]
      exact ⟨Or.inl rfl, rfl⟩
    · have hdue : rec.due_date < env.now := by
        rcases hor with h | h
        · exact h
        · exact absurd h hcnt
      have hsame : ({ rec with status := BORROW_STATUS_OVERDUE } : BorrowRecord) = rec := by
        cases rec
        simp only at hst
        simp [hst]
      rw [renew_book_of_overdue env s id nd i rec hrec hne (not_le.mp hcnt) hdue, hsame,
        set_eq_self_of_getElem? s.borrows i rec (find_first_some _ s.borrows i rec hrec).1]
      exact ⟨Or.inr rfl, rfl⟩
  · intro hdue hcnt
    have hp : (fun x : BorrowRecord => decide (x.id.val = id))
        { rec with
          due_date := if nd = 0 then wrap_long (rec.due_date + 15 * 24 * 60 * 60) else nd
          renew_count := rec.renew_count + 1
          status := BORROW_STATUS_RENEWED } = true :=
      (find_first_some _ s.borrows i rec hrec).2.1
    rw [renew_book_of_valid env s id nd i rec hrec hne hcnt hdue]
    exact find_first_set _ s.borrows i rec _ hrec hp

/-- C18 (amended) at `state_marked_overdue` after the due date: the renewal is rejected
with `-5` and nothing changes. -/
theorem renew_book_from_overdue_witness :
    ((renew_book env_late state_marked_overdue "BR1".toList 0).1 = -4 ∨
        (renew_book env_late state_marked_overdue "BR1".toList 0).1 = -5) ∧
      (renew_book env_late state_marked_overdue "BR1".toList 0).2 = state_marked_overdue :=
  (renew_book_from_overdue env_late state_marked_overdue "BR1".toList 0 0
    (mark_overdue (new_borrow_record env0 "B1".toList "R1".toList))
    (by decide) (by decide)).1 (Or.inl (by decide))

/-! ## Invariants of the ledger -/

theorem slot_change_renew_count_le (op : LedgerOp) (r r' : BorrowRecord)
    (hr : r.renew_count ≤ 2) (h : slot_change op r r') : r'.renew_count ≤ 2 := by
  cases op with
  | borrow env bid rid =>
    have h' : r' = r := h
    rw [h']
    exact hr
  | give_back env id =>
    rcases h with h | ⟨_, h⟩ <;> rw [h] <;> exact hr
  | renew env id nd =>
    rcases h with h | ⟨_, hcnt, h | ⟨_, h⟩⟩
    · rw [h]
      exact hr
    · rw [h]
      exact hr
    · rw [h]
      show r.renew_count + 1 ≤ 2
      omega
  | overdue env limit =>
    rcases h with h | ⟨_, h⟩ <;> rw [h] <;> exact hr

theorem slot_change_renew_count_nonneg (op : LedgerOp) (r r' : BorrowRecord)
    (hr : 0 ≤ r.renew_count) (h : slot_change op r r') : 0 ≤ r'.renew_count := by
  cases op with
  | borrow env bid rid =>
    have h' : r' = r := h
    rw [h']
    exact hr
  | give_back env id =>
    rcases h with h | ⟨_, h⟩ <;> rw [h] <;> exact hr
  | renew env id nd =>
    rcases h with h | ⟨_, hcnt, h | ⟨_, h⟩⟩
    · rw [h]
      exact hr
    · rw [h]
      exact hr
    · rw [h]
      show 0 ≤ r.renew_count + 1
      omega
  | overdue env limit =>
    rcases h with h | ⟨_, h⟩ <;> rw [h] <;> exact hr

theorem run_preserves (P : BorrowRecord → Prop)
    (hchange : ∀ op r r', P r → slot_change op r r' → P r')
    (hnew : ∀ env bid rid, P (new_borrow_record env bid rid)) (ops : List LedgerOp) :
    ∀ s : State, (∀ r ∈ s.borrows, P r) → ∀ r ∈ (run s ops).borrows, P r := by
  induction ops with
  | nil => intro s h; exact h
  | cons op rest ih =>
    intro s h
    rw [run_cons]
    exact ih (step s op) (step_preserves P s op (hchange op) hnew h)

/-- C19, as stated, fails: every record of `state_negative_renew` has `renew_count <= 2`
(the counter is `-1`), and after a call of `borrow_get_overdue` it is not true that every
record has `0 <= renew_count <= 2`. -/
theorem negative_renew_count_stays_negative :
    (∀ r ∈ state_negative_renew.borrows, r.renew_count ≤ 2) ∧
      ¬ (∀ r ∈ (run state_negative_renew [LedgerOp.overdue env0 10]).borrows,
        0 ≤ r.renew_count ∧ r.renew_count ≤ 2) := by
  decide

/-- C19 (amended): if every record in the ledger has `renew_count <= 2`, then after any
sequence of `borrow_book`, `return_book`, `renew_book` and `borrow_get_overdue` calls every
record still has `renew_count <= 2`; and if in addition no record has a negative
`renew_count` (in particular for the empty ledger), every record afterwards has
`0 <= renew_count <= 2`. -/
theorem renew_count_invariant (s : State) (ops : List LedgerOp)
    (h : ∀ r ∈ s.borrows, r.renew_count ≤ 2) :
    (∀ r ∈ (run s ops).borrows, r.renew_count ≤ 2) ∧
      ((∀ r ∈ s.borrows, 0 ≤ r.renew_count) →
        ∀ r ∈ (run s ops).borrows, 0 ≤ r.renew_count ∧ r.renew_count ≤ 2) := by
  have hle : ∀ r ∈ (run s ops).borrows, r.renew_count ≤ 2 :=
    run_preserves (fun r => r.renew_count ≤ 2)
      (fun op r r' hr hch => slot_change_renew_count_le op r r' hr hch)
      (fun env bid rid => by show (0 : Int) ≤ 2; decide) ops s h
  refine ⟨hle, ?_⟩
  intro hnonneg r hr
  have hge : ∀ r ∈ (run s ops).borrows, 0 ≤ r.renew_count :=
    run_preserves (fun r => 0 ≤ r.renew_count)
      (fun op r r' hr hch => slot_change_renew_count_nonneg op r r' hr hch)
      (fun env bid rid => by show (0 : Int) ≤ 0; decide) ops s hnonneg
  exact ⟨hge r hr, hle r hr⟩

/-- C19 (amended) from the empty ledger of `state0`: after a borrow and three renewal
attempts the record, renewed twice, has `0 <= renew_count <= 2`. -/
theorem renew_count_invariant_witness :
    0 ≤ ({ new_borrow_record env0 "B1".toList "R1".toList with
          due_date := 1000 + 30 * 24 * 60 * 60 + 15 * 24 * 60 * 60 + 15 * 24 * 60 * 60
          renew_count := 2
          status := BORROW_STATUS_RENEWED } : BorrowRecord).renew_count ∧
      ({ new_borrow_record env0 "B1".toList "R1".toList with
          due_date := 1000 + 30 * 24 * 60 * 60 + 15 * 24 * 60 * 60 + 15 * 24 * 60 * 60
          renew_count := 2
          status := BORROW_STATUS_RENEWED } : BorrowRecord).renew_count ≤ 2 :=
  (renew_count_invariant state0
    [LedgerOp.borrow env0 "B1".toList "R1".toList, LedgerOp.renew env0 "BR1".toList 0,
      LedgerOp.renew env0 "BR1".toList 0, LedgerOp.renew env0 "BR1".toList 0]
    (by decide)).2 (by decide) _ (by decide)

theorem slot_change_status_iff (op : LedgerOp) (r r' : BorrowRecord)
    (hclock : ∀ env id, op = LedgerOp.give_back env id → env.now ≠ 0)
    (hr : r.status = BORROW_STATUS_RETURNED ↔ r.return_date ≠ 0)
    (h : slot_change op r r') :
    r'.status = BORROW_STATUS_RETURNED ↔ r'.return_date ≠ 0 := by
  have hov : BORROW_STATUS_OVERDUE ≠ BORROW_STATUS_RETURNED := by decide
  have hrn : BORROW_STATUS_RENEWED ≠ BORROW_STATUS_RETURNED := by decide
  cases op with
  | borrow env bid rid =>
    have h' : r' = r := h
    rw [h']
    exact hr
  | give_back env id =>
    rcases h with h | ⟨_, h⟩
    · rw [h]
      exact hr
    · rw [h]
      have hnow : env.now ≠ 0 := hclock env id rfl
      simp [hnow]
  | renew env id nd =>
    rcases h with h | ⟨hne, _, h | ⟨_, h⟩⟩
    · rw [h]
      exact hr
    · have hzero : r.return_date = 0 := by
        by_contra hc
        exact hne (hr.mpr hc)
      rw [h]
      simp [mark_overdue, hov, hzero]
    · have hzero : r.return_date = 0 := by
        by_contra hc
        exact hne (hr.mpr hc)
      rw [h]
      simp [hrn, hzero]
  | overdue env limit =>
    rcases h with h | ⟨hne, h⟩
    · rw [h]
      exact hr
    · have hzero : r.return_date = 0 := by
        by_contra hc
        exact hne (hr.mpr hc)
      rw [h]
      simp [mark_overdue, hov, hzero]

theorem run_status_iff (ops : List LedgerOp) :
    ∀ s : State, (∀ env id, LedgerOp.give_back env id ∈ ops → env.now ≠ 0) →
      (∀ r ∈ s.borrows, r.status = BORROW_STATUS_RETURNED ↔ r.return_date ≠ 0) →
      ∀ r ∈ (run s ops).borrows, r.status = BORROW_STATUS_RETURNED ↔ r.return_date ≠ 0 := by
  induction ops with
  | nil => intro s _ h; exact h
  | cons op rest ih =>
    intro s hclock h
    rw [run_cons]
    apply ih (step s op)
    · intro env id hmem
      exact hclock env id (List.mem_cons_of_mem op hmem)
    · apply step_preserves (fun r => r.status = BORROW_STATUS_RETURNED ↔ r.return_date ≠ 0)
        s op
      · intro r r' hr hch
        apply slot_change_status_iff op r r' ?_ hr hch
        intro env id hop
        apply hclock env id
        rw [hop]
        exact List.mem_cons_self _ _
      · intro env bid rid
        simp [new_borrow_record, BORROW_STATUS_BORROWED, BORROW_STATUS_RETURNED]
      · exact h

/-- A call that changes the `return_date` held in a slot is a `return_book` that passed its
checks on a record that was not Returned. -/
theorem step_return_date_changed (s : State) (op : LedgerOp) (j : Nat) (r r' : BorrowRecord)
    (hj : s.borrows[j]? = some r) (hj' : (step s op).borrows[j]? = some r')
    (hne : r'.return_date ≠ r.return_date) :
    r.status ≠ BORROW_STATUS_RETURNED ∧
      ∃ env id, op = LedgerOp.give_back env id ∧
        r' = { r with return_date := env.now, status := BORROW_STATUS_RETURNED } ∧
        (return_book env s id).1 = borrow_save_data env := by
  cases op with
  | borrow env bid rid =>
    have h := borrow_book_slot env s bid rid j r hj
    rw [show (step s (LedgerOp.borrow env bid rid)).borrows =
      (borrow_book env s bid rid).2.1.borrows from rfl, h] at hj'
    exact absurd (congrArg BorrowRecord.return_date (Option.some.inj hj')).symm hne
  | give_back env id =>
    rw [show (step s (LedgerOp.give_back env id)).borrows =
      (return_book env s id).2.borrows from rfl] at hj'
    rcases return_book_slot env s id j r hj with h | ⟨hst, h, hret⟩
    · rw [h] at hj'
      exact absurd (congrArg BorrowRecord.return_date (Option.some.inj hj')).symm hne
    · rw [h] at hj'
      exact ⟨hst, env, id, rfl, (Option.some.inj hj').symm, hret⟩
  | renew env id nd =>
    rw [show (step s (LedgerOp.renew env id nd)).borrows =
      (renew_book env s id nd).2.borrows from rfl] at hj'
    rcases renew_book_slot env s id nd j r hj with h | ⟨_, _, h | ⟨_, h⟩⟩
    · rw [h] at hj'
      exact absurd (congrArg BorrowRecord.return_date (Option.some.inj hj')).symm hne
    · rw [h] at hj'
      exact absurd (congrArg BorrowRecord.return_date (Option.some.inj hj')).symm hne
    · rw [h] at hj'
      exact absurd (congrArg BorrowRecord.return_date (Option.some.inj hj')).symm hne
  | overdue env limit =>
    rw [show (step s (LedgerOp.overdue env limit)).borrows =
      (borrow_get_overdue env s limit).state.borrows from rfl] at hj'
    rcases borrow_get_overdue_slot env s limit j r hj with h | ⟨_, h⟩
    · rw [h] at hj'
      exact absurd (congrArg BorrowRecord.return_date (Option.some.inj hj')).symm hne
    · rw [h] at hj'
      exact absurd (congrArg BorrowRecord.return_date (Option.some.inj hj')).symm hne

/-- C20, as stated, fails in two places. From the empty ledger of `state0`, a borrow followed
by a `return_book` that reads the clock value `0` gives a record that is Returned and has
`return_date = 0`. And a `return_book` that returns `-1`, because the ledger file cannot be
opened, has nevertheless written `return_date` and marked the record Returned. -/
theorem returned_with_zero_date_and_failed_return_writes :
    state0.borrows = [] ∧
      (run state0
          [LedgerOp.borrow env0 "B1".toList "R1".toList,
            LedgerOp.give_back env_epoch "BR1".toList]).borrows =
        [{ new_borrow_record env0 "B1".toList "R1".toList with
            return_date := 0, status := BORROW_STATUS_RETURNED }] ∧
      (return_book env_ledger_unwritable
          (run state0 [LedgerOp.borrow env0 "B1".toList "R1".toList]) "BR1".toList).1 = -1 ∧
      (return_book env_ledger_unwritable
          (run state0 [LedgerOp.borrow env0 "B1".toList "R1".toList])
          "BR1".toList).2.borrows =
        [{ new_borrow_record env0 "B1".toList "R1".toList with
            return_date := 1000, status := BORROW_STATUS_RETURNED }] := by
  decide

/-- C20 (amended): in every ledger reached from the empty ledger by `borrow_book`,
`return_book`, `renew_book` and `borrow_get_overdue` calls in which every `return_book` reads
a clock value other than `0`, a record has status Returned if and only if its `return_date`
is not `0`. In such a ledger a call that changes the `return_date` of a slot is a
`return_book` that passed its checks (its return value is that of the save, `0` or `-1`),
the record was not Returned and its `return_date` was `0`, and the call writes the current
time and the status Returned; and a `return_date` that is not `0` is never written again. -/
theorem return_date_invariant (s0 : State) (ops : List LedgerOp) (h0 : s0.borrows = [])
    (hclock : ∀ env id, LedgerOp.give_back env id ∈ ops → env.now ≠ 0) :
    (∀ r ∈ (run s0 ops).borrows, r.status = BORROW_STATUS_RETURNED ↔ r.return_date ≠ 0) ∧
      (∀ (op : LedgerOp) (j : Nat) (r r' : BorrowRecord), (run s0 ops).borrows[j]? = some r →
        (step (run s0 ops) op).borrows[j]? = some r' →
        r'.return_date ≠ r.return_date →
        r.return_date = 0 ∧ r.status ≠ BORROW_STATUS_RETURNED ∧
          ∃ env id, op = LedgerOp.give_back env id ∧
            r' = { r with return_date := env.now, status := BORROW_STATUS_RETURNED } ∧
            (return_book env (run s0 ops) id).1 = borrow_save_data env) ∧
      (∀ (op : LedgerOp) (j : Nat) (r : BorrowRecord),
        (run s0 ops).borrows[j]? = some r → r.return_date ≠ 0 →
        (step (run s0 ops) op).borrows[j]? = some r) := by
  have hinv : ∀ r ∈ (run s0 ops).borrows,
      r.status = BORROW_STATUS_RETURNED ↔ r.return_date ≠ 0 := by
    apply run_status_iff ops s0 hclock
    intro r hr
    rw [h0] at hr
    cases hr
  have hmem : ∀ j r, (run s0 ops).borrows[j]? = some r → r ∈ (run s0 ops).borrows :=
    fun j r hj => List.mem_iff_getElem?.mpr ⟨j, hj⟩
  refine ⟨hinv, ?_, ?_⟩
  · intro op j r r' hj hj' hne
    obtain ⟨hst, hrest⟩ := step_return_date_changed (run s0 ops) op j r r' hj hj' hne
    refine ⟨?_, hst, hrest⟩
    by_contra hc
    exact hst ((hinv r (hmem j r hj)).mpr hc)
  · intro op j r hj hdate
    exact step_returned_slot (run s0 ops) op j r hj ((hinv r (hmem j r hj)).mpr hdate)

/-- C20 (amended) from the empty ledger of `state0`: after a borrow and a return at time
`1000` the record is Returned and its `return_date` is not `0`. -/
theorem return_date_invariant_witness :
    ({ new_borrow_record env0 "B1".toList "R1".toList with
        return_date := 1000, status := BORROW_STATUS_RETURNED } : BorrowRecord).status =
        BORROW_STATUS_RETURNED ↔
      ({ new_borrow_record env0 "B1".toList "R1".toList with
        return_date := 1000, status := BORROW_STATUS_RETURNED } : BorrowRecord).return_date ≠
        0 :=
  (return_date_invariant state0
    [LedgerOp.borrow env0 "B1".toList "R1".toList, LedgerOp.give_back env0 "BR1".toList]
    (by decide)
    (by
      intro env id h
      simp only [List.mem_cons, List.mem_singleton, LedgerOp.give_back.injEq,
        List.not_mem_nil, or_false, false_or, reduceCtorEq] at h
      rw [h.1]
      decide)).1 _ (by decide)

/-! ## Facts about the compaction loop -/

theorem shift_left_cons_succ {α : Type} (x : α) :
    ∀ (n : Nat) (t : List α) (i : Nat),
      shift_left (x :: t) (i + 1) n = x :: shift_left t i n := by
  intro n
  induction n with
  | zero => intro t i; rfl
  | succ n ih =>
    intro t i
    unfold shift_left
    rw [List.getElem?_cons_succ]
    cases h : t[i + 1]? with
    | none => rfl
    | some y =>
      simp only [List.set_cons_succ]
      exact ih (t.set i y) (i + 1)

theorem shift_left_zero_take {α : Type} :
    ∀ (t : List α) (x : α), (shift_left (x :: t) 0 t.length).take t.length = t := by
  intro t
  induction t with
  | nil => intro x; rfl
  | cons y t ih =>
    intro x
    have hstep : shift_left (x :: y :: t) 0 (t.length + 1) =
        y :: shift_left (y :: t) 0 t.length := by
      conv_lhs => unfold shift_left
      simp only [List.getElem?_cons_succ, List.getElem?_cons_zero, List.set_cons_zero]
      exact shift_left_cons_succ y t.length (y :: t) 0
    rw [List.length_cons, hstep, List.take_succ_cons, ih y]

/-- The compaction loop followed by the decrement of the count removes the slot `index` and
keeps the other slots in order. -/
theorem remove_slot_eq_eraseIdx {α : Type} :
    ∀ (a : List α) (index : Nat), index < a.length → remove_slot a index = a.eraseIdx index := by
  intro a
  induction a with
  | nil => intro index h; simp at h
  | cons x t ih =>
    intro index h
    cases index with
    | zero =>
      unfold remove_slot
      simp only [List.length_cons, Nat.add_sub_cancel, Nat.sub_zero, List.eraseIdx_cons_zero]
      exact shift_left_zero_take t x
    | succ k =>
      have hk : k < t.length := by simpa using h
      have hlen : t.length = (t.length - 1) + 1 := by omega
      unfold remove_slot
      simp only [List.length_cons, Nat.add_sub_cancel, List.eraseIdx_cons_succ]
      rw [show t.length - (k + 1) = t.length - 1 - k by omega, shift_left_cons_succ]
      conv_lhs => rw [hlen, List.take_succ_cons]
      have h2 := ih k hk
      unfold remove_slot at h2
      rw [Nat.add_sub_cancel, h2]

/-! ## What the store operations compute -/

theorem find_first_none_iff_ids {α : Type} (key : α → List Char) (l : List α) (id : List Char) :
    find_first (fun x => decide (key x = id)) l = none ↔ ∀ x ∈ l, key x ≠ id := by
  rw [find_first_none]
  simp

theorem find_first_lt {α : Type} (p : α → Bool) (l : List α) (i : Nat) (x : α)
    (h : find_first p l = some (i, x)) : i < l.length := by
  have hi := (find_first_some p l i x h).1
  rcases Nat.lt_or_ge i l.length with hlt | hge
  · exact hlt
  · rw [List.getElem?_eq_none hge] at hi
    cases hi

theorem book_delete_found (env : Env) (books : List Book) (id : List Char) (i : Nat) (b : Book)
    (h : find_first (fun x => decide (x.id.val = id)) books = some (i, b)) :
    book_delete env books id = (book_save_data env, books.eraseIdx i) := by
  unfold book_delete
  rw [h]
  simp only
  rw [remove_slot_eq_eraseIdx books i (find_first_lt _ books i b h)]

theorem book_delete_absent (env : Env) (books : List Book) (id : List Char)
    (h : find_first (fun x => decide (x.id.val = id)) books = none) :
    book_delete env books id = (-1, books) := by
  unfold book_delete
  rw [h]

theorem reader_delete_found (env : Env) (readers : List Reader) (id : List Char) (i : Nat)
    (r : Reader) (h : find_first (fun x => decide (x.id.val = id)) readers = some (i, r))
    (hcnt : r.current_borrow_count ≤ 0) :
    reader_delete env readers id = (reader_save_data env, readers.eraseIdx i) := by
  unfold reader_delete
  rw [h]
  simp only
  rw [if_neg (not_lt.mpr hcnt), remove_slot_eq_eraseIdx readers i (find_first_lt _ readers i r h)]

theorem reader_delete_busy (env : Env) (readers : List Reader) (id : List Char) (i : Nat)
    (r : Reader) (h : find_first (fun x => decide (x.id.val = id)) readers = some (i, r))
    (hcnt : 0 < r.current_borrow_count) :
    reader_delete env readers id = (-2, readers) := by
  unfold reader_delete
  rw [h]
  simp only
  rw [if_pos hcnt]

theorem reader_delete_absent (env : Env) (readers : List Reader) (id : List Char)
    (h : find_first (fun x => decide (x.id.val = id)) readers = none) :
    reader_delete env readers id = (-1, readers) := by
  unfold reader_delete
  rw [h]

theorem book_update_absent (env : Env) (books : List Book) (book : Book)
    (h : find_first (fun x => decide (x.id.val = book.id.val)) books = none) :
    book_update env books book = (-1, books) := by
  unfold book_update
  rw [h]

theorem book_update_present (env : Env) (books : List Book) (book : Book) (i : Nat) (old : Book)
    (h : find_first (fun x => decide (x.id.val = book.id.val)) books = some (i, old)) :
    book_update env books book = (book_save_data env, books.set i book) := by
  unfold book_update
  rw [h]

theorem reader_update_absent (env : Env) (readers : List Reader) (reader : Reader)
    (h : find_first (fun x => decide (x.id.val = reader.id.val)) readers = none) :
    reader_update env readers reader = (-1, readers) := by
  unfold reader_update
  rw [h]

theorem reader_update_present (env : Env) (readers : List Reader) (reader : Reader) (i : Nat)
    (old : Reader)
    (h : find_first (fun x => decide (x.id.val = reader.id.val)) readers = some (i, old)) :
    reader_update env readers reader =
      (reader_save_data env,
        readers.set i { reader with current_borrow_count := old.current_borrow_count }) := by
  unfold reader_update
  rw [h]

theorem book_add_full (env : Env) (books : List Book) (cap : Int) (book : Book)
    (h : cap ≤ (books.length : Int)) : book_add env books cap book = (-1, books, book) := by
  unfold book_add
  rw [if_pos h]

theorem book_add_room (env : Env) (books : List Book) (cap : Int) (book : Book)
    (h : (books.length : Int) < cap) :
    book_add env books cap book =
      (book_save_data env,
        books ++ [if book.id.val.length = 0 then { book with id := env.generated_id } else book],
        if book.id.val.length = 0 then { book with id := env.generated_id } else book) := by
  unfold book_add
  rw [if_neg (not_le.mpr h)]

theorem reader_add_full (env : Env) (readers : List Reader) (cap : Int) (reader : Reader)
    (h : cap ≤ (readers.length : Int)) :
    reader_add env readers cap reader = (-1, readers, reader) := by
  unfold reader_add
  rw [if_pos h]

theorem reader_add_room (env : Env) (readers : List Reader) (cap : Int) (reader : Reader)
    (h : (readers.length : Int) < cap) :
    reader_add env readers cap reader =
      (reader_save_data env,
        readers ++
          [if reader.id.val.length = 0 then { reader with id := env.generated_id } else reader],
        if reader.id.val.length = 0 then { reader with id := env.generated_id } else reader) := by
  unfold reader_add
  rw [if_neg (not_le.mpr h)]

/-! ## Claims about the store operations -/

/-- C23: when the first stored reader with the identifier of the supplied record `r` is in
slot `i`, `reader_update(r)` puts in slot `i` the record `r` with `current_borrow_count`
taken from the stored reader, whatever `r.current_borrow_count` is; the array keeps its
length, every other slot keeps its reader, and `reader_find_by_id` then returns that record.
When no stored reader has the identifier it returns `-1` and changes nothing. -/
theorem reader_update_replaces (env : Env) (readers : List Reader) (r : Reader) :
    ((∀ x ∈ readers, x.id.val ≠ r.id.val) → reader_update env readers r = (-1, readers)) ∧
    (∀ (i : Nat) (old : Reader),
      find_first (fun x => decide (x.id.val = r.id.val)) readers = some (i, old) →
      (reader_update env readers r).2 =
          readers.set i { r with current_borrow_count := old.current_borrow_count } ∧
        (reader_update env readers r).2.length = readers.length ∧
        (∀ j, j ≠ i → (reader_update env readers r).2[j]? = readers[j]?) ∧
        reader_find_by_id (reader_update env readers r).2 r.id.val =
          some { r with current_borrow_count := old.current_borrow_count }) := by
  constructor
  · intro h
    exact reader_update_absent env readers r
      ((find_first_none_iff_ids (fun x : Reader => x.id.val) readers r.id.val).mpr h)
  · intro i old h
    have hp : (fun x : Reader => decide (x.id.val = r.id.val))
        { r with current_borrow_count := old.current_borrow_count } = true := by
      simp
    rw [reader_update_present env readers r i old h]
    refine ⟨rfl, by simp, ?_, ?_⟩
    · intro j hj
      simp [List.getElem?_set, Ne.symm hj]
    · exact (reader_find_by_id_eq_some _ _ _).mpr ⟨i, find_first_set _ readers i old _ h hp⟩

/-- C23 at the reader array of `state_on_loan`: a new name and limit are stored, the
supplied counter `7` is dropped and the stored counter `1` is kept. -/
theorem reader_update_replaces_witness :
    (reader_update env0 state_on_loan.readers
        { mkReader "R1" 5 7 with name := "M" }).2 =
      [{ mkReader "R1" 5 1 with name := "M" }] :=
  ((reader_update_replaces env0 state_on_loan.readers
    { mkReader "R1" 5 7 with name := "M" }).2 0 (mkReader "R1" 1 1) (by decide)).1

/-- C24: `reader_delete(id)` returns `-1` when no reader has the identifier and `-2` when
the first reader with it has `current_borrow_count > 0`, and leaves the array unchanged in
both cases; otherwise, with that reader in slot `i`, the array afterwards is the old one
without slot `i`, the readers before and after it unchanged and in their order, and the
count is one less. -/
theorem reader_delete_removes (env : Env) (readers : List Reader) (id : List Char) :
    ((∀ x ∈ readers, x.id.val ≠ id) → reader_delete env readers id = (-1, readers)) ∧
    (∀ (i : Nat) (found : Reader),
      find_first (fun x => decide (x.id.val = id)) readers = some (i, found) →
      (0 < found.current_borrow_count → reader_delete env readers id = (-2, readers)) ∧
      (found.current_borrow_count ≤ 0 →
        (reader_delete env readers id).2 = readers.take i ++ readers.drop (i + 1) ∧
        (reader_delete env readers id).2.length + 1 = readers.length ∧
        (reader_delete env readers id).1 = reader_save_data env)) := by
  constructor
  · intro h
    exact reader_delete_absent env readers id
      ((find_first_none_iff_ids (fun x : Reader => x.id.val) readers id).mpr h)
  · intro i found h
    have hlt := find_first_lt _ readers i found h
    refine ⟨fun hcnt => reader_delete_busy env readers id i found h hcnt, ?_⟩
    intro hcnt
    rw [reader_delete_found env readers id i found h hcnt]
    refine ⟨List.eraseIdx_eq_take_drop_succ readers i, ?_, rfl⟩
    simp only [List.length_eraseIdx, hlt, if_true]
    omega

/-- C24 at the reader array of `state0`: the reader `R1`, who has nothing borrowed, is
removed. -/
theorem reader_delete_removes_witness :
    (reader_delete env0 state0.readers "R1".toList).2 =
        state0.readers.take 0 ++ state0.readers.drop (0 + 1) ∧
      (reader_delete env0 state0.readers "R1".toList).2.length + 1 = state0.readers.length ∧
      (reader_delete env0 state0.readers "R1".toList).1 = reader_save_data env0 :=
  ((reader_delete_removes env0 state0.readers "R1".toList).2 0 (mkReader "R1" 1 0)
    (by decide)).2 (by decide)

/-- C26: `book_add` returns `-1` and leaves the array and the caller's record unchanged when
the count is at or above the capacity; otherwise the array afterwards is the old array with
one book appended, which is the supplied record as it is when its identifier is not empty,
and the supplied record with the generated identifier when it is empty; `total_count` and
`available_count` are stored as supplied. -/
theorem book_add_appends (env : Env) (books : List Book) (cap : Int) (book : Book) :
    (cap ≤ (books.length : Int) → book_add env books cap book = (-1, books, book)) ∧
    ((books.length : Int) < cap →
      (book_add env books cap book).2.1 = books ++ [(book_add env books cap book).2.2] ∧
      (book_add env books cap book).2.1.length = books.length + 1 ∧
      (book.id.val ≠ [] → (book_add env books cap book).2.2 = book) ∧
      (book.id.val = [] →
        (book_add env books cap book).2.2 = { book with id := env.generated_id }) ∧
      (book_add env books cap book).2.2.total_count = book.total_count ∧
      (book_add env books cap book).2.2.available_count = book.available_count) := by
  constructor
  · exact book_add_full env books cap book
  · intro h
    rw [book_add_room env books cap book h]
    by_cases hid : book.id.val = []
    · have hlen : book.id.val.length = 0 := by rw [hid]; rfl
      simp [hlen, hid]
    · have hlen : ¬ book.id.val.length = 0 := by
        intro hc
        exact hid (List.length_eq_zero.mp hc)
      simp [hlen, hid]

/-- C26 at the book array of `state0`: a record without identifier gets the generated one
and is appended with its counts. -/
theorem book_add_appends_witness :
    (book_add env0 state0.books state0.book_capacity
        { mkBook "" 3 3 with title := "New" }).2.1 =
      [mkBook "B1" 1 1, { mkBook "BR1" 3 3 with title := "New" }] :=
  ((book_add_appends env0 state0.books state0.book_capacity
    { mkBook "" 3 3 with title := "New" }).2 (by decide)).1

/-- C27, as stated, fails: in `state_on_loan` the book `B1` is referenced by the unreturned
record `BR1`; when the books file cannot be opened `book_delete` removes the book and
returns `-1`, not success. -/
theorem book_delete_unwritable_returns_minus_one :
    book_find_by_id state_on_loan.books "B1".toList = some (mkBook "B1" 1 0) ∧
      state_on_loan.borrows = [new_borrow_record env0 "B1".toList "R1".toList] ∧
      (new_borrow_record env0 "B1".toList "R1".toList).status ≠ BORROW_STATUS_RETURNED ∧
      book_delete env_books_unwritable state_on_loan.books "B1".toList = (-1, []) := by
  decide

/-- C27 (amended): `book_delete(id)` returns `-1` and leaves the array unchanged when no
book has the identifier; otherwise, with the first book that has it in slot `i`, the array
afterwards is the old one without slot `i`, the books before and after it unchanged and in
their order, and the count is one less. The ledger is not looked at and not changed: in
every state, whatever borrow records reference the book, the call returns `0` when the books
file can be written and `-1` when it cannot. -/
theorem book_delete_removes (env : Env) (s : State) (id : List Char) :
    ((∀ x ∈ s.books, x.id.val ≠ id) → book_delete env s.books id = (-1, s.books)) ∧
    (∀ (i : Nat) (found : Book),
      find_first (fun x => decide (x.id.val = id)) s.books = some (i, found) →
      (book_delete env s.books id).2 = s.books.take i ++ s.books.drop (i + 1) ∧
      (book_delete env s.books id).2.length + 1 = s.books.length ∧
      (book_delete env s.books id).1 = (if env.books_file_ok = true then 0 else -1) ∧
      (system_step s (SystemOp.book_delete env id)).books =
        s.books.take i ++ s.books.drop (i + 1) ∧
      (system_step s (SystemOp.book_delete env id)).borrows = s.borrows) := by
  constructor
  · intro h
    exact book_delete_absent env s.books id
      ((find_first_none_iff_ids (fun x : Book => x.id.val) s.books id).mpr h)
  · intro i found h
    have hlt := find_first_lt _ s.books i found h
    have hdel := book_delete_found env s.books id i found h
    have hstep : (system_step s (SystemOp.book_delete env id)).books =
        (book_delete env s.books id).2 := rfl
    rw [hstep, hdel]
    refine ⟨List.eraseIdx_eq_take_drop_succ s.books i, ?_, rfl,
      List.eraseIdx_eq_take_drop_succ s.books i, rfl⟩
    simp only [List.length_eraseIdx, hlt, if_true]
    omega

/-- C27 (amended) at `state_on_loan`: the book `B1` is deleted while the record `BR1` that
references it is not returned. -/
theorem book_delete_removes_witness :
    (book_delete env0 state_on_loan.books "B1".toList).2 =
        state_on_loan.books.take 0 ++ state_on_loan.books.drop (0 + 1) ∧
      (book_delete env0 state_on_loan.books "B1".toList).1 = 0 :=
  have h := (book_delete_removes env0 state_on_loan "B1".toList).2 0 (mkBook "B1" 1 0)
    (by decide)
  ⟨h.1, h.2.2.1⟩

/-- C28: `book_update(b)` returns `-1` and leaves the array unchanged when no stored book
has the identifier of `b`; otherwise, with the first such book in slot `i`, slot `i` holds
`b` in full afterwards, the array keeps its length, every other slot keeps its book, and
`book_find_by_id` with the identifier of `b` returns `b`. -/
theorem book_update_replaces (env : Env) (books : List Book) (b : Book) :
    ((∀ x ∈ books, x.id.val ≠ b.id.val) → book_update env books b = (-1, books)) ∧
    (∀ (i : Nat) (old : Book),
      find_first (fun x => decide (x.id.val = b.id.val)) books = some (i, old) →
      (book_update env books b).2 = books.set i b ∧
        (book_update env books b).2[i]? = some b ∧
        (book_update env books b).2.length = books.length ∧
        (∀ j, j ≠ i → (book_update env books b).2[j]? = books[j]?) ∧
        book_find_by_id (book_update env books b).2 b.id.val = some b) := by
  constructor
  · intro h
    exact book_update_absent env books b
      ((find_first_none_iff_ids (fun x : Book => x.id.val) books b.id.val).mpr h)
  · intro i old h
    have hlt := find_first_lt _ books i old h
    have hp : (fun x : Book => decide (x.id.val = b.id.val)) b = true := by simp
    rw [book_update_present env books b i old h]
    refine ⟨rfl, by simp [List.getElem?_set, hlt], by simp, ?_, ?_⟩
    · intro j hj
      simp [List.getElem?_set, Ne.symm hj]
    · exact (book_find_by_id_eq_some _ _ _).mpr ⟨i, find_first_set _ books i old _ h hp⟩

/-- C28 at the book array of `state0`: the book `B1` is replaced by the supplied record. -/
theorem book_update_replaces_witness :
    (book_update env0 state0.books { mkBook "B1" 9 4 with title := "Second edition" }).2 =
      [{ mkBook "B1" 9 4 with title := "Second edition" }] :=
  ((book_update_replaces env0 state0.books
    { mkBook "B1" 9 4 with title := "Second edition" }).2 0 (mkBook "B1" 1 1) (by decide)).1

/-! ## Search by title -/

/-- The `strstr` test finds `needle` exactly when it is a contiguous part of `haystack`. -/
theorem strstr_iff_infix (needle : List Char) :
    ∀ haystack : List Char, strstr haystack needle = true ↔ needle <:+: haystack := by
  intro haystack
  induction haystack with
  | nil =>
    unfold strstr
    rw [List.isPrefixOf_iff_prefix, List.infix_nil]
    exact List.prefix_nil
  | cons c rest ih =>
    unfold strstr
    rw [Bool.or_eq_true, List.isPrefixOf_iff_prefix, ih, List.infix_cons_iff]

theorem char_le_iff (a b : Char) : a ≤ b ↔ a.toNat ≤ b.toNat := by
  rw [Char.le_def]
  exact Iff.rfl

theorem char_eq_iff_toNat (a b : Char) : a = b ↔ a.toNat = b.toNat := by
  constructor
  · intro h
    rw [h]
  · intro h
    rw [← Char.ofNat_toNat a, ← Char.ofNat_toNat b, h]

theorem toNat_ofNat_small (n : Nat) (h1 : 65 ≤ n) (h2 : n ≤ 90) :
    (Char.ofNat (n + 32)).toNat = n + 32 := by
  interval_cases n <;> rfl

/-- The code of `tolower c`. -/
theorem tolower_toNat (c : Char) :
    (tolower c).toNat = if 65 ≤ c.toNat ∧ c.toNat ≤ 90 then c.toNat + 32 else c.toNat := by
  unfold tolower
  have hA : ('A' : Char).toNat = 65 := rfl
  have hZ : ('Z' : Char).toNat = 90 := rfl
  by_cases h : 'A' ≤ c ∧ c ≤ 'Z'
  · have h2 : 65 ≤ c.toNat ∧ c.toNat ≤ 90 := by
      rw [char_le_iff, char_le_iff, hA, hZ] at h
      exact h
    rw [if_pos h, if_pos h2]
    exact toNat_ofNat_small c.toNat h2.1 h2.2
  · have h2 : ¬ (65 ≤ c.toNat ∧ c.toNat ≤ 90) := by
      rw [char_le_iff, char_le_iff, hA, hZ] at h
      exact h
    rw [if_neg h, if_neg h2]

/-- Folding with `tolower` identifies two characters exactly when they are the same when
ASCII case is ignored. -/
theorem tolower_eq_iff (a c : Char) :
    tolower a = tolower c ↔ same_ignoring_case a c = true := by
  rw [char_eq_iff_toNat, tolower_toNat, tolower_toNat]
  unfold same_ignoring_case
  simp only [Bool.or_eq_true, Bool.and_eq_true, decide_eq_true_eq]
  rw [char_eq_iff_toNat]
  constructor
  · intro h
    split at h <;> split at h <;> omega
  · intro h
    split <;> split <;> omega

theorem isPrefixOf_tolower (s : List Char) :
    ∀ t : List Char,
      (s.map tolower).isPrefixOf (t.map tolower) = starts_ignoring_case s t := by
  induction s with
  | nil => intro t; simp [starts_ignoring_case]
  | cons a s ih =>
    intro t
    cases t with
    | nil => simp [starts_ignoring_case, List.isPrefixOf]
    | cons c t =>
      simp only [List.map_cons, List.isPrefixOf, starts_ignoring_case]
      rw [ih t]
      congr 1
      rw [Bool.eq_iff_iff, beq_iff_eq, tolower_eq_iff]

theorem contains_ignore_case_eq (s : List Char) :
    ∀ t : List Char, contains_ignore_case t s = occurs_ignoring_case s t := by
  intro t
  unfold contains_ignore_case to_lower_case
  induction t with
  | nil =>
    simp only [List.map_nil, strstr, occurs_ignoring_case]
    exact isPrefixOf_tolower s []
  | cons c t ih =>
    simp only [List.map_cons, strstr, occurs_ignoring_case]
    rw [← List.map_cons, isPrefixOf_tolower s (c :: t)]
    simp only at ih
    rw [ih]

/-- What `starts_ignoring_case` decides: a prefix of `t` agrees with `s` character by
character when ASCII case is ignored. -/
theorem starts_ignoring_case_iff (s : List Char) :
    ∀ t : List Char, starts_ignoring_case s t = true ↔
      ∃ w, w <+: t ∧ List.Forall₂ (fun a c => same_ignoring_case a c = true) s w := by
  induction s with
  | nil =>
    intro t
    simp only [starts_ignoring_case, true_iff]
    exact ⟨[], List.nil_prefix, List.Forall₂.nil⟩
  | cons a s ih =>
    intro t
    cases t with
    | nil =>
      simp only [starts_ignoring_case, Bool.false_eq_true, false_iff]
      rintro ⟨w, hw, hf⟩
      rw [List.prefix_nil] at hw
      rw [hw] at hf
      cases hf
    | cons c t =>
      simp only [starts_ignoring_case, Bool.and_eq_true]
      rw [ih t]
      constructor
      · rintro ⟨hac, w, hw, hf⟩
        exact ⟨c :: w, (List.prefix_cons_inj c).mpr hw, List.Forall₂.cons hac hf⟩
      · rintro ⟨w, hw, hf⟩
        cases hf with
        | cons hac hf =>
          rename_i c2 w2
          rw [List.cons_prefix_cons] at hw
          rw [hw.1] at hac
          exact ⟨hac, w2, hw.2, hf⟩

/-- What `occurs_ignoring_case` decides: a contiguous part of `t` agrees with `s` character
by character when ASCII case is ignored. -/
theorem occurs_ignoring_case_iff (s : List Char) :
    ∀ t : List Char, occurs_ignoring_case s t = true ↔
      ∃ w, w <:+: t ∧ List.Forall₂ (fun a c => same_ignoring_case a c = true) s w := by
  intro t
  induction t with
  | nil =>
    simp only [occurs_ignoring_case]
    rw [starts_ignoring_case_iff]
    constructor
    · rintro ⟨w, hw, hf⟩
      exact ⟨w, hw.isInfix, hf⟩
    · rintro ⟨w, hw, hf⟩
      rw [List.infix_nil] at hw
      exact ⟨w, by rw [hw], hf⟩
  | cons c t ih =>
    simp only [occurs_ignoring_case, Bool.or_eq_true]
    rw [starts_ignoring_case_iff, ih]
    constructor
    · rintro (⟨w, hw, hf⟩ | ⟨w, hw, hf⟩)
      · exact ⟨w, hw.isInfix, hf⟩
      · exact ⟨w, List.infix_cons hw, hf⟩
    · rintro ⟨w, hw, hf⟩
      rcases List.infix_cons_iff.mp hw with h | h
      · exact Or.inl ⟨w, h, hf⟩
      · exact Or.inr ⟨w, h, hf⟩

theorem occurs_ignoring_case_nil (t : List Char) : occurs_ignoring_case [] t = true := by
  cases t <;> simp [occurs_ignoring_case, starts_ignoring_case]

theorem contains_ignore_case_iff (s : List Char) (b : Book) :
    contains_ignore_case b.title.toList s = true ↔ title_matches s b := by
  unfold title_matches
  rw [contains_ignore_case_eq]

theorem contains_ignore_case_eq_decide (s : List Char) :
    (fun b : Book => contains_ignore_case b.title.toList s) =
      (fun b : Book => decide (title_matches s b)) := by
  funext b
  rw [Bool.eq_iff_iff, contains_ignore_case_iff]
  simp

/-- The books copied out by the loop are the first `max_count - count` matching ones, in
order. -/
theorem book_find_by_title_loop_eq (title : List Char) (m : Int) :
    ∀ (l : List Book) (c : Int),
      book_find_by_title_loop title m l c =
        (l.filter (fun b => contains_ignore_case b.title.toList title)).take (m - c).toNat := by
  intro l
  induction l with
  | nil => intro c; simp [book_find_by_title_loop]
  | cons b rest ih =>
    intro c
    unfold book_find_by_title_loop
    by_cases hlt : c < m
    · rw [if_pos hlt]
      cases hp : contains_ignore_case b.title.toList title with
      | true =>
        have hn : (m - c).toNat = (m - (c + 1)).toNat + 1 := by omega
        have hf : (b :: rest).filter (fun b => contains_ignore_case b.title.toList title) =
            b :: rest.filter (fun b => contains_ignore_case b.title.toList title) :=
          List.filter_cons_of_pos hp
        rw [if_pos rfl, ih (c + 1), hf, hn, List.take_succ_cons]
      | false =>
        have hf : (b :: rest).filter (fun b => contains_ignore_case b.title.toList title) =
            rest.filter (fun b => contains_ignore_case b.title.toList title) :=
          List.filter_cons_of_neg (by rw [hp]; decide)
        rw [if_neg (by decide), ih c, hf]
    · rw [if_neg hlt]
      have hn : (m - c).toNat = 0 := by omega
      simp [hn]

/-- C29: for a positive limit `book_find_by_title(s, limit)` copies out, in the order of the
array, the first `limit` books whose title contains `s` as a contiguous substring when ASCII
case is ignored, and returns their number; for a limit that is not positive it returns `0`
and copies out nothing; and when `s` is empty and the limit is at least the number of books
it copies out every book. A title contains `s` in that sense when a contiguous part of the
title agrees with `s` character by character, two characters agreeing when they are equal or
are the capital and the small form of one letter `A` to `Z`. -/
theorem book_find_by_title_selects (books : List Book) (s : List Char) (limit : Int) :
    (0 < limit →
      (book_find_by_title books s limit).2 =
          (books.filter (fun b => decide (title_matches s b))).take limit.toNat ∧
        (book_find_by_title books s limit).1 =
          (((books.filter (fun b => decide (title_matches s b))).take limit.toNat).length : Int)) ∧
    (limit ≤ 0 → book_find_by_title books s limit = (0, [])) ∧
    (s = [] → (books.length : Int) ≤ limit → (book_find_by_title books s limit).2 = books) ∧
    (∀ b : Book, title_matches s b ↔
      ∃ w, w <:+: b.title.toList ∧
        List.Forall₂ (fun a c => same_ignoring_case a c = true) s w) := by
  have hpos : 0 < limit →
      book_find_by_title books s limit =
        ((((books.filter (fun b => decide (title_matches s b))).take limit.toNat).length : Int),
          (books.filter (fun b => decide (title_matches s b))).take limit.toNat) := by
    intro h
    have hloop := book_find_by_title_loop_eq s limit books 0
    rw [sub_zero, contains_ignore_case_eq_decide] at hloop
    unfold book_find_by_title
    rw [if_neg (not_le.mpr h)]
    simp only
    rw [hloop]
  have hnonpos : limit ≤ 0 → book_find_by_title books s limit = (0, []) := by
    intro h
    unfold book_find_by_title
    rw [if_pos h]
  refine ⟨?_, hnonpos, ?_, fun b => occurs_ignoring_case_iff s b.title.toList⟩
  · intro h
    rw [hpos h]
    exact ⟨rfl, rfl⟩
  · intro hs hlen
    by_cases h : 0 < limit
    · rw [hpos h]
      have hall : books.filter (fun b => decide (title_matches s b)) = books := by
        rw [List.filter_eq_self]
        intro b _
        rw [hs]
        simp [title_matches, occurs_ignoring_case_nil]
      simp only
      rw [hall]
      apply List.take_of_length_le
      omega
    · rw [hnonpos (not_lt.mp h)]
      have hzero : books.length = 0 := by omega
      exact (List.length_eq_zero.mp hzero).symm

/-- C29 at `books_mixed_case` with the search string `c B`: the titles `The C Book` and
`abc books` contain it when case is ignored and `Lean` does not, so with the limit `5` the
first and the third book are copied out, and with the limit `1` only the first. -/
theorem book_find_by_title_selects_witness :
    (book_find_by_title books_mixed_case "c B".toList 5).2 =
        [{ mkBook "B1" 1 1 with title := "The C Book" },
          { mkBook "B3" 1 1 with title := "abc books" }] ∧
      (book_find_by_title books_mixed_case "c B".toList 5).1 = 2 ∧
      (book_find_by_title books_mixed_case "c B".toList 1).2 =
        [{ mkBook "B1" 1 1 with title := "The C Book" }] :=
  have h5 := (book_find_by_title_selects books_mixed_case "c B".toList 5).1 (by decide)
  have h1 := (book_find_by_title_selects books_mixed_case "c B".toList 1).1 (by decide)
  ⟨h5.1.trans (by decide), h5.2.trans (by decide), h1.1.trans (by decide)⟩

/-! ## What the operations do to the books and the readers -/

theorem return_book_readers (env : Env) (s : State) (id : List Char) :
    (return_book env s id).2.readers = s.readers := by
  rcases return_book_cases env s id with c | c | c | c | c
  · rw [c.2]
  · obtain ⟨i, rec, _, _, c⟩ := c
    rw [c]
  · obtain ⟨i, rec, _, _, _, c⟩ := c
    rw [c]
  · obtain ⟨i, rec, b, _, _, _, _, c⟩ := c
    rw [c]
  · obtain ⟨i, rec, ib, b, ir, rd, _, _, _, _, c⟩ := c
    rw [c]

theorem renew_book_books_readers (env : Env) (s : State) (id : List Char) (nd : Int) :
    (renew_book env s id nd).2.books = s.books ∧
      (renew_book env s id nd).2.readers = s.readers := by
  rcases renew_book_cases env s id nd with c | c | c | c | c
  · rw [c.2]
    exact ⟨rfl, rfl⟩
  · obtain ⟨i, rec, _, _, c⟩ := c
    rw [c]
    exact ⟨rfl, rfl⟩
  · obtain ⟨i, rec, _, _, _, c⟩ := c
    rw [c]
    exact ⟨rfl, rfl⟩
  · obtain ⟨i, rec, _, _, _, _, c⟩ := c
    rw [c]
    exact ⟨rfl, rfl⟩
  · obtain ⟨i, rec, _, _, _, _, c⟩ := c
    rw [c]
    exact ⟨rfl, rfl⟩

theorem borrow_get_overdue_books_readers (env : Env) (s : State) (limit : Int) :
    (borrow_get_overdue env s limit).state.books = s.books ∧
      (borrow_get_overdue env s limit).state.readers = s.readers := by
  by_cases hle : limit ≤ 0
  · rw [borrow_get_overdue_nonpos env s limit hle]
    exact ⟨rfl, rfl⟩
  · rw [borrow_get_overdue_pos env s limit (not_le.mp hle)]
    exact ⟨rfl, rfl⟩

/-- No ledger operation changes the reader array. -/
theorem step_readers (s : State) (op : LedgerOp) : (step s op).readers = s.readers := by
  cases op with
  | borrow env bid rid => exact borrow_book_readers env s bid rid
  | give_back env id => exact return_book_readers env s id
  | renew env id nd => exact (renew_book_books_readers env s id nd).2
  | overdue env limit => exact (borrow_get_overdue_books_readers env s limit).2

theorem run_readers (ops : List LedgerOp) : ∀ s : State, (run s ops).readers = s.readers := by
  induction ops with
  | nil => intro s; rfl
  | cons op rest ih =>
    intro s
    rw [run_cons, ih (step s op), step_readers]

/-- The book array after `borrow_book`: as before, or with the found book holding one
available copy less. -/
theorem borrow_book_books (env : Env) (s : State) (bid rid : List Char) :
    (borrow_book env s bid rid).2.1.books = s.books ∨
      ∃ i b, s.books[i]? = some b ∧ 0 < b.available_count ∧
        (borrow_book env s bid rid).2.1.books =
          s.books.set i { b with available_count := b.available_count - 1 } := by
  rcases borrow_book_cases env s bid rid with h | h | h | h | h | h
  · left
    rw [h.2]
  · left
    rw [h.2.2]
  · obtain ⟨_, b, _, _, h⟩ := h
    left
    rw [h]
  · obtain ⟨_, b, _, _, _, h⟩ := h
    left
    rw [h]
  · obtain ⟨_, b, r, _, _, _, _, h⟩ := h
    left
    rw [h]
  · obtain ⟨_, ib, b, ir, r, hb, hav, _, _, h⟩ := h
    right
    exact ⟨ib, b, (find_first_some _ s.books ib b hb).1, hav, by rw [h]⟩

/-- The book array after `return_book`: as before, or with the found book holding one
available copy more. -/
theorem return_book_books (env : Env) (s : State) (id : List Char) :
    (return_book env s id).2.books = s.books ∨
      ∃ i b, s.books[i]? = some b ∧
        (return_book env s id).2.books =
          s.books.set i { b with available_count := wrap_int (b.available_count + 1) } := by
  rcases return_book_cases env s id with c | c | c | c | c
  · left
    rw [c.2]
  · obtain ⟨i, rec, _, _, c⟩ := c
    left
    rw [c]
  · obtain ⟨i, rec, _, _, _, c⟩ := c
    left
    rw [c]
  · obtain ⟨i, rec, b, _, _, _, _, c⟩ := c
    left
    rw [c]
  · obtain ⟨i, rec, ib, b, ir, rd, _, _, hb, _, c⟩ := c
    right
    exact ⟨ib, b, (find_first_some _ s.books ib b hb).1, by rw [c]⟩

theorem mem_of_getElem? {α : Type} (l : List α) (i : Nat) (x : α) (h : l[i]? = some x) :
    x ∈ l :=
  List.mem_iff_getElem?.mpr ⟨i, h⟩

/-- A property of books is kept by a call when it holds of a book that `book_add` stores
with the supplied counts, of the record that `book_update` supplies, of a book after the
guarded decrement of `borrow_book`, and of a book after the increment of `return_book`. -/
theorem system_step_books_preserves (P : Book → Prop) (s : State) (op : SystemOp)
    (hadd : ∀ env book b', op = SystemOp.book_add env book →
      b'.available_count = book.available_count → b'.total_count = book.total_count → P b')
    (hupd : ∀ env book, op = SystemOp.book_update env book → P book)
    (hdec : ∀ env bid rid b, op = SystemOp.ledger (LedgerOp.borrow env bid rid) → P b →
      0 < b.available_count → P { b with available_count := b.available_count - 1 })
    (hinc : ∀ env id b, op = SystemOp.ledger (LedgerOp.give_back env id) → P b →
      P { b with available_count := wrap_int (b.available_count + 1) })
    (h : ∀ b ∈ s.books, P b) :
    ∀ b ∈ (system_step s op).books, P b := by
  intro b' hb'
  cases op with
  | ledger lop =>
    cases lop with
    | borrow env bid rid =>
      have hb2 : b' ∈ (borrow_book env s bid rid).2.1.books := hb'
      rcases borrow_book_books env s bid rid with heq | ⟨i, b, hi, hav, heq⟩
      · rw [heq] at hb2
        exact h b' hb2
      · rw [heq] at hb2
        rcases List.mem_or_eq_of_mem_set hb2 with hm | hm
        · exact h b' hm
        · rw [hm]
          exact hdec env bid rid b rfl (h b (mem_of_getElem? s.books i b hi)) hav
    | give_back env id =>
      have hb2 : b' ∈ (return_book env s id).2.books := hb'
      rcases return_book_books env s id with heq | ⟨i, b, hi, heq⟩
      · rw [heq] at hb2
        exact h b' hb2
      · rw [heq] at hb2
        rcases List.mem_or_eq_of_mem_set hb2 with hm | hm
        · exact h b' hm
        · rw [hm]
          exact hinc env id b rfl (h b (mem_of_getElem? s.books i b hi))
    | renew env id nd =>
      have hb2 : b' ∈ (renew_book env s id nd).2.books := hb'
      rw [(renew_book_books_readers env s id nd).1] at hb2
      exact h b' hb2
    | overdue env limit =>
      have hb2 : b' ∈ (borrow_get_overdue env s limit).state.books := hb'
      rw [(borrow_get_overdue_books_readers env s limit).1] at hb2
      exact h b' hb2
  | book_add env book =>
    have hb2 : b' ∈ (book_add env s.books s.book_capacity book).2.1 := hb'
    by_cases hcap : s.book_capacity ≤ (s.books.length : Int)
    · rw [book_add_full env s.books s.book_capacity book hcap] at hb2
      exact h b' hb2
    · rw [book_add_room env s.books s.book_capacity book (not_le.mp hcap)] at hb2
      rcases List.mem_append.mp hb2 with hm | hm
      · exact h b' hm
      · have hm2 := List.mem_singleton.mp hm
        apply hadd env book b' rfl
        · rw [hm2]
          split <;> rfl
        · rw [hm2]
          split <;> rfl
  | book_delete env id =>
    have hb2 : b' ∈ (book_delete env s.books id).2 := hb'
    cases hf : find_first (fun x => decide (x.id.val = id)) s.books with
    | none =>
      rw [book_delete_absent env s.books id hf] at hb2
      exact h b' hb2
    | some q =>
      obtain ⟨i, found⟩ := q
      rw [book_delete_found env s.books id i found hf] at hb2
      exact h b' ((List.eraseIdx_sublist s.books i).subset hb2)
  | book_update env book =>
    have hb2 : b' ∈ (book_update env s.books book).2 := hb'
    cases hf : find_first (fun x => decide (x.id.val = book.id.val)) s.books with
    | none =>
      rw [book_update_absent env s.books book hf] at hb2
      exact h b' hb2
    | some q =>
      obtain ⟨i, old⟩ := q
      rw [book_update_present env s.books book i old hf] at hb2
      rcases List.mem_or_eq_of_mem_set hb2 with hm | hm
      · exact h b' hm
      · rw [hm]
        exact hupd env book rfl
  | reader_add env reader => exact h b' hb'
  | reader_delete env id => exact h b' hb'
  | reader_update env reader => exact h b' hb'

theorem system_run_nil (s : State) : system_run s [] = s := rfl

theorem system_run_cons (s : State) (op : SystemOp) (ops : List SystemOp) :
    system_run s (op :: ops) = system_run (system_step s op) ops := rfl

theorem system_run_preserves (Q : State → Prop) (ops : List SystemOp)
    (hstep : ∀ op ∈ ops, ∀ s, Q s → Q (system_step s op)) :
    ∀ s : State, Q s → Q (system_run s ops) := by
  induction ops with
  | nil => intro s h; exact h
  | cons op rest ih =>
    intro s h
    rw [system_run_cons]
    apply ih
    · intro op' hop' s' hs'
      exact hstep op' (List.mem_cons_of_mem op hop') s' hs'
    · exact hstep op (List.mem_cons_self _ _) s h

/-- A call that supplies consistent counts and whose `return_book`, if it is one, finds room
for the increment keeps every `available_count` from being negative. -/
theorem system_step_nonneg (s : State) (op : SystemOp) (hsup : supplied_counts_ok op)
    (hroom : return_has_room s op = true) (h : ∀ b ∈ s.books, 0 ≤ b.available_count) :
    ∀ b ∈ (system_step s op).books, 0 ≤ b.available_count := by
  have hother : (∀ env id, op ≠ SystemOp.ledger (LedgerOp.give_back env id)) →
      ∀ b ∈ (system_step s op).books, 0 ≤ b.available_count := by
    intro hne
    apply system_step_books_preserves (fun b => 0 ≤ b.available_count) s op ?_ ?_ ?_ ?_ h
    · intro env book b' heq hav _
      rw [heq] at hsup
      rw [hav]
      exact hsup.1
    · intro env book heq
      rw [heq] at hsup
      exact hsup.1
    · intro env bid rid b _ _ hpos
      show 0 ≤ b.available_count - 1
      omega
    · intro env id b heq
      exact absurd heq (hne env id)
  cases op with
  | ledger lop =>
    cases lop with
    | give_back env id =>
      intro b' hb'
      have hb2 : b' ∈ (return_book env s id).2.books := hb'
      rcases return_book_cases env s id with c | c | c | c | c
      · rw [c.2] at hb2
        exact h b' hb2
      · obtain ⟨i, rec, _, _, c⟩ := c
        rw [c] at hb2
        exact h b' hb2
      · obtain ⟨i, rec, _, _, _, c⟩ := c
        rw [c] at hb2
        exact h b' hb2
      · obtain ⟨i, rec, b, _, _, _, _, c⟩ := c
        rw [c] at hb2
        exact h b' hb2
      · obtain ⟨i, rec, ib, b, ir, rd, hrec, _, hb, _, c⟩ := c
        have hfb : book_find_by_id s.books rec.book_id.val = some b :=
          (book_find_by_id_eq_some s.books _ b).mpr ⟨ib, hb⟩
        have hlt : b.available_count < INT_MAX := by
          simp only [return_has_room, hrec, hfb, decide_eq_true_eq] at hroom
          exact hroom
        have hnonneg : 0 ≤ b.available_count :=
          h b (mem_of_getElem? s.books ib b (find_first_some _ s.books ib b hb).1)
        rw [c] at hb2
        rcases List.mem_or_eq_of_mem_set hb2 with hm | hm
        · exact h b' hm
        · rw [hm]
          show 0 ≤ wrap_int (b.available_count + 1)
          unfold INT_MAX at hlt
          unfold wrap_int
          omega
    | borrow env bid rid => exact hother (by intro env2 id2 heq; cases heq)
    | renew env id nd => exact hother (by intro env2 id2 heq; cases heq)
    | overdue env limit => exact hother (by intro env2 id2 heq; cases heq)
  | book_add env book => exact hother (by intro env2 id2 heq; cases heq)
  | book_delete env id => exact hother (by intro env2 id2 heq; cases heq)
  | book_update env book => exact hother (by intro env2 id2 heq; cases heq)
  | reader_add env reader => exact hother (by intro env2 id2 heq; cases heq)
  | reader_delete env id => exact hother (by intro env2 id2 heq; cases heq)
  | reader_update env reader => exact hother (by intro env2 id2 heq; cases heq)

/-- The same along a sequence of calls. -/
theorem system_run_nonneg (ops : List SystemOp) :
    ∀ s : State, (∀ op ∈ ops, supplied_counts_ok op) → returns_have_room s ops = true →
      (∀ b ∈ s.books, 0 ≤ b.available_count) →
      ∀ b ∈ (system_run s ops).books, 0 ≤ b.available_count := by
  induction ops with
  | nil => intro s _ _ h; exact h
  | cons op rest ih =>
    intro s hsup hroom h
    rw [system_run_cons]
    unfold returns_have_room at hroom
    rw [Bool.and_eq_true] at hroom
    exact ih (system_step s op) (fun op' hop' => hsup op' (List.mem_cons_of_mem op hop'))
      hroom.2 (system_step_nonneg s op (hsup op (List.mem_cons_self _ _)) hroom.1 h)

/-! ## Claims about the counts of books and readers -/

/-- C22: starting from a reader array in which every reader has
`0 <= current_borrow_count <= max_borrow_count`, after any sequence of `borrow_book` and
`return_book` calls (and of `renew_book` and `borrow_get_overdue` calls) the reader array is
the same array, so every reader still has `0 <= current_borrow_count <= max_borrow_count`. -/
theorem reader_counts_invariant (s : State) (ops : List LedgerOp)
    (h : ∀ r ∈ s.readers, 0 ≤ r.current_borrow_count ∧
      r.current_borrow_count ≤ r.max_borrow_count) :
    (run s ops).readers = s.readers ∧
      ∀ r ∈ (run s ops).readers, 0 ≤ r.current_borrow_count ∧
        r.current_borrow_count ≤ r.max_borrow_count := by
  refine ⟨run_readers ops s, ?_⟩
  rw [run_readers ops s]
  exact h

/-- C22 from `state_two_books`: after two borrows and a return the reader array is as
before. -/
theorem reader_counts_invariant_witness :
    (run state_two_books
        [LedgerOp.borrow env0 "B1".toList "R1".toList,
          LedgerOp.borrow env0 "B2".toList "R1".toList,
          LedgerOp.give_back env0 "BR1".toList]).readers = state_two_books.readers :=
  (reader_counts_invariant state_two_books _ (by decide)).1

/-- C25 fails on the code: at `state0` the borrow of `B1` by the reader `R1` succeeds and
its record is not returned, and `reader_delete` for `R1` on the reader array after the borrow
returns `0` and removes the reader, because the stored `current_borrow_count` is still
`0`. -/
theorem reader_with_loan_deleted :
    (borrow_book env0 state0 "B1".toList "R1".toList).1 = 0 ∧
      (borrow_book env0 state0 "B1".toList "R1".toList).2.1.borrows =
        [new_borrow_record env0 "B1".toList "R1".toList] ∧
      (new_borrow_record env0 "B1".toList "R1".toList).status = BORROW_STATUS_BORROWED ∧
      reader_delete env0 (borrow_book env0 state0 "B1".toList "R1".toList).2.1.readers
          "R1".toList = (0, []) := by
  decide

/-! ## Identifiers in the stores -/

theorem map_set_same_key {α β : Type} (key : α → β) :
    ∀ (l : List α) (i : Nat) (old x : α), l[i]? = some old → key x = key old →
      (l.set i x).map key = l.map key := by
  intro l
  induction l with
  | nil => intro i old x h; simp at h
  | cons a t ih =>
    intro i old x h hk
    cases i with
    | zero =>
      simp only [List.getElem?_cons_zero, Option.some.injEq] at h
      subst h
      simp [hk]
    | succ k =>
      simp only [List.getElem?_cons_succ] at h
      simp [ih k old x h hk]

theorem nodup_map_eraseIdx {α β : Type} (key : α → β) (l : List α) (i : Nat)
    (h : (l.map key).Nodup) : ((l.eraseIdx i).map key).Nodup :=
  List.Nodup.sublist ((List.eraseIdx_sublist l i).map key) h

theorem cstr20_eq_of_val (a b : CStr20) (h : a.val = b.val) : a = b := Subtype.ext h

theorem book_update_ids (env : Env) (books : List Book) (book : Book) :
    (book_update env books book).2.map (fun b => b.id) = books.map (fun b => b.id) := by
  cases hf : find_first (fun x => decide (x.id.val = book.id.val)) books with
  | none => rw [book_update_absent env books book hf]
  | some q =>
    obtain ⟨i, old⟩ := q
    have hfacts := find_first_some _ books i old hf
    have hid : old.id.val = book.id.val := by simpa using hfacts.2.1
    rw [book_update_present env books book i old hf]
    exact map_set_same_key (fun b : Book => b.id) books i old book hfacts.1
      (cstr20_eq_of_val _ _ hid.symm)

theorem reader_update_ids (env : Env) (readers : List Reader) (reader : Reader) :
    (reader_update env readers reader).2.map (fun r => r.id) = readers.map (fun r => r.id) := by
  cases hf : find_first (fun x => decide (x.id.val = reader.id.val)) readers with
  | none => rw [reader_update_absent env readers reader hf]
  | some q =>
    obtain ⟨i, old⟩ := q
    have hfacts := find_first_some _ readers i old hf
    have hid : old.id.val = reader.id.val := by simpa using hfacts.2.1
    rw [reader_update_present env readers reader i old hf]
    exact map_set_same_key (fun r : Reader => r.id) readers i old _ hfacts.1
      (cstr20_eq_of_val _ _ hid.symm)

theorem book_delete_ids_nodup (env : Env) (books : List Book) (id : List Char)
    (h : (books.map (fun b => b.id)).Nodup) :
    ((book_delete env books id).2.map (fun b => b.id)).Nodup := by
  cases hf : find_first (fun x => decide (x.id.val = id)) books with
  | none =>
    rw [book_delete_absent env books id hf]
    exact h
  | some q =>
    obtain ⟨i, found⟩ := q
    rw [book_delete_found env books id i found hf]
    exact nodup_map_eraseIdx _ books i h

theorem reader_delete_ids_nodup (env : Env) (readers : List Reader) (id : List Char)
    (h : (readers.map (fun r => r.id)).Nodup) :
    ((reader_delete env readers id).2.map (fun r => r.id)).Nodup := by
  cases hf : find_first (fun x => decide (x.id.val = id)) readers with
  | none =>
    rw [reader_delete_absent env readers id hf]
    exact h
  | some q =>
    obtain ⟨i, found⟩ := q
    by_cases hcnt : 0 < found.current_borrow_count
    · rw [reader_delete_busy env readers id i found hf hcnt]
      exact h
    · rw [reader_delete_found env readers id i found hf (not_lt.mp hcnt)]
      exact nodup_map_eraseIdx _ readers i h

/-- No ledger operation changes the identifiers held in the book array. -/
theorem step_book_ids (s : State) (op : LedgerOp) :
    (step s op).books.map (fun b => b.id) = s.books.map (fun b => b.id) := by
  cases op with
  | borrow env bid rid =>
    show (borrow_book env s bid rid).2.1.books.map (fun b => b.id) = _
    rcases borrow_book_books env s bid rid with heq | ⟨i, b, hi, _, heq⟩
    · rw [heq]
    · rw [heq]
      exact map_set_same_key (fun b : Book => b.id) s.books i b _ hi rfl
  | give_back env id =>
    show (return_book env s id).2.books.map (fun b => b.id) = _
    rcases return_book_books env s id with heq | ⟨i, b, hi, heq⟩
    · rw [heq]
    · rw [heq]
      exact map_set_same_key (fun b : Book => b.id) s.books i b _ hi rfl
  | renew env id nd =>
    show (renew_book env s id nd).2.books.map (fun b => b.id) = _
    rw [(renew_book_books_readers env s id nd).1]
  | overdue env limit =>
    show (borrow_get_overdue env s limit).state.books.map (fun b => b.id) = _
    rw [(borrow_get_overdue_books_readers env s limit).1]

/-- A call other than `book_add` and `reader_add` keeps the identifiers of both stores
pairwise distinct. -/
theorem system_step_ids_nodup (s : State) (op : SystemOp) (hno : not_add op)
    (h : (s.books.map (fun b => b.id)).Nodup ∧ (s.readers.map (fun r => r.id)).Nodup) :
    ((system_step s op).books.map (fun b => b.id)).Nodup ∧
      ((system_step s op).readers.map (fun r => r.id)).Nodup := by
  cases op with
  | ledger lop =>
    constructor
    · show ((step s lop).books.map (fun b => b.id)).Nodup
      rw [step_book_ids]
      exact h.1
    · show ((step s lop).readers.map (fun r => r.id)).Nodup
      rw [step_readers]
      exact h.2
  | book_add env book => exact absurd hno (by simp [not_add])
  | book_delete env id => exact ⟨book_delete_ids_nodup env s.books id h.1, h.2⟩
  | book_update env book =>
    refine ⟨?_, h.2⟩
    show ((book_update env s.books book).2.map (fun b => b.id)).Nodup
    rw [book_update_ids]
    exact h.1
  | reader_add env reader => exact absurd hno (by simp [not_add])
  | reader_delete env id => exact ⟨h.1, reader_delete_ids_nodup env s.readers id h.2⟩
  | reader_update env reader =>
    refine ⟨h.1, ?_⟩
    show ((reader_update env s.readers reader).2.map (fun r => r.id)).Nodup
    rw [reader_update_ids]
    exact h.2

/-- C30, as stated, fails: the identifiers in the book array of `state0` are pairwise
distinct, and after a `book_add` whose record carries the identifier `B1` of a stored book
they are not; the same happens in the reader array with `reader_add` and `R1`. -/
theorem add_duplicates_identifier :
    (state0.books.map (fun b => b.id)).Nodup ∧
      ¬ ((system_run state0 [SystemOp.book_add env0 (mkBook "B1" 3 3)]).books.map
        (fun b => b.id)).Nodup ∧
      (state0.readers.map (fun r => r.id)).Nodup ∧
      ¬ ((system_run state0 [SystemOp.reader_add env0 (mkReader "R1" 2 0)]).readers.map
        (fun r => r.id)).Nodup := by
  decide

/-- C30 (amended): starting from a book array and a reader array whose identifiers are
pairwise distinct, after any sequence of delete and update operations (and of ledger
operations) with arbitrary supplied records the identifiers in each array are still pairwise
distinct; and a `book_add` or `reader_add` that is not rejected for capacity leaves them
pairwise distinct exactly when the identifier it stores (the supplied one, or the generated
one when the supplied identifier is empty) is not yet in the array. -/
theorem ids_stay_distinct (s : State)
    (hb : (s.books.map (fun b => b.id)).Nodup) (hr : (s.readers.map (fun r => r.id)).Nodup) :
    (∀ ops : List SystemOp, (∀ op ∈ ops, not_add op) →
      ((system_run s ops).books.map (fun b => b.id)).Nodup ∧
        ((system_run s ops).readers.map (fun r => r.id)).Nodup) ∧
    (∀ (env : Env) (book : Book), (s.books.length : Int) < s.book_capacity →
      (((book_add env s.books s.book_capacity book).2.1.map (fun b => b.id)).Nodup ↔
        (book_add env s.books s.book_capacity book).2.2.id ∉ s.books.map (fun b => b.id))) ∧
    (∀ (env : Env) (reader : Reader), (s.readers.length : Int) < s.reader_capacity →
      (((reader_add env s.readers s.reader_capacity reader).2.1.map (fun r => r.id)).Nodup ↔
        (reader_add env s.readers s.reader_capacity reader).2.2.id ∉
          s.readers.map (fun r => r.id))) := by
  refine ⟨?_, ?_, ?_⟩
  · intro ops hno
    exact system_run_preserves
      (fun st => (st.books.map (fun b => b.id)).Nodup ∧ (st.readers.map (fun r => r.id)).Nodup)
      ops (fun op hop st hst => system_step_ids_nodup st op (hno op hop) hst) s ⟨hb, hr⟩
  · intro env book hcap
    rw [book_add_room env s.books s.book_capacity book hcap]
    simp only [List.map_append, List.map_cons, List.map_nil]
    rw [List.nodup_append]
    constructor
    · intro h hmem
      exact h.2.2 hmem (List.mem_singleton.mpr rfl)
    · intro h
      refine ⟨hb, List.nodup_singleton _, ?_⟩
      intro a ha ha2
      rw [List.mem_singleton.mp ha2] at ha
      exact h ha
  · intro env reader hcap
    rw [reader_add_room env s.readers s.reader_capacity reader hcap]
    simp only [List.map_append, List.map_cons, List.map_nil]
    rw [List.nodup_append]
    constructor
    · intro h hmem
      exact h.2.2 hmem (List.mem_singleton.mpr rfl)
    · intro h
      refine ⟨hr, List.nodup_singleton _, ?_⟩
      intro a ha ha2
      rw [List.mem_singleton.mp ha2] at ha
      exact h ha

/-- C30 (amended) from `state_two_books`: after an update of `B1` and the deletion of `B2`
the identifiers are pairwise distinct. -/
theorem ids_stay_distinct_witness :
    ((system_run state_two_books
        [SystemOp.book_update env0 (mkBook "B1" 7 7),
          SystemOp.book_delete env0 "B2".toList]).books.map (fun b => b.id)).Nodup ∧
      ((system_run state_two_books
        [SystemOp.book_update env0 (mkBook "B1" 7 7),
          SystemOp.book_delete env0 "B2".toList]).readers.map (fun r => r.id)).Nodup :=
  (ids_stay_distinct state_two_books (by decide) (by decide)).1 _
    (by
      intro op hop
      simp only [List.mem_cons, List.mem_singleton, List.not_mem_nil, or_false] at hop
      rcases hop with hop | hop <;> rw [hop] <;> exact trivial)

/-! ## Claims about the ledger as a whole -/

theorem slot_change_keeps_identity (op : LedgerOp) (r r' : BorrowRecord)
    (h : slot_change op r r') :
    r'.id = r.id ∧ r'.book_id = r.book_id ∧ r'.reader_id = r.reader_id ∧
      r'.borrow_date = r.borrow_date := by
  cases op with
  | borrow env bid rid =>
    have h' : r' = r := h
    rw [h']
    exact ⟨rfl, rfl, rfl, rfl⟩
  | give_back env id =>
    rcases h with h | ⟨_, h⟩ <;> rw [h] <;> exact ⟨rfl, rfl, rfl, rfl⟩
  | renew env id nd =>
    rcases h with h | ⟨_, _, h | ⟨_, h⟩⟩ <;> rw [h] <;> exact ⟨rfl, rfl, rfl, rfl⟩
  | overdue env limit =>
    rcases h with h | ⟨_, h⟩ <;> rw [h] <;> exact ⟨rfl, rfl, rfl, rfl⟩

/-- The ledger after `borrow_book`: as before, or, on the path that passes all five checks
and returns the result of the save, with the new record appended. -/
theorem borrow_book_borrows_ret (env : Env) (s : State) (bid rid : List Char) :
    ((borrow_book env s bid rid).2.1.borrows = s.borrows ∧
        (borrow_book env s bid rid).1 ≠ 0) ∨
      ((borrow_book env s bid rid).2.1.borrows = s.borrows ++ [new_borrow_record env bid rid] ∧
        (borrow_book env s bid rid).1 = borrow_save_data env) := by
  rcases borrow_book_cases env s bid rid with h | h | h | h | h | h
  · left
    rw [h.2]
    exact ⟨rfl, by simp⟩
  · left
    rw [h.2.2]
    exact ⟨rfl, by simp⟩
  · obtain ⟨_, b, _, _, h⟩ := h
    left
    rw [h]
    exact ⟨rfl, by simp⟩
  · obtain ⟨_, b, _, _, _, h⟩ := h
    left
    rw [h]
    exact ⟨rfl, by simp⟩
  · obtain ⟨_, b, r, _, _, _, _, h⟩ := h
    left
    rw [h]
    exact ⟨rfl, by simp⟩
  · obtain ⟨_, ib, b, ir, r, _, _, _, _, h⟩ := h
    right
    rw [h]
    exact ⟨rfl, rfl⟩

/-- C31, as stated, fails: at `state0` a `borrow_book` that passes its checks while the
ledger file cannot be opened returns `-1`, so it is not a successful call, and the record
count has gone from `0` to `1`. -/
theorem failed_borrow_increases_count :
    (borrow_book env_ledger_unwritable state0 "B1".toList "R1".toList).1 = -1 ∧
      state0.borrows.length = 0 ∧
      (step state0
        (LedgerOp.borrow env_ledger_unwritable "B1".toList "R1".toList)).borrows.length = 1 := by
  decide

/-- C31 (amended): for every ledger and every call of `borrow_book`, `return_book`,
`renew_book` or `borrow_get_overdue`, the record count does not decrease; every existing
record keeps its slot, and its `id`, `book_id`, `reader_id` and `borrow_date` are unchanged;
the count is unchanged unless the call is a `borrow_book` that passes its checks, which
appends exactly one record and returns `0`, or `-1` when the ledger file cannot be written;
and a `borrow_book` that returns `0` has increased the count by exactly one. -/
theorem ledger_append_only (s : State) (op : LedgerOp) :
    s.borrows.length ≤ (step s op).borrows.length ∧
      (∀ (j : Nat) (r : BorrowRecord), s.borrows[j]? = some r →
        ∃ r', (step s op).borrows[j]? = some r' ∧ r'.id = r.id ∧ r'.book_id = r.book_id ∧
          r'.reader_id = r.reader_id ∧ r'.borrow_date = r.borrow_date) ∧
      ((step s op).borrows.length = s.borrows.length ∨
        ∃ env bid rid, op = LedgerOp.borrow env bid rid ∧
          (step s op).borrows = s.borrows ++ [new_borrow_record env bid rid] ∧
          (borrow_book env s bid rid).1 = (if env.borrows_file_ok = true then 0 else -1)) ∧
      (∀ env bid rid, op = LedgerOp.borrow env bid rid →
        (borrow_book env s bid rid).1 = 0 →
        (step s op).borrows.length = s.borrows.length + 1) := by
  have hslots : ∀ (j : Nat) (r : BorrowRecord), s.borrows[j]? = some r →
      ∃ r', (step s op).borrows[j]? = some r' ∧ r'.id = r.id ∧ r'.book_id = r.book_id ∧
        r'.reader_id = r.reader_id ∧ r'.borrow_date = r.borrow_date := by
    intro j r hj
    obtain ⟨r', hr', hch⟩ := step_slot s op j r hj
    exact ⟨r', hr', slot_change_keeps_identity op r r' hch⟩
  cases op with
  | borrow env bid rid =>
    have hstep : (step s (LedgerOp.borrow env bid rid)).borrows =
        (borrow_book env s bid rid).2.1.borrows := rfl
    rcases borrow_book_borrows_ret env s bid rid with ⟨hb, hret⟩ | ⟨hb, hret⟩
    · refine ⟨by rw [hstep, hb], hslots, Or.inl (by rw [hstep, hb]), ?_⟩
      intro env2 bid2 rid2 hop h0
      simp only [LedgerOp.borrow.injEq] at hop
      obtain ⟨h1, h2, h3⟩ := hop
      subst h1 h2 h3
      exact absurd h0 hret
    · refine ⟨by rw [hstep, hb]; simp, hslots, Or.inr ⟨env, bid, rid, rfl, by rw [hstep, hb], ?_⟩,
        ?_⟩
      · rw [hret]
        rfl
      · intro env2 bid2 rid2 _ _
        rw [hstep, hb]
        simp
  | give_back env id =>
    have hlen := return_book_length env s id
    exact ⟨Nat.le_of_eq hlen.symm, hslots, Or.inl hlen,
      fun env2 bid2 rid2 hop _ => by cases hop⟩
  | renew env id nd =>
    have hlen := renew_book_length env s id nd
    exact ⟨Nat.le_of_eq hlen.symm, hslots, Or.inl hlen,
      fun env2 bid2 rid2 hop _ => by cases hop⟩
  | overdue env limit =>
    have hlen := borrow_get_overdue_length env s limit
    exact ⟨Nat.le_of_eq hlen.symm, hslots, Or.inl hlen,
      fun env2 bid2 rid2 hop _ => by cases hop⟩

/-- C31 (amended) at `state0`: a `borrow_book` that returns `0` has increased the count by
one. -/
theorem ledger_append_only_witness :
    (step state0 (LedgerOp.borrow env0 "B1".toList "R1".toList)).borrows.length =
      state0.borrows.length + 1 :=
  (ledger_append_only state0 (LedgerOp.borrow env0 "B1".toList "R1".toList)).2.2.2
    env0 "B1".toList "R1".toList rfl (by decide)

/-- C36: whenever `borrow_book` fails a check, that is, the ledger is at capacity (return
value `-1`) or the return value is `-2`, `-3`, `-4` or `-5`, the whole state (ledger, books,
readers) is exactly as before the call and nothing is written to `*record`. -/
theorem borrow_book_failure_atomic (env : Env) (s : State) (bid rid : List Char) :
    (s.borrow_capacity ≤ (s.borrows.length : Int) →
      borrow_book env s bid rid = (-1, s, none)) ∧
    (((borrow_book env s bid rid).1 = -2 ∨ (borrow_book env s bid rid).1 = -3 ∨
        (borrow_book env s bid rid).1 = -4 ∨ (borrow_book env s bid rid).1 = -5) →
      (borrow_book env s bid rid).2 = (s, none)) := by
  refine ⟨borrow_book_at_capacity env s bid rid, ?_⟩
  rcases borrow_book_cases env s bid rid with h | h | h | h | h | h
  · rw [h.2]
    intro _
    rfl
  · rw [h.2.2]
    intro _
    rfl
  · obtain ⟨_, b, _, _, h⟩ := h
    rw [h]
    intro _
    rfl
  · obtain ⟨_, b, _, _, _, h⟩ := h
    rw [h]
    intro _
    rfl
  · obtain ⟨_, b, r, _, _, _, _, h⟩ := h
    rw [h]
    intro _
    rfl
  · obtain ⟨_, ib, b, ir, r, _, _, _, _, h⟩ := h
    rw [h]
    intro hret
    exfalso
    cases hok : env.borrows_file_ok <;> simp [borrow_save_data, hok] at hret

/-- C36 at `state_on_loan`: the borrow of `B1`, which has no available copy, returns `-3`
and nothing changes. -/
theorem borrow_book_failure_atomic_witness :
    (borrow_book env0 state_on_loan "B1".toList "R1".toList).2 = (state_on_loan, none) :=
  (borrow_book_failure_atomic env0 state_on_loan "B1".toList "R1".toList).2
    (Or.inr (Or.inl (by decide)))

/-! ## Claims about failing saves and about borrow followed by return -/

/-- C34: with the outcome of opening the books file as an input, for `book_add` (below
capacity), `book_delete` (identifier found) and `book_update` (identifier found) the array
afterwards holds the mutation whether or not the save works; the call returns `-1` when the
save fails and `0` when it succeeds. -/
theorem book_store_save_failure (env : Env) (books : List Book) (cap : Int) (book : Book)
    (id : List Char) :
    ((books.length : Int) < cap →
      (book_add env books cap book).2.1 = books ++ [(book_add env books cap book).2.2] ∧
      (env.books_file_ok = false → (book_add env books cap book).1 = -1) ∧
      (env.books_file_ok = true → (book_add env books cap book).1 = 0)) ∧
    (∀ (i : Nat) (found : Book),
      find_first (fun x => decide (x.id.val = id)) books = some (i, found) →
      (book_delete env books id).2 = books.eraseIdx i ∧
      (env.books_file_ok = false → (book_delete env books id).1 = -1) ∧
      (env.books_file_ok = true → (book_delete env books id).1 = 0)) ∧
    (∀ (i : Nat) (old : Book),
      find_first (fun x => decide (x.id.val = book.id.val)) books = some (i, old) →
      (book_update env books book).2 = books.set i book ∧
      (env.books_file_ok = false → (book_update env books book).1 = -1) ∧
      (env.books_file_ok = true → (book_update env books book).1 = 0)) := by
  refine ⟨?_, ?_, ?_⟩
  · intro h
    rw [book_add_room env books cap book h]
    refine ⟨rfl, ?_, ?_⟩ <;> intro hok <;> simp [book_save_data, hok]
  · intro i found h
    rw [book_delete_found env books id i found h]
    refine ⟨rfl, ?_, ?_⟩ <;> intro hok <;> simp [book_save_data, hok]
  · intro i old h
    rw [book_update_present env books book i old h]
    refine ⟨rfl, ?_, ?_⟩ <;> intro hok <;> simp [book_save_data, hok]

/-- C34 at the book array of `state0` with the books file unwritable: `book_add` returns
`-1` and the book is in the array all the same. -/
theorem book_store_save_failure_witness :
    (book_add env_books_unwritable state0.books state0.book_capacity (mkBook "B2" 2 2)).2.1 =
        state0.books ++
          [(book_add env_books_unwritable state0.books state0.book_capacity
            (mkBook "B2" 2 2)).2.2] ∧
      (book_add env_books_unwritable state0.books state0.book_capacity (mkBook "B2" 2 2)).1 =
        -1 :=
  have h := (book_store_save_failure env_books_unwritable state0.books state0.book_capacity
    (mkBook "B2" 2 2) []).1 (by decide)
  ⟨h.1, h.2.1 rfl⟩

theorem find_first_append_fresh {α : Type} (p : α → Bool) (y : α) :
    ∀ l : List α, (∀ x ∈ l, p x = false) → p y = true →
      find_first p (l ++ [y]) = some (l.length, y) := by
  intro l
  induction l with
  | nil =>
    intro _ hy
    simp [find_first, hy]
  | cons a t ih =>
    intro hall hy
    have ha : p a = false := hall a (List.mem_cons_self _ _)
    have ht : ∀ x ∈ t, p x = false := fun x hx => hall x (List.mem_cons_of_mem a hx)
    have hrec := ih ht hy
    simp only [List.cons_append, List.length_cons]
    unfold find_first
    rw [hrec]
    simp [ha]

theorem book_inc_dec (b : Book) :
    ({ ({ b with available_count := b.available_count - 1 } : Book) with
      available_count := b.available_count - 1 + 1 } : Book) = b := by
  cases b
  simp

/-- C37, as stated, fails: at `state0` the borrow succeeds and its record is the only one in
the ledger, and the `return_book` on that record right after it returns `-1`, not `0`, when
the ledger file can then not be opened. -/
theorem return_after_borrow_can_fail :
    (borrow_book env0 state0 "B1".toList "R1".toList).1 = 0 ∧
      state0.borrows = [] ∧
      (return_book env_ledger_unwritable (borrow_book env0 state0 "B1".toList "R1".toList).2.1
        "BR1".toList).1 = -1 := by
  decide

/-- C37 (amended): in a state whose copy counts are values of the type `int`, when
`borrow_book(bookId, readerId)` succeeds and the identifier of its record differs from the
identifiers of all records already in the ledger, a `return_book` on that identifier right
after it passes its checks, returning `0` when the ledger file can be written and `-1` when
it cannot; in both cases the book array and the reader array are then equal to what they
were before the borrow. -/
theorem borrow_then_return (env env' : Env) (s : State) (bid rid : List Char)
    (rec : BorrowRecord)
    (hint : ∀ b ∈ s.books, is_int b.available_count)
    (h : (borrow_book env s bid rid).1 = 0)
    (hrec : (borrow_book env s bid rid).2.2 = some rec)
    (hfresh : ∀ r ∈ s.borrows, r.id ≠ rec.id) :
    (return_book env' (borrow_book env s bid rid).2.1 rec.id.val).1 =
        (if env'.borrows_file_ok = true then 0 else -1) ∧
      (return_book env' (borrow_book env s bid rid).2.1 rec.id.val).2.books = s.books ∧
      (return_book env' (borrow_book env s bid rid).2.1 rec.id.val).2.readers = s.readers := by
  obtain ⟨_, ib, b, ir, r, hb, hav, hr, hlim, heq⟩ := borrow_book_ret_zero env s bid rid h
  rw [heq] at hrec
  have hrec2 : new_borrow_record env bid rid = rec := Option.some.inj hrec
  subst hrec2
  have hbfacts := find_first_some _ s.books ib b hb
  have hbid : (new_borrow_record env bid rid).book_id.val = bid :=
    strncpy20_val_of_eq b.id bid (by simpa using hbfacts.2.1)
  have hrid : (new_borrow_record env bid rid).reader_id.val = rid :=
    strncpy20_val_of_eq r.id rid (by simpa using (find_first_some _ s.readers ir r hr).2.1)
  have hfind : find_first
      (fun x : BorrowRecord => decide (x.id.val = (new_borrow_record env bid rid).id.val))
      (s.borrows ++ [new_borrow_record env bid rid]) =
      some (s.borrows.length, new_borrow_record env bid rid) := by
    apply find_first_append_fresh
    · intro x hx
      have hne := hfresh x hx
      simp only [decide_eq_false_iff_not]
      intro hc
      exact hne (Subtype.ext hc)
    · simp
  have hpb : (fun x : Book => decide (x.id.val = bid))
      { b with available_count := b.available_count - 1 } = true := hbfacts.2.1
  have hbook : find_first
      (fun x : Book => decide (x.id.val = (new_borrow_record env bid rid).book_id.val))
      (s.books.set ib { b with available_count := b.available_count - 1 }) =
      some (ib, { b with available_count := b.available_count - 1 }) := by
    rw [hbid]
    exact find_first_set _ s.books ib b _ hb hpb
  have hreader : find_first
      (fun x : Reader => decide (x.id.val = (new_borrow_record env bid rid).reader_id.val))
      s.readers = some (ir, r) := by
    rw [hrid]
    exact hr
  have hst : (new_borrow_record env bid rid).status ≠ BORROW_STATUS_RETURNED := by
    simp [new_borrow_record, BORROW_STATUS_BORROWED, BORROW_STATUS_RETURNED]
  have hret := return_book_of_valid env'
    { s with
      borrows := s.borrows ++ [new_borrow_record env bid rid]
      books := s.books.set ib { b with available_count := b.available_count - 1 } }
    (new_borrow_record env bid rid).id.val s.borrows.length (new_borrow_record env bid rid) ib
    { b with available_count := b.available_count - 1 } ir r hfind hst hbook hreader
  rw [heq]
  simp only
  rw [hret]
  refine ⟨rfl, ?_, rfl⟩
  have hw : wrap_int (b.available_count - 1 + 1) = b.available_count - 1 + 1 := by
    apply wrap_int_of_is_int
    have hsame : b.available_count - 1 + 1 = b.available_count := by omega
    rw [hsame]
    exact hint b (mem_of_getElem? s.books ib b hbfacts.1)
  show (s.books.set ib { b with available_count := b.available_count - 1 }).set ib
      { ({ b with available_count := b.available_count - 1 } : Book) with
        available_count := wrap_int (b.available_count - 1 + 1) } = s.books
  rw [hw, List.set_set, book_inc_dec]
  exact set_eq_self_of_getElem? s.books ib b hbfacts.1

/-- C37 (amended) at `state0`: borrow and return leave the books and the readers as they
were. -/
theorem borrow_then_return_witness :
    (return_book env0 (borrow_book env0 state0 "B1".toList "R1".toList).2.1
        (new_borrow_record env0 "B1".toList "R1".toList).id.val).1 = 0 ∧
      (return_book env0 (borrow_book env0 state0 "B1".toList "R1".toList).2.1
        (new_borrow_record env0 "B1".toList "R1".toList).id.val).2.books = state0.books ∧
      (return_book env0 (borrow_book env0 state0 "B1".toList "R1".toList).2.1
        (new_borrow_record env0 "B1".toList "R1".toList).id.val).2.readers = state0.readers :=
  borrow_then_return env0 env0 state0 "B1".toList "R1".toList
    (new_borrow_record env0 "B1".toList "R1".toList) (by decide) (by decide) (by decide)
    (by decide)

/-- C39 fails on the code: in `state_on_loan` the record `BR1` is renewable (not Returned,
`renew_count = 0`, due at `2593000`, after the current time `1000`); with `30` days entered,
the dialog calls `renew_book(borrow_id, 30)`, which takes `30` as the new due date, so the
`due_date` afterwards is `30` and not `2593000 + 30*24*60*60`. -/
theorem renew_dialog_stores_days_as_due_date :
    state_on_loan.borrows.map (fun r => (r.status, r.renew_count, r.due_date)) =
        [(BORROW_STATUS_BORROWED, 0, 2593000)] ∧
      env0.now ≤ 2593000 ∧
      (ui_renew_dialog_accept env0 state_on_loan "BR1".toList 30).borrows.map
        (fun r => r.due_date) = [30] ∧
      (2593000 : Int) + 30 * 24 * 60 * 60 ≠ 30 := by
  decide

/-! ## The CSV codec: writing a line and reading it back -/

theorem strip_quotes_quoted (f : List Char) :
    strip_quotes (['"'] ++ f ++ ['"']) = some f := by
  unfold strip_quotes
  have hlast : (['"'] ++ f ++ ['"']).getLast? = some '"' := by
    rw [List.getLast?_append]
    rfl
  have hlen : (['"'] ++ f ++ ['"']).length = f.length + 2 := by
    simp only [List.length_append, List.length_cons, List.length_nil]
    omega
  simp only [hlast, hlen]
  simp

theorem strip_quotes_plain (f : List Char) (h : '"' ∉ f) : strip_quotes f = some f := by
  unfold strip_quotes
  have hhead : ¬ (f.head? = some '"') := by
    intro hc
    cases f with
    | nil => simp at hc
    | cons a t =>
      simp only [List.head?_cons, Option.some.injEq] at hc
      exact h (by rw [hc]; exact List.mem_cons_self _ _)
  simp [hhead]

/-- Characters that are no double quotes, and no commas unless the scan is inside quotes, are
added to the current field one by one. -/
theorem parse_csv_loop_scan (max_fields : Nat) (rest : List Char) (q : Bool)
    (done : List (List Char)) (hroom : done.length < max_fields) :
    ∀ (f cur : List Char), '"' ∉ f → (q = true ∨ ',' ∉ f) →
      parse_csv_loop max_fields (f ++ rest) cur q done =
        parse_csv_loop max_fields rest (cur ++ f) q done := by
  intro f
  induction f with
  | nil => intro cur _ _; simp
  | cons c t ih =>
    intro cur hq hcomma
    have hc : c ≠ '"' := by
      intro hc
      exact hq (by rw [hc]; exact List.mem_cons_self _ _)
    have hq' : '"' ∉ t := fun hm => hq (List.mem_cons_of_mem c hm)
    have hcomma' : q = true ∨ ',' ∉ t := by
      rcases hcomma with h | h
      · exact Or.inl h
      · exact Or.inr (fun hm => h (List.mem_cons_of_mem c hm))
    have hsep : ¬ (c = ',' ∧ q = false) := by
      rintro ⟨h1, h2⟩
      rcases hcomma with h | h
      · rw [h] at h2
        cases h2
      · exact h (by rw [h1]; exact List.mem_cons_self _ _)
    rw [List.cons_append]
    conv_lhs => unfold parse_csv_loop
    rw [if_pos hroom, if_neg hc, if_neg hsep, ih (cur ++ [c]) hq' hcomma']
    simp

/-- The text that `fields_to_csv_line` writes for one field. -/
theorem need_quotes_eq (f : List Char) (h : '"' ∉ f) :
    need_quotes f = f.any (fun c => c = ',' || isspace c) := by
  unfold need_quotes
  induction f with
  | nil => rfl
  | cons c t ih =>
    have hc : c ≠ '"' := by
      intro hc
      exact h (by rw [hc]; exact List.mem_cons_self _ _)
    have ht : '"' ∉ t := fun hm => h (List.mem_cons_of_mem c hm)
    simp only [List.any_cons, ih ht]
    simp [hc]

theorem no_comma_of_not_need_quotes (f : List Char) (h : need_quotes f = false) : ',' ∉ f := by
  intro hm
  unfold need_quotes at h
  rw [List.any_eq_false] at h
  have := h ',' hm
  simp at this

/-- A written field is read back as one field: the scan passes over it without ending a
field, and the quote removal gives the original text. -/
theorem parse_csv_loop_field (max_fields : Nat) (f rest : List Char) (done : List (List Char))
    (hroom : done.length < max_fields) (hq : '"' ∉ f) :
    parse_csv_loop max_fields (csv_field_spec f ++ rest) [] false done =
        parse_csv_loop max_fields rest (csv_field_spec f) false done ∧
      strip_quotes (csv_field_spec f) = some f := by
  unfold csv_field_spec
  rw [← need_quotes_eq f hq]
  cases hn : need_quotes f with
  | false =>
    simp only [Bool.false_eq_true, if_false]
    refine ⟨?_, strip_quotes_plain f hq⟩
    have h := parse_csv_loop_scan max_fields rest false done hroom f [] hq
      (Or.inr (no_comma_of_not_need_quotes f hn))
    simpa using h
  | true =>
    simp only [if_true]
    refine ⟨?_, strip_quotes_quoted f⟩
    have h1 : parse_csv_loop max_fields (['"'] ++ f ++ ['"'] ++ rest) [] false done =
        parse_csv_loop max_fields (f ++ ('"' :: rest)) ['"'] true done := by
      simp only [List.cons_append, List.nil_append, List.append_assoc]
      conv_lhs => unfold parse_csv_loop
      rw [if_pos hroom, if_pos rfl]
      rfl
    have h2 := parse_csv_loop_scan max_fields ('"' :: rest) true done hroom f ['"'] hq
      (Or.inl rfl)
    have h3 : parse_csv_loop max_fields ('"' :: rest) (['"'] ++ f) true done =
        parse_csv_loop max_fields rest (['"'] ++ f ++ ['"']) false done := by
      conv_lhs => unfold parse_csv_loop
      rw [if_pos hroom, if_pos rfl]
      rfl
    rw [h1, h2, h3]

/-- Reading back a written line gives the fields that were written. -/
theorem parse_csv_loop_line (max_fields : Nat) :
    ∀ (fields : List (List Char)) (done : List (List Char)), fields ≠ [] →
      (∀ f ∈ fields, '"' ∉ f) → done.length + fields.length ≤ max_fields →
      parse_csv_loop max_fields (csv_line_spec fields) [] false done =
        some (done ++ fields) := by
  intro fields
  induction fields with
  | nil => intro done h; exact absurd rfl h
  | cons f t ih =>
    intro done _ hq hlen
    have hqf : '"' ∉ f := hq f (List.mem_cons_self _ _)
    have hroom : done.length < max_fields := by
      simp only [List.length_cons] at hlen
      omega
    cases t with
    | nil =>
      have hfield := parse_csv_loop_field max_fields f [] done hroom hqf
      rw [List.append_nil] at hfield
      show parse_csv_loop max_fields (csv_field_spec f) [] false done = _
      rw [hfield.1]
      unfold parse_csv_loop
      rw [if_pos hroom, hfield.2]
    | cons g rest =>
      have hfield := parse_csv_loop_field max_fields f
        ([','] ++ csv_line_spec (g :: rest)) done hroom hqf
      have hsplit : csv_line_spec (f :: g :: rest) =
          csv_field_spec f ++ ([','] ++ csv_line_spec (g :: rest)) := by
        show csv_field_spec f ++ [','] ++ csv_line_spec (g :: rest) = _
        rw [List.append_assoc]
      rw [hsplit, hfield.1]
      simp only [List.singleton_append]
      conv_lhs => unfold parse_csv_loop
      have hc : ¬ ((',' : Char) = '"') := by decide
      rw [if_pos hroom, if_neg hc, if_pos ⟨rfl, rfl⟩, hfield.2]
      simp only
      have hrec := ih (done ++ [f]) (List.cons_ne_nil g rest)
        (fun x hx => hq x (List.mem_cons_of_mem f hx))
        (by simp only [List.length_append, List.length_cons, List.length_nil] at hlen ⊢; omega)
      rw [hrec]
      simp

/-- Writing the fields into a buffer that is large enough gives the fields joined by commas,
each one wrapped in double quotes when it holds a comma or whitespace. -/
theorem fields_to_csv_loop_eq (size : Nat) :
    ∀ (fields : List (List Char)) (line : List Char), fields ≠ [] →
      (∀ f ∈ fields, '"' ∉ f) → line.length + (csv_line_spec fields).length < size →
      fields_to_csv_loop size fields line = line ++ csv_line_spec fields := by
  intro fields
  induction fields with
  | nil => intro line h; exact absurd rfl h
  | cons f t ih =>
    intro line _ hq hlen
    have hqf : '"' ∉ f := hq f (List.mem_cons_self _ _)
    have htext : (if need_quotes f then ['"'] ++ f ++ ['"'] else f) = csv_field_spec f := by
      unfold csv_field_spec
      rw [need_quotes_eq f hqf]
    cases t with
    | nil =>
      have hl : line.length + (csv_field_spec f).length < size := hlen
      unfold fields_to_csv_loop
      simp only [htext]
      rw [if_neg (by omega)]
      rfl
    | cons g rest =>
      have hsplit : csv_line_spec (f :: g :: rest) =
          csv_field_spec f ++ [','] ++ csv_line_spec (g :: rest) := rfl
      rw [hsplit] at hlen
      simp only [List.length_append, List.length_cons, List.length_nil] at hlen
      unfold fields_to_csv_loop
      simp only [htext]
      rw [if_neg (by omega)]
      rw [if_pos (by simp only [List.length_append]; omega)]
      rw [ih (line ++ csv_field_spec f ++ [',']) (List.cons_ne_nil g rest)
        (fun x hx => hq x (List.mem_cons_of_mem f hx))
        (by simp only [List.length_append, List.length_cons, List.length_nil]; omega)]
      rw [hsplit]
      simp only [List.append_assoc]

/-- Claim C35: for a non-empty list of fields none of which holds a double quote, written into
a buffer that is large enough, `fields_to_csv_line` produces the fields joined by commas with
exactly the fields that hold a comma or whitespace wrapped in double quotes, and
`parse_csv_line` reads that line back as the original fields, in number and content. -/
theorem csv_round_trip (fields : List (List Char)) (size : Nat) (before : List Char)
    (hne : fields ≠ []) (hq : ∀ f ∈ fields, '"' ∉ f)
    (hsize : (csv_line_spec fields).length < size) :
    fields_to_csv_line fields size before = csv_line_spec fields ∧
      parse_csv_line (fields_to_csv_line fields size before) (fields.length : Int) =
        some ((fields.length : Int), fields) := by
  have hwrite : fields_to_csv_line fields size before = csv_line_spec fields := by
    unfold fields_to_csv_line
    rw [if_neg (by
      rintro (h | h)
      · omega
      · exact hne h)]
    have h := fields_to_csv_loop_eq size fields [] hne hq (by simpa using hsize)
    simpa using h
  refine ⟨hwrite, ?_⟩
  rw [hwrite]
  have hpos : 0 < fields.length := List.length_pos.mpr hne
  unfold parse_csv_line
  rw [if_neg (by omega)]
  have h := parse_csv_loop_line fields.length fields [] hne hq (by simp)
  simp only [Int.toNat_ofNat]
  rw [h]
  simp

/-- Witness for C35: three fields, one with a comma and one with a blank, written into a
buffer of 1024 characters and read back. -/
theorem csv_round_trip_witness :
    fields_to_csv_line ["a,b".toList, "c d".toList, "e".toList] 1024 [] =
        "\"a,b\",\"c d\",e".toList ∧
      parse_csv_line (fields_to_csv_line ["a,b".toList, "c d".toList, "e".toList] 1024 []) 3 =
        some (3, ["a,b".toList, "c d".toList, "e".toList]) :=
  csv_round_trip ["a,b".toList, "c d".toList, "e".toList] 1024 [] (by decide) (by decide)
    (by decide)

/-! ## The books file: saving and loading -/

/-- A book without commas in its fields is read back as it was written. -/
theorem book_save_load_plain :
    book_load_data (some (book_file_text [mkBook "B1" 3 2, mkBook "B2" 1 (-1)])) 1000 [] =
      some [mkBook "B1" 3 2, mkBook "B2" 1 (-1)] := by
  decide

/-- Claim C32: `book_save_data` writes the fields as they are, without quoting, so a book
whose title is `A,B` (no double quote in any field) is written as a line of nine fields;
`book_load_data` reads the first eight of them and the record that comes back has title `A`,
author `B`, and the numbers shifted by one field. -/
theorem book_save_load_comma_title :
    (∀ c ∈ book_comma_title.title.toList, c ≠ '"') ∧
      book_load_data (some (book_file_text [book_comma_title])) 1000 [] =
        some [{ id := cstr "B2", title := "A", author := "B", publisher := "A", isbn := "P",
                publish_year := 0, total_count := 2020, available_count := 3 }] ∧
      book_load_data (some (book_file_text [book_comma_title])) 1000 [] ≠
        some [book_comma_title] := by
  decide

/-- A data line of seven fields is skipped, and the line after it is loaded. -/
theorem seven_field_line_is_skipped :
    book_load_data (some books_text_seven_fields) 1000 [] = some [mkBook "B8" 1 1] := by
  decide

/-- Claim C33: `parse_csv_line(line, fields, 8)` stops after eight fields and returns 8 for a
line of nine fields, so `book_load_data` does not skip that line: it builds a record from its
first eight fields. -/
theorem nine_field_line_is_loaded :
    parse_csv_line "B9,T,A,P,I,2020,1,1,extra".toList 8 =
        some (8, ["B9".toList, "T".toList, "A".toList, "P".toList, "I".toList,
          "2020".toList, "1".toList, "1".toList]) ∧
      book_load_data (some books_text_nine_fields) 1000 [] = some [mkBook "B9" 1 1] := by
  decide

/-! ## The quote removal of `parse_csv_line` -/

/-- The number of fields of a completed scan is at most `max_fields`, and at least one. -/
theorem parse_csv_loop_length (max_fields : Nat) (hmax : 0 < max_fields) :
    ∀ (input cur : List Char) (q : Bool) (done fields : List (List Char)),
      done.length ≤ max_fields →
      parse_csv_loop max_fields input cur q done = some fields →
      1 ≤ fields.length ∧ fields.length ≤ max_fields := by
  intro input
  induction input with
  | nil =>
    intro cur q done fields hdone h
    unfold parse_csv_loop at h
    by_cases hroom : done.length < max_fields
    · rw [if_pos hroom] at h
      cases hs : strip_quotes cur with
      | none => rw [hs] at h; cases h
      | some f =>
        rw [hs] at h
        simp only [Option.some.injEq] at h
        rw [← h]
        simp only [List.length_append, List.length_cons, List.length_nil]
        omega
    · rw [if_neg hroom] at h
      simp only [Option.some.injEq] at h
      rw [← h]
      omega
  | cons c rest ih =>
    intro cur q done fields hdone h
    unfold parse_csv_loop at h
    by_cases hroom : done.length < max_fields
    · rw [if_pos hroom] at h
      by_cases hc : c = '"'
      · rw [if_pos hc] at h
        exact ih _ _ _ _ hdone h
      · rw [if_neg hc] at h
        by_cases hsep : c = ',' ∧ q = false
        · rw [if_pos hsep] at h
          cases hs : strip_quotes cur with
          | none => rw [hs] at h; cases h
          | some f =>
            rw [hs] at h
            refine ih _ _ _ _ ?_ h
            simp only [List.length_append, List.length_cons, List.length_nil]
            omega
        · rw [if_neg hsep] at h
          exact ih _ _ _ _ hdone h
    · rw [if_neg hroom] at h
      simp only [Option.some.injEq] at h
      rw [← h]
      omega

/-- Whenever `parse_csv_line` with `max_fields > 0` completes, the count it returns is the
number of fields and lies between 1 and `max_fields`. -/
theorem parse_csv_line_count_range (line : List Char) (max_fields n : Int)
    (fields : List (List Char)) (hmax : 0 < max_fields)
    (h : parse_csv_line line max_fields = some (n, fields)) :
    n = fields.length ∧ 1 ≤ n ∧ n ≤ max_fields := by
  unfold parse_csv_line at h
  rw [if_neg (by omega)] at h
  cases hl : parse_csv_loop max_fields.toNat line [] false [] with
  | none => rw [hl] at h; cases h
  | some fs =>
    rw [hl] at h
    simp only [Option.some.injEq, Prod.mk.injEq] at h
    have hr := parse_csv_loop_length max_fields.toNat (by omega) line [] false [] fs
      (by simp) hl
    rw [← h.2, ← h.1]
    refine ⟨rfl, ?_, ?_⟩ <;> omega

/-- Claim C38: on the line that consists of one double quote, with `max_fields = 8`, the
field has length 1, its first and its last character are that double quote, so the quote
removal runs with `len - 2 = -1`: the copy length is negative and the terminator is stored
at index `-1`, outside the field buffer. -/
theorem parse_csv_line_lone_quote :
    (['"'] : List Char).length = 1 ∧ strip_quotes ['"'] = none ∧
      parse_csv_line ['"'] 8 = none ∧ parse_csv_line "a,\"".toList 8 = none := by
  decide

end BookManage
